import Mathlib

/-!
Zap::ChatMessageDisplayer, the timed message ring buffer.

Shallow embedding of `src/zap/ChatMessageDisplayer.cpp`.

* `U32` counters (`mFirst`, `mLast`, `mNextGroupId`, timer counters) are natural
  numbers; every increment and the unsigned subtraction of `getMessageCount` are
  taken modulo `2^32` explicitly.
* `mMessages` is resized once, by the constructor, to `MAX_MESSAGES + 1` entries and
  never resized again; it is a total map from the `MAX_MESSAGES + 1` physical
  indices to slots.
* `F32 helperFadeIn` is only ever compared with `0`; it is a rational number.
-/

namespace Zap

/-- The width of the `U32` counters. -/
abbrev U32_MOD : Nat := 4294967296

/-- Conversion of an `S32` value to `U32`, as done implicitly by the C++ code. -/
def toU32 (x : Int) : Nat := (x % 4294967296).toNat

/-- The `S32` value of an integer result: 32-bit two's-complement arithmetic, the result
taken modulo `2^32` into `[-2^31, 2^31)`. -/
def toS32 (x : Int) : Int := (x + 2147483648) % 4294967296 - 2147483648

/-- Line 18: `static const S32 FADE_TIME = 100;` -/
abbrev FADE_TIME : Nat := 100

/-- Line 58: `const U32 ChatMessageDisplayer::MAX_MESSAGES = 24;` -/
abbrev MAX_MESSAGES : Nat := 24

/-- The size given to `mMessages` by the constructor (line 66): `MAX_MESSAGES + 1`. -/
abbrev MSG_SLOTS : Nat := MAX_MESSAGES + 1

/-- Modelled from the spec: the `Color` class is not part of the sources at hand; the
spec calls it `RGB`.  Its components are only stored and copied by the displayer. -/
structure Color where
  r : Nat
  g : Nat
  b : Nat
  deriving DecidableEq, Repr

/-- Modelled from the spec: the `Timer` class (the spec's `Countdown`) is not part of
the sources at hand.  It holds a period and a remaining count, both `U32`. -/
structure Timer where
  mPeriod : Nat
  mCurrentCounter : Nat
  deriving DecidableEq, Repr

namespace Timer

/-- Modelled from the spec: `Timer::getCurrent`, the remaining count of the countdown. -/
def getCurrent (t : Timer) : Nat := t.mCurrentCounter

/-- Modelled from the spec: `Timer::clear`, the countdown is stopped at zero. -/
def clear (t : Timer) : Timer := { t with mCurrentCounter := 0 }

/-- Modelled from the spec: `Timer::setPeriod`, only the period changes. -/
def setPeriod (t : Timer) (period : Nat) : Timer := { t with mPeriod := period }

/-- Modelled from the spec: `Timer::reset()`, the countdown restarts at its period. -/
def reset (t : Timer) : Timer := { t with mCurrentCounter := t.mPeriod }

/-- Modelled from the spec: `Timer::reset(time)`, a fresh countdown of the given
duration. -/
def resetTo (_t : Timer) (time : Nat) : Timer := { mPeriod := time, mCurrentCounter := time }

/-- Modelled from the spec: `Timer::update(timeDelta)` advances the countdown and
returns `true` exactly on the update in which the count reaches zero; a countdown
already at zero stays there and reports nothing. -/
def update (t : Timer) (timeDelta : Nat) : Timer × Bool :=
  if t.mCurrentCounter = 0 then (t, false)
  else if timeDelta ≥ t.mCurrentCounter then ({ t with mCurrentCounter := 0 }, true)
  else ({ t with mCurrentCounter := t.mCurrentCounter - timeDelta }, false)

end Timer

/-- One line of displayed text (`ColorTimerString`). -/
structure ColorTimerString where
  str : String
  color : Color
  groupId : Nat
  timer : Timer
  usingFadeTimer : Bool
  fadeTimer : Timer
  deriving DecidableEq, Repr

namespace ColorTimerString

/-- Lines 21-29: `ColorTimerString::set`. -/
def set (m : ColorTimerString) (s : String) (useFadeTimer : Bool) (c : Color)
    (time : Nat) (id : Nat) : ColorTimerString :=
  { str := s
    color := c
    groupId := id
    timer := m.timer.resetTo time
    usingFadeTimer := useFadeTimer
    fadeTimer := m.fadeTimer.clear }

/-- Lines 33-50: `ColorTimerString::idle`; the Boolean is `true` when the item is
disappearing. -/
def idle (m : ColorTimerString) (timeDelta : Nat) : ColorTimerString × Bool :=
  let r := m.timer.update timeDelta
  if r.2 then
    if !m.usingFadeTimer then ({ m with timer := r.1 }, true)
    else ({ m with timer := r.1, fadeTimer := m.fadeTimer.resetTo FADE_TIME }, false)
  else
    let f := m.fadeTimer.update timeDelta
    ({ m with timer := r.1, fadeTimer := f.1 }, f.2)

/-- The test of lines 286-287: the main timer has run out and the slot is not fading. -/
def messageHasExpired (m : ColorTimerString) : Bool :=
  m.timer.getCurrent == 0 && m.fadeTimer.getCurrent == 0

end ColorTimerString

/-- Modelled from the spec: the enumeration `MessageDisplayMode` is declared in a header
that is not part of the sources at hand; the spec lists its members in the order in
which they are cycled, `ShortTimeout`, `ShortFixed`, `LongFixed`, followed in the code by
the member count `MessageDisplayModes`. -/
inductive MessageDisplayMode where
  | ShortTimeout
  | ShortFixed
  | LongFixed
  deriving DecidableEq, Repr

/-- The state of a `ChatMessageDisplayer`. -/
structure ChatMessageDisplayer where
  mFirst : Nat
  mLast : Nat
  mFull : Bool
  mMessages : Fin MSG_SLOTS → ColorTimerString
  mChatScrollTimer : Timer
  mDisplayMode : MessageDisplayMode
  mMessagesToShowInShortMode : Int
  mTopDown : Bool
  mNextGroupId : Nat

namespace ChatMessageDisplayer

/-- The physical index `i % mMessages.size()` of a logical position. -/
def slotIndex (i : Nat) : Fin MSG_SLOTS := ⟨i % MSG_SLOTS, Nat.mod_lt i (by decide)⟩

/-- The slot `mMessages[i % mMessages.size()]`. -/
def slotAt (d : ChatMessageDisplayer) (i : Nat) : ColorTimerString :=
  d.mMessages (slotIndex i)

/-- Lines 96-101: the body of the loop of `reset`, applied to one slot. -/
def clearSlot (m : ColorTimerString) : ColorTimerString :=
  { m with timer := m.timer.clear, fadeTimer := m.fadeTimer.clear, str := "" }

/-- Lines 96-101: the loop of `reset`, run over a list of physical indices. -/
def resetLoop (l : List (Fin MSG_SLOTS)) (d : ChatMessageDisplayer) : ChatMessageDisplayer :=
  l.foldl
    (fun d i => { d with mMessages := Function.update d.mMessages i (clearSlot (d.mMessages i)) }) d

/-- Lines 92-102: `ChatMessageDisplayer::reset`. -/
def reset (d : ChatMessageDisplayer) : ChatMessageDisplayer :=
  resetLoop (List.finRange MSG_SLOTS) { d with mFirst := 0, mLast := 0, mFull := false }

/-- Lines 142-145: `ChatMessageDisplayer::getMessageCount`, an unsigned subtraction. -/
def getMessageCount (d : ChatMessageDisplayer) : Nat :=
  (d.mFirst + U32_MOD - d.mLast % U32_MOD) % U32_MOD

/-- Lines 228-239: `ChatMessageDisplayer::getNumberOfMessagesToShow`. -/
def getNumberOfMessagesToShow (d : ChatMessageDisplayer) (composingMessage : Bool) : Nat :=
  if composingMessage then MAX_MESSAGES
  else if d.mDisplayMode = .ShortTimeout ∨ d.mDisplayMode = .ShortFixed then
    toU32 d.mMessagesToShowInShortMode
  else MAX_MESSAGES

/-- Lines 243-246: `ChatMessageDisplayer::showExpiredMessages`. -/
def showExpiredMessages (d : ChatMessageDisplayer) (composingMessage : Bool) : Bool :=
  composingMessage || decide (d.mDisplayMode ≠ .ShortTimeout)

/-- Lines 249-252: `ChatMessageDisplayer::isScrolling`. -/
def isScrolling (d : ChatMessageDisplayer) : Bool :=
  decide (d.mChatScrollTimer.getCurrent > 0)

/-- Lines 111-116: the body of the loop of `idle` for the physical slot `i`. -/
def idleSlot (timeDelta : Nat) (composingMessage : Bool) (d : ChatMessageDisplayer)
    (i : Fin MSG_SLOTS) : ChatMessageDisplayer :=
  let r := (d.mMessages i).idle timeDelta
  let d1 := { d with mMessages := Function.update d.mMessages i r.1 }
  if r.2 then
    let d2 := { d1 with mLast := (d1.mLast + 1) % U32_MOD }
    if d2.mTopDown && decide (d2.getMessageCount ≤ d2.getNumberOfMessagesToShow composingMessage) then
      { d2 with mChatScrollTimer := d2.mChatScrollTimer.reset }
    else d2
  else d1

/-- Lines 110-116: the loop of `idle`, run over a list of physical indices. -/
def idleLoop (timeDelta : Nat) (composingMessage : Bool) (l : List (Fin MSG_SLOTS))
    (d : ChatMessageDisplayer) : ChatMessageDisplayer :=
  l.foldl (idleSlot timeDelta composingMessage) d

/-- Lines 105-117: `ChatMessageDisplayer::idle` (the spec's `tick`). -/
def idle (d : ChatMessageDisplayer) (timeDelta : Nat) (composingMessage : Bool) :
    ChatMessageDisplayer :=
  idleLoop timeDelta composingMessage (List.finRange MSG_SLOTS)
    { d with mChatScrollTimer := (d.mChatScrollTimer.update timeDelta).1 }

/-- Lines 121-126: `ChatMessageDisplayer::toggleDisplayMode`: the enumeration value is
increased by one and set back to the first member when it reaches the member count
`MessageDisplayModes`. -/
def toggleDisplayMode (d : ChatMessageDisplayer) : ChatMessageDisplayer :=
  let next : MessageDisplayMode :=
    match d.mDisplayMode with
    | .ShortTimeout => .ShortFixed
    | .ShortFixed => .LongFixed
    | .LongFixed => .ShortTimeout
  { d with mDisplayMode := next }

/-- Lines 130-139: `ChatMessageDisplayer::advanceFirst`. -/
def advanceFirst (d : ChatMessageDisplayer) : ChatMessageDisplayer :=
  let d1 := { d with mFirst := (d.mFirst + 1) % U32_MOD }
  if d1.mLast % MSG_SLOTS = d1.mFirst % MSG_SLOTS then
    { d1 with mLast := (d1.mLast + 1) % U32_MOD, mFull := true }
  else d1

/-- Lines 177-178, the body of the loop of `onChatMessageReceived` (the spec's
`insertLine(text, color, groupId)`); `expireTime` is the constant `MESSAGE_EXPIRE_TIME`,
declared in a header that is not part of the sources at hand. -/
def insertLine (expireTime : Nat) (line : String) (msgColor : Color) (id : Nat)
    (d : ChatMessageDisplayer) : ChatMessageDisplayer :=
  let d1 := d.advanceFirst
  let m := (d1.mMessages (slotIndex d1.mFirst)).set line (!d1.mTopDown) msgColor expireTime id
  { d1 with mMessages := Function.update d1.mMessages (slotIndex d1.mFirst) m }

/-- Lines 175-179: the loop of `onChatMessageReceived` over the wrapped lines. -/
def insertLines (expireTime : Nat) (msgColor : Color) (id : Nat) :
    List String → ChatMessageDisplayer → ChatMessageDisplayer
  | [], d => d
  | line :: rest, d => insertLines expireTime msgColor id rest (insertLine expireTime line msgColor id d)

/-- Lines 168-185: `ChatMessageDisplayer::onChatMessageReceived`; `lines` is the result
of the external `wrapString(substitueVars(msg), ...)`. -/
def onChatMessageReceived (expireTime : Nat) (msgColor : Color) (lines : List String)
    (d : ChatMessageDisplayer) : ChatMessageDisplayer :=
  let d1 := insertLines expireTime msgColor d.mNextGroupId lines d
  let d2 := { d1 with mNextGroupId := (d1.mNextGroupId + 1) % U32_MOD }
  if !d2.mTopDown then { d2 with mChatScrollTimer := d2.mChatScrollTimer.reset } else d2

/-- Lines 282-313: the loop of `getCountOfMessagesToDisplay`, entered at logical
position `i` with the running values of `messagesToDisplay` and
`scrollingMessageCount`; the result is the value of `messagesToDisplay` on exit. -/
def countLoop (d : ChatMessageDisplayer) (helperFadeIn : ℚ) (composingMessage : Bool)
    (scrolling : Bool) (messagesBeingScrolledOff : Nat) :
    Nat → Nat → Nat → Nat
  | 0, messagesToDisplay, _ => messagesToDisplay
  | i + 1, messagesToDisplay, scrollingMessageCount =>
    let hide := (d.slotAt (i + 1)).messageHasExpired &&
      !(composingMessage || decide (helperFadeIn > 0) || decide (d.mDisplayMode ≠ .ShortTimeout))
    if hide && !scrolling then messagesToDisplay
    else
      let scrollingMessageCount1 := if hide then scrollingMessageCount + 1 else scrollingMessageCount
      if hide && decide (scrollingMessageCount1 > messagesBeingScrolledOff) then messagesToDisplay
      else
        let messagesToDisplay1 := messagesToDisplay + 1
        if messagesToDisplay1 ≥ d.getNumberOfMessagesToShow composingMessage then messagesToDisplay1
        else countLoop d helperFadeIn composingMessage scrolling messagesBeingScrolledOff
          i messagesToDisplay1 scrollingMessageCount1

/-- Lines 268-276: the number of extra messages rendered while scrolling. -/
def messagesBeingScrolledOff (d : ChatMessageDisplayer) : Nat :=
  if d.isScrolling then
    if d.mTopDown then 1 else if d.mFull then 1 else 0
  else 0

/-- Lines 257-316: `ChatMessageDisplayer::getCountOfMessagesToDisplay` (the spec's
`visibleCount`). -/
def getCountOfMessagesToDisplay (d : ChatMessageDisplayer) (helperFadeIn : ℚ)
    (composingMessage : Bool) : Nat :=
  if d.mFirst = 0 then 0
  else if helperFadeIn > 0 then min MAX_MESSAGES d.mFirst
  else countLoop d helperFadeIn composingMessage d.isScrolling d.messagesBeingScrolledOff
    d.mFirst 0 0

/-- A sequence of `insertLine` calls, one per `(text, color, groupId)` entry, with no
tick in between. -/
def insertMany (expireTime : Nat) :
    List (String × Color × Nat) → ChatMessageDisplayer → ChatMessageDisplayer
  | [], d => d
  | x :: rest, d => insertMany expireTime rest (insertLine expireTime x.1 x.2.1 x.2.2 d)

/-- Lines 62-81: the constructor; `scrollTime` is the constant `SCROLL_TIME`, declared
in a header that is not part of the sources at hand.  The entries of the freshly
resized `mMessages` are default-constructed. -/
def construct (scrollTime : Nat) (msgCount : Int) (topDown : Bool) : ChatMessageDisplayer :=
  let blank : ColorTimerString :=
    { str := "", color := ⟨0, 0, 0⟩, groupId := 0, timer := ⟨0, 0⟩,
      usingFadeTimer := false, fadeTimer := ⟨0, 0⟩ }
  let d0 : ChatMessageDisplayer :=
    { mFirst := 0, mLast := 0, mFull := false, mMessages := fun _ => blank,
      mChatScrollTimer := Timer.setPeriod ⟨0, 0⟩ scrollTime,
      mDisplayMode := .ShortTimeout, mMessagesToShowInShortMode := msgCount,
      mTopDown := topDown, mNextGroupId := 0 }
  { d0.reset with
    mMessagesToShowInShortMode := msgCount, mTopDown := topDown,
    mDisplayMode := .ShortTimeout, mNextGroupId := 0 }

/-- The states reached from the reset buffer `d0.reset` by `insertLine` calls, all with
the expiry duration `expireTime`, interleaved with ticks of arbitrary `timeDelta`. -/
inductive ReachableIT (expireTime : Nat) (d0 : ChatMessageDisplayer) :
    ChatMessageDisplayer → Prop where
  | start : ReachableIT expireTime d0 d0.reset
  | insert (d : ChatMessageDisplayer) (line : String) (msgColor : Color) (id : Nat) :
      ReachableIT expireTime d0 d →
      ReachableIT expireTime d0 (insertLine expireTime line msgColor id d)
  | tick (d : ChatMessageDisplayer) (timeDelta : Nat) (composingMessage : Bool) :
      ReachableIT expireTime d0 d →
      ReachableIT expireTime d0 (d.idle timeDelta composingMessage)

/-- The per-slot facts that hold in every slot of a buffer after `reset`: the fade
timer never exceeds `FADE_TIME`, a slot whose expiry timer runs was set by this buffer
and is not fading, and a fade timer only runs in a bottom-anchored buffer. -/
def SlotOk (expireTime : Nat) (topDown : Bool) (m : ColorTimerString) : Prop :=
  m.timer.mCurrentCounter ≤ expireTime ∧ m.fadeTimer.mCurrentCounter ≤ FADE_TIME ∧
  (m.timer.mCurrentCounter ≠ 0 →
    m.usingFadeTimer = !topDown ∧ m.fadeTimer.mCurrentCounter = 0) ∧
  (m.fadeTimer.mCurrentCounter ≠ 0 → topDown = false ∧ 0 < expireTime)

/-- Age order of the retained slots: an older retained slot has no more expiry time
left than a newer one, and once the newer one has run out, no more fade time. -/
def AgeOrdered (d : ChatMessageDisplayer) : Prop :=
  ∀ i j : Nat, 1 ≤ i → i < j → j ≤ d.mFirst → d.mFirst < i + MSG_SLOTS →
    (d.slotAt i).timer.mCurrentCounter ≤ (d.slotAt j).timer.mCurrentCounter ∧
    ((d.slotAt j).timer.mCurrentCounter = 0 →
      (d.slotAt i).fadeTimer.mCurrentCounter ≤ (d.slotAt j).fadeTimer.mCurrentCounter)

/-- The invariant of the states reached from a reset buffer by inserts and ticks that
carries the age order: the head counter is a `U32` value, every slot satisfies
`SlotOk`, and the retained slots are `AgeOrdered`. -/
def AgeInv (expireTime : Nat) (d : ChatMessageDisplayer) : Prop :=
  d.mFirst < U32_MOD ∧ (∀ k, SlotOk expireTime d.mTopDown (d.mMessages k)) ∧ AgeOrdered d

/-- The state after the lines `ls` were inserted into a reset buffer with no tick in
between, while the head counter has not wrapped: `head` counts the inserts, `tail`
trails it by `MAX_MESSAGES`, and each of the `MAX_MESSAGES + 1` newest logical positions
still holds its line with a fresh expiry timer. -/
def InsertedFrom (expireTime : Nat) (ls : List (String × Color × Nat))
    (d : ChatMessageDisplayer) : Prop :=
  d.mFirst = ls.length ∧ d.mLast = ls.length - MAX_MESSAGES ∧
  d.mFull = decide (MSG_SLOTS ≤ ls.length) ∧
  ∀ i : Nat, 1 ≤ i → i ≤ ls.length → ls.length < i + MSG_SLOTS →
    ls[i - 1]? = some ((d.slotAt i).str, (d.slotAt i).color, (d.slotAt i).groupId) ∧
    (d.slotAt i).timer.mCurrentCounter = expireTime ∧
    (d.slotAt i).fadeTimer.mCurrentCounter = 0

/-- A white one-line entry used in the concrete scenarios. -/
def sampleLine : String × Color × Nat := ("a", ⟨255, 255, 255⟩, 0)

/-- A top-anchored displayer, freshly constructed with a short count of 5 and a scroll
period of 100 ms. -/
def freshTopDown : ChatMessageDisplayer := construct 100 5 true

/-- A bottom-anchored displayer, freshly constructed with a short count of 5 and a
scroll period of 100 ms. -/
def freshBottomUp : ChatMessageDisplayer := construct 100 5 false

/-- A state whose head counter holds the largest `U32` value: every line received so
far has expired, so the tail has caught up with the head. -/
def headAtMax : ChatMessageDisplayer :=
  { freshTopDown with mFirst := 4294967295, mLast := 4294967295 }

/-- A state with the head counter at the largest `U32` value and twenty live lines. -/
def headAtMaxTwentyLive : ChatMessageDisplayer :=
  { freshTopDown with mFirst := 4294967295, mLast := 4294967275 }

/-- A state with `head - tail = C = 25`. -/
def twentyFiveApart : ChatMessageDisplayer :=
  { freshTopDown with mFirst := 25, mLast := 0 }

/-- A top-anchored displayer that received one line and was then ticked by the expiry
duration: the line has expired and been evicted (`head = tail = 1`). -/
def oneExpired : ChatMessageDisplayer :=
  (insertLine 7000 "a" ⟨255, 255, 255⟩ 0 freshTopDown).idle 7000 false

/-- The number of slots met walking the logical positions `i`, `i - 1`, ..., `1` before
the first fully expired slot (expiry timer 0 and fade timer 0). -/
def unexpiredRun (d : ChatMessageDisplayer) : Nat → Nat
  | 0 => 0
  | i + 1 => if (d.slotAt (i + 1)).messageHasExpired then 0 else unexpiredRun d i + 1

/-- A sequence of ticks with the given time deltas, none of them composing. -/
def idleMany : List Nat → ChatMessageDisplayer → ChatMessageDisplayer
  | [], d => d
  | t :: rest, d => idleMany rest (d.idle t false)

/-- A top-anchored displayer with a short count of 3 that received five lines, all of
which have expired, and whose scroll animation has finished. -/
def fiveExpired : ChatMessageDisplayer :=
  ((insertMany 7000 (List.replicate 5 sampleLine) (construct 100 3 true)).idle 7000 false).idle
    100 false

/-- A top-anchored displayer constructed with a short count of 0 that has just received
one line. -/
def zeroShortCount : ChatMessageDisplayer :=
  insertLine 7000 "a" ⟨255, 255, 255⟩ 0 (construct 100 0 true)

/-- A bottom-anchored buffer in `ShortTimeout` mode that never overflowed and holds a
single line whose expiry timer has run out and whose fade timer stands at `r`. -/
def SingleFading (d : ChatMessageDisplayer) (r : Nat) : Prop :=
  d.mFirst = 1 ∧ d.mDisplayMode = .ShortTimeout ∧ d.mTopDown = false ∧ d.mFull = false ∧
  (d.slotAt 1).timer.mCurrentCounter = 0 ∧ (d.slotAt 1).fadeTimer.mCurrentCounter = r

/-- A displayer constructed with a short count of 25, the size of the backing store. -/
def shortCountTwentyFive : ChatMessageDisplayer := construct 100 25 true

/-- A displayer constructed with the negative short count -1. -/
def shortCountNegative : ChatMessageDisplayer := construct 100 (-1) true

/-- Modelled from the spec: the token resolver reached through `ClientGame`, which is
not part of the sources at hand.  `getKeyBoundToBindingCodeName` is the keybinding-name
lookup, with `none` standing for `KEY_UNKNOWN`; `inputCodeToString` names an input code;
`getName` is the active player's display name.  A `std::string` is a list of
characters. -/
structure ClientGame where
  getKeyBoundToBindingCodeName : List Char → Option Nat
  inputCodeToString : Nat → List Char
  getName : List Char

/-- Modelled from the spec: `caseInsensitiveStringCompare`, a helper that is not part of
the sources at hand; the spec makes the lookup of the player-name token
case-insensitive.  Two strings compare equal when they agree up to the case of their
ASCII letters. -/
def caseInsensitiveStringCompare (a b : List Char) : Bool :=
  a.map Char.toLower == b.map Char.toLower

/-- Lines 151-164: `getSubstVarVal`. -/
def getSubstVarVal (game : ClientGame) (var : List Char) : List Char :=
  match game.getKeyBoundToBindingCodeName var with
  | some inputCode => ['['] ++ game.inputCodeToString inputCode ++ [']']
  | none =>
    if caseInsensitiveStringCompare var "playerName".toList then game.getName
    else ['%'] ++ var ++ ['%']

/-- The result of `std::string::substr(pos, len)`, for `pos` within the string. -/
def strSubstr (s : List Char) (pos len : Nat) : List Char := (s.drop pos).take len

/-- The result of `std::string::replace(pos, len, val)`, for `pos` within the string. -/
def strReplace (s : List Char) (pos len : Nat) (val : List Char) : List Char :=
  s.take pos ++ val ++ s.drop (pos + len)

/-- Lines 199-221: the loop of `substitueVars`, entered with the working copy `s`, the
index `i`, the flag `inside` and `startPos`.  The first argument bounds the number of
iterations: the result is `none` when it is used up before the loop has ended.
`size_t` values are natural numbers; `i += val.length() - var.length() - 2` is computed
in the integers, where it can reach -1 (a token at position 0 with an empty value; the
C++ code holds `2^64 - 1` there), and is brought back into range by the `i++` of the
loop before `i` is compared or used as an index. -/
def substLoop (game : ClientGame) :
    Nat → List Char → Nat → Bool → Nat → Option (List Char)
  | 0, s, i, _, _ => if i < s.length then none else some s
  | fuel + 1, s, i, inside, startPos =>
    if i < s.length then
      if s[i]? = some '%' then
        if !inside then substLoop game fuel s (i + 1) true (i + 1)
        else
          let endPos := i - startPos
          let var := strSubstr s startPos endPos
          let val := getSubstVarVal game var
          let s1 := strReplace s (startPos - 1) (endPos + 2) val
          let i1 : Int := (i : Int) + (val.length : Int) - (var.length : Int) - 2
          substLoop game fuel s1 (i1 + 1).toNat false startPos
      else substLoop game fuel s (i + 1) inside startPos
    else some s

/-- Lines 189-224: `ChatMessageDisplayer::substitueVars`.  Every iteration of the loop
brings `i` one step closer to the end of the working copy, so `str.length()`
iterations are enough. -/
def substitueVars (game : ClientGame) (str : List Char) : Option (List Char) :=
  substLoop game str.length str 0 false 0

/-- The tokens occurring in a string: the text between the first and the second `%`,
between the third and the fourth, and so on.  `inside` tells whether a token is open and
`acc` holds its characters so far, newest first. -/
def tokenScan : List Char → Bool → List Char → List (List Char)
  | [], _, _ => []
  | c :: cs, false, _ => if c = '%' then tokenScan cs true [] else tokenScan cs false []
  | c :: cs, true, acc =>
    if c = '%' then acc.reverse :: tokenScan cs false [] else tokenScan cs true (c :: acc)

/-- The tokens occurring in a string. -/
def tokensOf (s : List Char) : List (List Char) := tokenScan s false []

/-- A resolver that knows the key binding `SelWeapon1` and the player `Nick`. -/
def sampleGame : ClientGame :=
  { getKeyBoundToBindingCodeName := fun v => if v = "SelWeapon1".toList then some 49 else none
    inputCodeToString := fun _ => "1".toList
    getName := "Nick".toList }

/-- A resolver whose player is called `%playerName%`: the resolved text is itself a
complete token span. -/
def echoGame : ClientGame :=
  { getKeyBoundToBindingCodeName := fun _ => none
    inputCodeToString := fun _ => []
    getName := "%playerName%".toList }

/-- A resolver with player name `Nick` that binds the token `playerName` itself to input
code 7, named `F1`. -/
def boundNameGame : ClientGame :=
  { getKeyBoundToBindingCodeName := fun v => if v = "playerName".toList then some 7 else none
    inputCodeToString := fun _ => "F1".toList
    getName := "Nick".toList }

/-- A state whose group-id counter holds the largest `U32` value. -/
def groupIdAtMax : ChatMessageDisplayer :=
  { freshTopDown with mNextGroupId := 4294967295 }

/-- The number of physical slots of the list `l` whose per-slot step reports expiry in a
tick by `timeDelta`. -/
def expiryReports (d : ChatMessageDisplayer) (timeDelta : Nat) (l : List (Fin MSG_SLOTS)) :
    Nat :=
  l.countP (fun k => ((d.mMessages k).idle timeDelta).2)

/-- The value of `getMessageCount()` after `j ≥ 1` further executions of `mLast++`. -/
def countAfter (d : ChatMessageDisplayer) (j : Nat) : Nat :=
  (d.mFirst + U32_MOD - (d.mLast + j) % U32_MOD) % U32_MOD

/-- The test of line 114 succeeds at one of the first `r` evictions of a tick: the buffer
is top-anchored and the message count right after that eviction is at most
`getNumberOfMessagesToShow(composingMessage)`. -/
def restartsScroll (d : ChatMessageDisplayer) (composingMessage : Bool) (r : Nat) : Prop :=
  d.mTopDown = true ∧
  ∃ j, 1 ≤ j ∧ j ≤ r ∧ countAfter d j ≤ d.getNumberOfMessagesToShow composingMessage

/-- The number of physical slots (live or not) whose per-slot step reports expiry in a
tick by `timeDelta`. -/
def tickReports (d : ChatMessageDisplayer) (timeDelta : Nat) : Nat :=
  expiryReports d timeDelta (List.finRange MSG_SLOTS)

/-- A top-anchored displayer with short count 5 holding one fresh line. -/
def oneFresh : ChatMessageDisplayer :=
  insertLine 7000 "a" ⟨255, 255, 255⟩ 0 freshTopDown

/-- The states reached from a freshly constructed displayer by any interleaving of
`reset`, `onChatMessageReceived`, single `insertLine` calls, ticks and
`toggleDisplayMode`. -/
inductive Reachable (expireTime scrollTime : Nat) (msgCount : Int) (topDown : Bool) :
    ChatMessageDisplayer → Prop where
  | init : Reachable expireTime scrollTime msgCount topDown
      (construct scrollTime msgCount topDown)
  | reset (d : ChatMessageDisplayer) :
      Reachable expireTime scrollTime msgCount topDown d →
      Reachable expireTime scrollTime msgCount topDown d.reset
  | receive (d : ChatMessageDisplayer) (msgColor : Color) (lines : List String) :
      Reachable expireTime scrollTime msgCount topDown d →
      Reachable expireTime scrollTime msgCount topDown
        (onChatMessageReceived expireTime msgColor lines d)
  | insert (d : ChatMessageDisplayer) (line : String) (msgColor : Color) (id : Nat) :
      Reachable expireTime scrollTime msgCount topDown d →
      Reachable expireTime scrollTime msgCount topDown
        (insertLine expireTime line msgColor id d)
  | tick (d : ChatMessageDisplayer) (timeDelta : Nat) (composingMessage : Bool) :
      Reachable expireTime scrollTime msgCount topDown d →
      Reachable expireTime scrollTime msgCount topDown (d.idle timeDelta composingMessage)
  | toggle (d : ChatMessageDisplayer) :
      Reachable expireTime scrollTime msgCount topDown d →
      Reachable expireTime scrollTime msgCount topDown d.toggleDisplayMode

/-- The fade-timer facts of one slot of a buffer anchored as `topDown` says: a running
expiry timer belongs to a slot set by this buffer and excludes a running fade timer, and
a running fade timer belongs to a slot set with fading enabled in a bottom-anchored
buffer. -/
def SlotFadeOk (topDown : Bool) (m : ColorTimerString) : Prop :=
  (m.timer.mCurrentCounter ≠ 0 →
    m.usingFadeTimer = !topDown ∧ m.fadeTimer.mCurrentCounter = 0) ∧
  (m.fadeTimer.mCurrentCounter ≠ 0 → m.usingFadeTimer = true ∧ topDown = false)

/-- What every reachable state keeps from its construction: the anchoring, the period
of the scroll timer, and `SlotFadeOk` in every slot. -/
def ConfigInv (scrollTime : Nat) (topDown : Bool) (d : ChatMessageDisplayer) : Prop :=
  d.mTopDown = topDown ∧ d.mChatScrollTimer.mPeriod = scrollTime ∧
  ∀ k, SlotFadeOk topDown (d.mMessages k)

/-- The unsigned subtraction `a - b` of two `U32` values. -/
def u32Sub (a b : Nat) : Nat := (a + U32_MOD - b % U32_MOD) % U32_MOD

/-- One iteration of the drawing loop of `render` (lines 383-404): the physical index
computed on line 385 and the text, color and vertical position handed to the text-draw
call.  The alpha value, a product of `F32` fractions, is left out. -/
structure RenderedLine where
  index : Nat
  str : String
  color : Color
  y : Int
  deriving DecidableEq, Repr

/-- Lines 383-404: the drawing loop of `render`, entered at logical position `i` with
the vertical position `y`; it runs while `i > last`.  Line 403, `y -= lineHeight`, is an
`S32` subtraction. -/
def renderLoop (d : ChatMessageDisplayer) (lineHeight : Int) (last : Nat) :
    Nat → Int → List RenderedLine
  | 0, _ => []
  | i + 1, y =>
    if i + 1 > last then
      { index := (i + 1) % MSG_SLOTS, str := (d.slotAt (i + 1)).str,
        color := (d.slotAt (i + 1)).color, y := y } ::
        renderLoop d lineHeight last i (toS32 (y - lineHeight))
    else []

/-- Lines 321-410: `ChatMessageDisplayer::render`, as the list of its text-draw calls.
`fontSize` and `fontGap` are the `S32` members `mFontSize` and `mFontGap`, set by the
constructor and never written again; `scrollOffset` is the value of
`S32(mChatScrollTimer.getFraction() * lineHeight)`, an `F32` computation.  Vertical
positions are `S32` values: every sum and difference is taken with `toS32`, and on
line 360 the `U32` product `(mFirst - last - 1) * lineHeight` is formed modulo `2^32`
before it is added to `y`. -/
def render (d : ChatMessageDisplayer) (fontSize fontGap scrollOffset anchorPos : Int)
    (helperFadeIn : ℚ) (composingMessage anouncementActive : Bool) : List RenderedLine :=
  let scrolling := d.isScrolling
  let last := u32Sub d.mFirst (d.getCountOfMessagesToDisplay helperFadeIn composingMessage)
  if d.mFirst = last then []
  else
    let lineHeight := toS32 (fontSize + fontGap)
    let y0 := toS32 (anchorPos + scrollOffset)
    let y1 := if d.mTopDown && scrolling then toS32 (y0 - lineHeight) else y0
    let advance : Nat := (u32Sub (u32Sub d.mFirst last) 1 * toU32 lineHeight) % U32_MOD
    let y2 := if d.mTopDown then toS32 (y1 + (advance : Int)) else y1
    let last1 :=
      if anouncementActive then
        (if d.mFirst ≥ MSG_SLOTS - 1 then (last + 1) % U32_MOD else last)
      else last
    let y3 := if anouncementActive then toS32 (y2 - lineHeight) else y2
    let y4 := toS32 (y3 + fontSize)
    renderLoop d lineHeight last1 d.mFirst y4

/-- The physical indices computed by the backward walk of `getCountOfMessagesToDisplay`
(line 284), one per iteration of the loop of lines 282-313, in the order of the walk. -/
def countLoopTrace (d : ChatMessageDisplayer) (helperFadeIn : ℚ) (composingMessage : Bool)
    (scrolling : Bool) (messagesBeingScrolledOff : Nat) :
    Nat → Nat → Nat → List Nat
  | 0, _, _ => []
  | i + 1, messagesToDisplay, scrollingMessageCount =>
    let hide := (d.slotAt (i + 1)).messageHasExpired &&
      !(composingMessage || decide (helperFadeIn > 0) || decide (d.mDisplayMode ≠ .ShortTimeout))
    (i + 1) % MSG_SLOTS ::
      (if hide && !scrolling then []
      else
        let scrollingMessageCount1 :=
          if hide then scrollingMessageCount + 1 else scrollingMessageCount
        if hide && decide (scrollingMessageCount1 > messagesBeingScrolledOff) then []
        else
          let messagesToDisplay1 := messagesToDisplay + 1
          if messagesToDisplay1 ≥ d.getNumberOfMessagesToShow composingMessage then []
          else countLoopTrace d helperFadeIn composingMessage scrolling
            messagesBeingScrolledOff i messagesToDisplay1 scrollingMessageCount1)

/-- The physical indices computed by one call of `getCountOfMessagesToDisplay`. -/
def visibleTrace (d : ChatMessageDisplayer) (helperFadeIn : ℚ) (composingMessage : Bool) :
    List Nat :=
  if d.mFirst = 0 then []
  else if helperFadeIn > 0 then []
  else countLoopTrace d helperFadeIn composingMessage d.isScrolling d.messagesBeingScrolledOff
    d.mFirst 0 0

/-- The physical index written by `insertLine` (line 178): `mFirst % mMessages.size()`
after `advanceFirst`. -/
def insertLineIndex (d : ChatMessageDisplayer) : Nat := d.advanceFirst.mFirst % MSG_SLOTS

/-- The physical indices visited by the loops of `idle` and `reset`: the loop variable
runs from 0 up to `mMessages.size()`. -/
def idleIndices : List Nat := List.range MSG_SLOTS

/-- A top-anchored displayer, freshly constructed, that received twenty-four lines. -/
def twentyFourFresh : ChatMessageDisplayer :=
  insertMany 7000 (List.replicate 24 sampleLine) freshTopDown

/-- The states a slot passes through during one lifecycle: right after `set()`, and
after any number of per-slot ticks that follow it. -/
inductive Lifecycle : ColorTimerString → Prop where
  | set (m0 : ColorTimerString) (s : String) (useFadeTimer : Bool) (c : Color)
      (time id : Nat) : Lifecycle (m0.set s useFadeTimer c time id)
  | idle (m : ColorTimerString) (timeDelta : Nat) :
      Lifecycle m → Lifecycle (m.idle timeDelta).1

/-- The slot after a sequence of per-slot ticks. -/
def slotAfter (m : ColorTimerString) : List Nat → ColorTimerString
  | [] => m
  | dt :: rest => slotAfter (m.idle dt).1 rest

/-- The number of ticks of a sequence in which `ColorTimerString::idle` returns true. -/
def slotReports (m : ColorTimerString) : List Nat → Nat
  | [] => 0
  | dt :: rest => (if (m.idle dt).2 = true then 1 else 0) + slotReports (m.idle dt).1 rest

/-- A slot set without fading and a slot set with fading, both with 7000 ms to live. -/
def plainSlot : ColorTimerString :=
  ColorTimerString.set ⟨"", ⟨0, 0, 0⟩, 0, ⟨0, 0⟩, false, ⟨0, 0⟩⟩ "a" false ⟨255, 255, 255⟩ 7000 0

/-- A slot set with fading and 7000 ms to live. -/
def fadingSlot : ColorTimerString :=
  ColorTimerString.set ⟨"", ⟨0, 0, 0⟩, 0, ⟨0, 0⟩, false, ⟨0, 0⟩⟩ "a" true ⟨255, 255, 255⟩ 7000 0

/-- The state reached from `headAtMax` by one more line: the head counter has wrapped to
0 and the tail counter holds the largest `U32` value. -/
def tailAtMax : ChatMessageDisplayer :=
  insertLine 7000 "a" ⟨255, 255, 255⟩ 0 headAtMax

/-- The calls that change a displayer between two calls of `reset`. -/
inductive Op where
  | insert (line : String) (c : Color) (id : Nat)
  | receive (c : Color) (lines : List String)
  | tick (timeDelta : Nat) (composingMessage : Bool)
  | toggle

/-- One call of `Op`, applied to a displayer. -/
def applyOp (expireTime : Nat) (d : ChatMessageDisplayer) : Op → ChatMessageDisplayer
  | .insert line c id => insertLine expireTime line c id d
  | .receive c lines => onChatMessageReceived expireTime c lines d
  | .tick timeDelta composingMessage => d.idle timeDelta composingMessage
  | .toggle => d.toggleDisplayMode

/-- A sequence of calls, applied from left to right. -/
def applyOps (expireTime : Nat) (ops : List Op) (d : ChatMessageDisplayer) :
    ChatMessageDisplayer :=
  ops.foldl (applyOp expireTime) d

/-- A bottom-anchored displayer after 25 lines in a row: the last insert overflowed. -/
def overflowedBottomUp : ChatMessageDisplayer :=
  insertMany 7000 (List.replicate 25 sampleLine) freshBottomUp

/-- The number of slots met walking the logical positions `i`, `i - 1`, ..., `1` before
the `(allow + 1)`-th fully expired slot; `unexpiredRun` is the case `allow = 0`. -/
def allowanceRun (d : ChatMessageDisplayer) : Nat → Nat → Nat
  | 0, _ => 0
  | i + 1, allow =>
    if (d.slotAt (i + 1)).messageHasExpired then
      match allow with
      | 0 => 0
      | a + 1 => allowanceRun d i a + 1
    else allowanceRun d i allow + 1

/-- The number of fully expired slots among the `k` logical positions `i`, `i - 1`, ...,
`i - k + 1` (as far as they exist). -/
def expiredAmong (d : ChatMessageDisplayer) : Nat → Nat → Nat
  | 0, _ => 0
  | _ + 1, 0 => 0
  | i + 1, k + 1 =>
    (if (d.slotAt (i + 1)).messageHasExpired then 1 else 0) + expiredAmong d i k

/-- The otherwise identical state with the scroll timer at 0. -/
def stopScroll (d : ChatMessageDisplayer) : ChatMessageDisplayer :=
  { d with mChatScrollTimer := d.mChatScrollTimer.clear }

/-- A top-anchored displayer with short count 5: three lines, expired together, then
two fresh lines; the scroll timer restarted by the expiry is still running. -/
def threeExpiredTwoFresh : ChatMessageDisplayer :=
  insertMany 7000 (List.replicate 2 sampleLine)
    ((insertMany 7000 (List.replicate 3 sampleLine) freshTopDown).idle 7000 false)

/-- A top-anchored displayer with short count 5, reached from a reset buffer: one line
that expired 7 s later, then two fresh lines; the scroll timer restarted by the expiry
is still running. -/
def oneExpiredTwoFresh : ChatMessageDisplayer :=
  insertLine 7000 "c" ⟨255, 255, 255⟩ 2
    (insertLine 7000 "b" ⟨255, 255, 255⟩ 1
      ((insertLine 7000 "a" ⟨255, 255, 255⟩ 0 freshTopDown.reset).idle 7000 false))

/-- A top-anchored displayer that received one line, was ticked by 10 ms and then
received 24 more lines: the 25th insert overflowed, so the first line is evicted
(`tail = 1`) while its slot still has 6990 ms to run, 10 ms less than the others. -/
def staggered : ChatMessageDisplayer :=
  insertMany 7000 (List.replicate 24 sampleLine)
    ((insertLine 7000 "a" ⟨255, 255, 255⟩ 0 freshTopDown).idle 10 false)

/-- The states reached from the reset buffer `d0.reset` by `n` `insertLine` calls, all
with the expiry duration `expireTime`, interleaved with ticks of arbitrary `timeDelta`. -/
inductive ReachableN (expireTime : Nat) (d0 : ChatMessageDisplayer) :
    Nat → ChatMessageDisplayer → Prop where
  | start : ReachableN expireTime d0 0 d0.reset
  | insert (n : Nat) (d : ChatMessageDisplayer) (line : String) (msgColor : Color) (id : Nat) :
      ReachableN expireTime d0 n d →
      ReachableN expireTime d0 (n + 1) (insertLine expireTime line msgColor id d)
  | tick (n : Nat) (d : ChatMessageDisplayer) (timeDelta : Nat) (composingMessage : Bool) :
      ReachableN expireTime d0 n d →
      ReachableN expireTime d0 n (d.idle timeDelta composingMessage)

/-- The number of physical slots that are not fully expired. -/
def unexpiredSlots (d : ChatMessageDisplayer) : Nat :=
  (List.finRange MSG_SLOTS).countP (fun k => !(d.mMessages k).messageHasExpired)

/-- The live range is the set of unexpired slots: the counters are at most
`MAX_MESSAGES` apart, a position among the `MAX_MESSAGES + 1` newest is fully expired
exactly when it is at or below the tail, and every unexpired physical slot is the slot
of a live position. -/
def LiveInv (d : ChatMessageDisplayer) : Prop :=
  d.mLast ≤ d.mFirst ∧ d.mFirst ≤ d.mLast + MAX_MESSAGES ∧
  (∀ i : Nat, 1 ≤ i → i ≤ d.mFirst → d.mFirst < i + MSG_SLOTS →
    ((d.slotAt i).messageHasExpired = true ↔ i ≤ d.mLast)) ∧
  (∀ k, (d.mMessages k).messageHasExpired = false →
    ∃ i : Nat, d.mLast < i ∧ i ≤ d.mFirst ∧ slotIndex i = k)

/-- One line received and, `expireTime` later, a tick by which it has expired. -/
def cycle (expireTime : Nat) (d : ChatMessageDisplayer) : ChatMessageDisplayer :=
  (insertLine expireTime "a" ⟨255, 255, 255⟩ 0 d).idle expireTime false

/-- The state after `k` rounds of `cycle`. -/
def cycles (expireTime : Nat) : Nat → ChatMessageDisplayer → ChatMessageDisplayer
  | 0, d => d
  | k + 1, d => cycle expireTime (cycles expireTime k d)

/-- Twenty-four lines that expired together, then two fresh lines: the newest line
(logical position 26) occupies the physical slot that held the first line. -/
def slotReused : ChatMessageDisplayer :=
  insertMany 7000 (List.replicate 2 sampleLine)
    ((insertMany 7000 (List.replicate 24 sampleLine) freshTopDown.reset).idle 7000 false)

/-- The state after `2^32 - 1` lines, each expired before the next arrived, and one more
line: the head counter has wrapped to 0 without any overflow of the buffer. -/
def wrappedNotFull : ChatMessageDisplayer :=
  insertLine 7000 "a" ⟨255, 255, 255⟩ 0 (cycles 7000 4294967295 freshTopDown.reset)

/-- A bottom-anchored displayer constructed with a short count of 0 that has just
received a one-line message: the scroll timer, restarted by the arrival, is running. -/
def zeroShortScrolling : ChatMessageDisplayer :=
  onChatMessageReceived 7000 ⟨255, 255, 255⟩ ["a"] (construct 100 0 false)

end ChatMessageDisplayer

end Zap

namespace Zap

open ChatMessageDisplayer

/-! ## Slot-level facts -/

theorem clearSlot_timer (m : ColorTimerString) :
    (clearSlot m).timer.getCurrent = 0 ∧ (clearSlot m).fadeTimer.getCurrent = 0 ∧
      (clearSlot m).str = "" := by
  simp [clearSlot, Timer.clear, Timer.getCurrent]

theorem clearSlot_idem (m : ColorTimerString) : clearSlot (clearSlot m) = clearSlot m := by
  simp [clearSlot, Timer.clear]

/-! ## `reset` -/

theorem resetLoop_spec (l : List (Fin MSG_SLOTS)) (d : ChatMessageDisplayer) :
    (resetLoop l d).mFirst = d.mFirst ∧ (resetLoop l d).mLast = d.mLast ∧
    (resetLoop l d).mFull = d.mFull ∧
    (resetLoop l d).mChatScrollTimer = d.mChatScrollTimer ∧
    (resetLoop l d).mDisplayMode = d.mDisplayMode ∧
    (resetLoop l d).mMessagesToShowInShortMode = d.mMessagesToShowInShortMode ∧
    (resetLoop l d).mTopDown = d.mTopDown ∧
    (resetLoop l d).mNextGroupId = d.mNextGroupId ∧
    ∀ j, (resetLoop l d).mMessages j =
      if j ∈ l then clearSlot (d.mMessages j) else d.mMessages j := by
  induction l generalizing d with
  | nil => simp [resetLoop]
  | cons i l ih =>
    have h := ih { d with mMessages := Function.update d.mMessages i (clearSlot (d.mMessages i)) }
    simp only [resetLoop, List.foldl_cons] at h ⊢
    obtain ⟨h1, h2, h3, h4, h5, h6, h7, h8, h9⟩ := h
    refine ⟨h1, h2, h3, h4, h5, h6, h7, h8, ?_⟩
    intro j
    rw [h9 j]
    by_cases hji : j = i
    · subst hji
      simp [clearSlot_idem]
    · simp [hji, Function.update_noteq hji]

theorem reset_mFirst (d : ChatMessageDisplayer) : d.reset.mFirst = 0 := by
  unfold reset; exact (resetLoop_spec _ _).1

theorem reset_mLast (d : ChatMessageDisplayer) : d.reset.mLast = 0 := by
  unfold reset; exact (resetLoop_spec _ _).2.1

theorem reset_mFull (d : ChatMessageDisplayer) : d.reset.mFull = false := by
  unfold reset; exact (resetLoop_spec _ _).2.2.1

theorem reset_mChatScrollTimer (d : ChatMessageDisplayer) :
    d.reset.mChatScrollTimer = d.mChatScrollTimer := by
  unfold reset; exact (resetLoop_spec _ _).2.2.2.1

theorem reset_mTopDown (d : ChatMessageDisplayer) : d.reset.mTopDown = d.mTopDown := by
  unfold reset; exact (resetLoop_spec _ _).2.2.2.2.2.2.1

theorem reset_mMessages (d : ChatMessageDisplayer) (j : Fin MSG_SLOTS) :
    d.reset.mMessages j = clearSlot (d.mMessages j) := by
  unfold reset; rw [(resetLoop_spec _ _).2.2.2.2.2.2.2.2 j]
  simp [List.mem_finRange]

/-! ## `advanceFirst` and `insertLine` -/

theorem advanceFirst_mFirst (d : ChatMessageDisplayer) :
    d.advanceFirst.mFirst = (d.mFirst + 1) % U32_MOD := by
  unfold advanceFirst; simp only; split <;> rfl

theorem advanceFirst_mMessages (d : ChatMessageDisplayer) :
    d.advanceFirst.mMessages = d.mMessages := by
  unfold advanceFirst; simp only; split <;> rfl

theorem advanceFirst_mTopDown (d : ChatMessageDisplayer) :
    d.advanceFirst.mTopDown = d.mTopDown := by
  unfold advanceFirst; simp only; split <;> rfl

theorem advanceFirst_mLast (d : ChatMessageDisplayer) :
    d.advanceFirst.mLast =
      if d.mLast % MSG_SLOTS = ((d.mFirst + 1) % U32_MOD) % MSG_SLOTS
      then (d.mLast + 1) % U32_MOD else d.mLast := by
  unfold advanceFirst; simp only; split <;> rfl

theorem advanceFirst_mFull (d : ChatMessageDisplayer) :
    d.advanceFirst.mFull =
      if d.mLast % MSG_SLOTS = ((d.mFirst + 1) % U32_MOD) % MSG_SLOTS
      then true else d.mFull := by
  unfold advanceFirst; simp only; split <;> rfl

theorem insertLine_mFirst (e : Nat) (line : String) (c : Color) (id : Nat)
    (d : ChatMessageDisplayer) :
    (insertLine e line c id d).mFirst = (d.mFirst + 1) % U32_MOD := by
  simp [insertLine, advanceFirst_mFirst]

theorem insertLine_mLast (e : Nat) (line : String) (c : Color) (id : Nat)
    (d : ChatMessageDisplayer) :
    (insertLine e line c id d).mLast = d.advanceFirst.mLast := rfl

theorem insertLine_mFull (e : Nat) (line : String) (c : Color) (id : Nat)
    (d : ChatMessageDisplayer) :
    (insertLine e line c id d).mFull = d.advanceFirst.mFull := rfl

theorem insertLine_mTopDown (e : Nat) (line : String) (c : Color) (id : Nat)
    (d : ChatMessageDisplayer) :
    (insertLine e line c id d).mTopDown = d.mTopDown := by
  simp [insertLine, advanceFirst_mTopDown]

theorem insertLine_mMessages (e : Nat) (line : String) (c : Color) (id : Nat)
    (d : ChatMessageDisplayer) :
    (insertLine e line c id d).mMessages =
      Function.update d.mMessages (slotIndex ((d.mFirst + 1) % U32_MOD))
        ((d.mMessages (slotIndex ((d.mFirst + 1) % U32_MOD))).set line (!d.mTopDown) c e id) := by
  simp [insertLine, advanceFirst_mFirst, advanceFirst_mMessages, advanceFirst_mTopDown]

theorem slotIndex_ne {i j : Nat} (h1 : i < j) (h2 : j < i + MSG_SLOTS) :
    slotIndex i ≠ slotIndex j := by
  intro h
  have h3 : i % 25 = j % 25 := by
    have := congrArg Fin.val h
    simpa [slotIndex] using this
  have h4 : j < i + 25 := h2
  omega

/-! ## `idle` -/

theorem idleSlot_frame (dt : Nat) (cm : Bool) (d : ChatMessageDisplayer) (i : Fin MSG_SLOTS) :
    (idleSlot dt cm d i).mFirst = d.mFirst ∧ (idleSlot dt cm d i).mFull = d.mFull ∧
    (idleSlot dt cm d i).mTopDown = d.mTopDown ∧
    (idleSlot dt cm d i).mDisplayMode = d.mDisplayMode ∧
    (idleSlot dt cm d i).mMessagesToShowInShortMode = d.mMessagesToShowInShortMode ∧
    (idleSlot dt cm d i).mNextGroupId = d.mNextGroupId ∧
    (idleSlot dt cm d i).mMessages = Function.update d.mMessages i ((d.mMessages i).idle dt).1 := by
  unfold idleSlot
  simp only
  split
  · split <;> simp
  · simp

theorem idleLoop_frame (dt : Nat) (cm : Bool) (l : List (Fin MSG_SLOTS))
    (d : ChatMessageDisplayer) :
    (idleLoop dt cm l d).mFirst = d.mFirst ∧ (idleLoop dt cm l d).mFull = d.mFull ∧
    (idleLoop dt cm l d).mTopDown = d.mTopDown ∧
    (idleLoop dt cm l d).mDisplayMode = d.mDisplayMode ∧
    (idleLoop dt cm l d).mMessagesToShowInShortMode = d.mMessagesToShowInShortMode ∧
    (idleLoop dt cm l d).mNextGroupId = d.mNextGroupId := by
  induction l generalizing d with
  | nil => simp [idleLoop]
  | cons i l ih =>
    have h := ih (idleSlot dt cm d i)
    have f := idleSlot_frame dt cm d i
    simp only [idleLoop, List.foldl_cons] at h ⊢
    obtain ⟨h1, h2, h3, h4, h5, h6⟩ := h
    obtain ⟨f1, f2, f3, f4, f5, f6, _⟩ := f
    exact ⟨h1.trans f1, h2.trans f2, h3.trans f3, h4.trans f4, h5.trans f5, h6.trans f6⟩

theorem idleLoop_mMessages (dt : Nat) (cm : Bool) (l : List (Fin MSG_SLOTS)) (hl : l.Nodup)
    (d : ChatMessageDisplayer) (j : Fin MSG_SLOTS) :
    (idleLoop dt cm l d).mMessages j =
      if j ∈ l then ((d.mMessages j).idle dt).1 else d.mMessages j := by
  induction l generalizing d with
  | nil => simp [idleLoop]
  | cons i l ih =>
    have hn := List.nodup_cons.mp hl
    have h := ih hn.2 (idleSlot dt cm d i)
    simp only [idleLoop, List.foldl_cons] at h ⊢
    rw [h, (idleSlot_frame dt cm d i).2.2.2.2.2.2]
    by_cases hji : j = i
    · subst hji
      simp [hn.1]
    · simp [hji, Function.update_noteq hji]

theorem idle_mFirst (d : ChatMessageDisplayer) (dt : Nat) (cm : Bool) :
    (d.idle dt cm).mFirst = d.mFirst := by
  unfold idle; exact (idleLoop_frame _ _ _ _).1

theorem idle_mFull (d : ChatMessageDisplayer) (dt : Nat) (cm : Bool) :
    (d.idle dt cm).mFull = d.mFull := by
  unfold idle; exact (idleLoop_frame _ _ _ _).2.1

theorem idle_mTopDown (d : ChatMessageDisplayer) (dt : Nat) (cm : Bool) :
    (d.idle dt cm).mTopDown = d.mTopDown := by
  unfold idle; exact (idleLoop_frame _ _ _ _).2.2.1

theorem idle_mMessages (d : ChatMessageDisplayer) (dt : Nat) (cm : Bool) (j : Fin MSG_SLOTS) :
    (d.idle dt cm).mMessages j = ((d.mMessages j).idle dt).1 := by
  unfold idle
  rw [idleLoop_mMessages dt cm _ (List.nodup_finRange _)]
  simp [List.mem_finRange]

/-! ## The per-slot step -/

theorem slot_idle_timer (m : ColorTimerString) (dt : Nat) :
    (m.idle dt).1.timer.mCurrentCounter = m.timer.mCurrentCounter - dt := by
  unfold ColorTimerString.idle Timer.update
  by_cases h0 : m.timer.mCurrentCounter = 0
  · simp [h0]
  · by_cases h1 : dt ≥ m.timer.mCurrentCounter
    · simp only [h0, h1, if_true, if_false]
      by_cases hu : m.usingFadeTimer <;> simp [hu] <;> omega
    · simp [h0, h1]

theorem slot_idle_fade (m : ColorTimerString) (dt : Nat) :
    (m.idle dt).1.fadeTimer.mCurrentCounter =
      if m.timer.mCurrentCounter ≠ 0 ∧ dt ≥ m.timer.mCurrentCounter then
        (if m.usingFadeTimer then FADE_TIME else m.fadeTimer.mCurrentCounter)
      else m.fadeTimer.mCurrentCounter - dt := by
  unfold ColorTimerString.idle Timer.update
  by_cases h0 : m.timer.mCurrentCounter = 0
  · by_cases f0 : m.fadeTimer.mCurrentCounter = 0
    · simp [h0, f0]
    · by_cases f1 : dt ≥ m.fadeTimer.mCurrentCounter
      · simp [h0, f0, f1]
      · simp [h0, f0, f1]
  · by_cases h1 : dt ≥ m.timer.mCurrentCounter
    · by_cases hu : m.usingFadeTimer <;> simp [h0, h1, hu, Timer.resetTo]
    · by_cases f0 : m.fadeTimer.mCurrentCounter = 0
      · simp [h0, h1, f0]
      · by_cases f1 : dt ≥ m.fadeTimer.mCurrentCounter
        · simp [h0, h1, f0, f1]
        · simp [h0, h1, f0, f1]

theorem slot_idle_content (m : ColorTimerString) (dt : Nat) :
    (m.idle dt).1.str = m.str ∧ (m.idle dt).1.color = m.color ∧
    (m.idle dt).1.groupId = m.groupId ∧ (m.idle dt).1.usingFadeTimer = m.usingFadeTimer := by
  unfold ColorTimerString.idle
  simp only
  split
  · split <;> simp
  · simp

theorem slotOk_idle (e : Nat) (td : Bool) (m : ColorTimerString) (dt : Nat)
    (h : SlotOk e td m) : SlotOk e td (m.idle dt).1 := by
  obtain ⟨h1, h2, h3, h4⟩ := h
  unfold SlotOk
  rw [slot_idle_timer, slot_idle_fade, (slot_idle_content m dt).2.2.2]
  by_cases c : m.timer.mCurrentCounter ≠ 0 ∧ dt ≥ m.timer.mCurrentCounter
  · rw [if_pos c]
    obtain ⟨c1, c2⟩ := c
    obtain ⟨u, f⟩ := h3 c1
    refine ⟨by omega, ?_, fun hc => absurd hc (by omega), ?_⟩
    · split <;> omega
    · cases hu : m.usingFadeTimer
      · simp [f]
      · intro _
        rw [hu] at u
        cases td
        · exact ⟨rfl, by omega⟩
        · simp at u
  · rw [if_neg c]
    refine ⟨by omega, by omega, ?_, ?_⟩
    · intro hc
      have hne : m.timer.mCurrentCounter ≠ 0 := by omega
      obtain ⟨u, f⟩ := h3 hne
      exact ⟨u, by omega⟩
    · intro hc
      exact h4 (by omega)

theorem slotOk_set (e : Nat) (td : Bool) (m : ColorTimerString) (line : String) (c : Color)
    (id : Nat) : SlotOk e td (m.set line (!td) c e id) := by
  simp [SlotOk, ColorTimerString.set, Timer.resetTo, Timer.clear]

theorem slotOk_clear (e : Nat) (td : Bool) (m : ColorTimerString) :
    SlotOk e td (clearSlot m) := by
  simp [SlotOk, clearSlot, Timer.clear]

/-! ## Age order of the retained slots -/

theorem ageInv_reset (e : Nat) (d : ChatMessageDisplayer) : AgeInv e d.reset := by
  refine ⟨by rw [reset_mFirst]; decide, ?_, ?_⟩
  · intro k
    rw [reset_mMessages, reset_mTopDown]
    exact slotOk_clear e _ _
  · intro i j hi hij hj _
    rw [reset_mFirst] at hj
    omega

theorem ageInv_idle (e : Nat) (d : ChatMessageDisplayer) (dt : Nat) (cm : Bool)
    (h : AgeInv e d) : AgeInv e (d.idle dt cm) := by
  obtain ⟨h1, h2, h3⟩ := h
  refine ⟨by rw [idle_mFirst]; exact h1, ?_, ?_⟩
  · intro k
    rw [idle_mMessages, idle_mTopDown]
    exact slotOk_idle e _ _ dt (h2 k)
  · intro i j hi hij hj hw
    rw [idle_mFirst] at hj hw
    obtain ⟨p1, p2⟩ := h3 i j hi hij hj hw
    unfold slotAt at p1 p2 ⊢
    obtain ⟨a1, a2, a3, a4⟩ := h2 (slotIndex i)
    obtain ⟨b1, b2, b3, b4⟩ := h2 (slotIndex j)
    rw [idle_mMessages, idle_mMessages, slot_idle_timer, slot_idle_timer, slot_idle_fade,
      slot_idle_fade]
    refine ⟨by omega, ?_⟩
    intro hz
    by_cases cb : (d.mMessages (slotIndex j)).timer.mCurrentCounter ≠ 0 ∧
        dt ≥ (d.mMessages (slotIndex j)).timer.mCurrentCounter
    · rw [if_pos cb]
      obtain ⟨ub, fb⟩ := b3 cb.1
      by_cases ca : (d.mMessages (slotIndex i)).timer.mCurrentCounter ≠ 0 ∧
          dt ≥ (d.mMessages (slotIndex i)).timer.mCurrentCounter
      · rw [if_pos ca]
        obtain ⟨ua, fa⟩ := a3 ca.1
        rw [ua, ub, fa, fb]
      · rw [if_neg ca]
        have ha0 : (d.mMessages (slotIndex i)).timer.mCurrentCounter = 0 := by omega
        cases hu : (d.mMessages (slotIndex j)).usingFadeTimer
        · simp only [Bool.false_eq_true, if_false]
          rw [hu] at ub
          have htd : d.mTopDown = true := by
            cases ht : d.mTopDown
            · rw [ht] at ub; simp at ub
            · rfl
          have : (d.mMessages (slotIndex i)).fadeTimer.mCurrentCounter = 0 := by
            by_contra hne
            have := (a4 hne).1
            rw [htd] at this
            exact Bool.noConfusion this
          omega
        · simp only [if_true]
          omega
    · rw [if_neg cb]
      have hb0 : (d.mMessages (slotIndex j)).timer.mCurrentCounter = 0 := by omega
      have ha0 : (d.mMessages (slotIndex i)).timer.mCurrentCounter = 0 := by omega
      have := p2 hb0
      rw [if_neg (by omega)]
      omega

theorem ageInv_insertLine (e : Nat) (line : String) (c : Color) (id : Nat)
    (d : ChatMessageDisplayer) (h : AgeInv e d) : AgeInv e (insertLine e line c id d) := by
  obtain ⟨h1, h2, h3⟩ := h
  have hU : (4294967296 : Nat) = U32_MOD := rfl
  refine ⟨by rw [insertLine_mFirst]; exact Nat.mod_lt _ (by decide), ?_, ?_⟩
  · intro k
    rw [insertLine_mMessages, insertLine_mTopDown]
    by_cases hk : k = slotIndex ((d.mFirst + 1) % U32_MOD)
    · subst hk
      rw [Function.update_same]
      exact slotOk_set e _ _ _ _ _
    · rw [Function.update_noteq hk]
      exact h2 k
  · intro i j hi hij hj hw
    rw [insertLine_mFirst] at hj hw
    by_cases hwrap : d.mFirst + 1 < U32_MOD
    · rw [Nat.mod_eq_of_lt hwrap] at hj hw
      unfold slotAt
      rw [insertLine_mMessages, Nat.mod_eq_of_lt hwrap]
      have hw2 : d.mFirst + 1 < i + 25 := hw
      have hi_ne : slotIndex i ≠ slotIndex (d.mFirst + 1) :=
        slotIndex_ne (by omega) (by show d.mFirst + 1 < i + 25; omega)
      rw [Function.update_noteq hi_ne]
      by_cases hjn : j = d.mFirst + 1
      · subst hjn
        rw [Function.update_same]
        obtain ⟨a1, a2, a3, a4⟩ := h2 (slotIndex i)
        simp only [ColorTimerString.set, Timer.resetTo, Timer.clear]
        refine ⟨a1, ?_⟩
        intro he
        by_contra hne
        have := (a4 (by omega)).2
        omega
      · have hj_ne : slotIndex j ≠ slotIndex (d.mFirst + 1) :=
          slotIndex_ne (by omega) (by show d.mFirst + 1 < j + 25; omega)
        rw [Function.update_noteq hj_ne]
        exact h3 i j hi hij (by omega) (by show d.mFirst < i + 25; omega)
    · have hz : (d.mFirst + 1) % U32_MOD = 0 := by
        have : d.mFirst + 1 = U32_MOD := by omega
        rw [this]; rfl
      rw [hz] at hj
      omega

theorem ageInv_of_reachable (e : Nat) (d0 d : ChatMessageDisplayer)
    (h : ReachableIT e d0 d) : AgeInv e d := by
  induction h with
  | start => exact ageInv_reset e d0
  | insert d line c id _ ih => exact ageInv_insertLine e line c id d ih
  | tick d dt cm _ ih => exact ageInv_idle e d dt cm ih

/-! ## Inserts without ticks -/

theorem insertMany_append (e : Nat) (ls : List (String × Color × Nat))
    (x : String × Color × Nat) (d : ChatMessageDisplayer) :
    insertMany e (ls ++ [x]) d = insertLine e x.1 x.2.1 x.2.2 (insertMany e ls d) := by
  induction ls generalizing d with
  | nil => rfl
  | cons y ls ih => simp only [List.cons_append, insertMany]; exact ih _

theorem insertedFrom_step (e : Nat) (ls : List (String × Color × Nat))
    (x : String × Color × Nat) (d : ChatMessageDisplayer)
    (hlen : ls.length + 1 < U32_MOD) (h : InsertedFrom e ls d) :
    InsertedFrom e (ls ++ [x]) (insertLine e x.1 x.2.1 x.2.2 d) := by
  obtain ⟨h1, h2, h3, h4⟩ := h
  have hm : (d.mFirst + 1) % U32_MOD = ls.length + 1 := by
    rw [h1]; exact Nat.mod_eq_of_lt hlen
  have hlen2 : ls.length + 1 < 4294967296 := hlen
  have h2b : d.mLast = ls.length - 24 := h2
  refine ⟨?_, ?_, ?_, ?_⟩
  · rw [insertLine_mFirst, hm]; simp
  · rw [insertLine_mLast, advanceFirst_mLast, hm, h2b]
    simp only [List.length_append, List.length_singleton, U32_MOD, MSG_SLOTS, MAX_MESSAGES]
    split <;> omega
  · rw [insertLine_mFull, advanceFirst_mFull, hm, h2b, h3]
    simp only [List.length_append, List.length_singleton, U32_MOD, MSG_SLOTS, MAX_MESSAGES]
    split
    · have : 25 ≤ ls.length + 1 := by omega
      simp [this]
    · have : ¬ (25 ≤ ls.length) := by omega
      have h5 : ¬ (25 ≤ ls.length + 1) := by omega
      simp [this, h5]
  · intro i hi hile hw
    simp only [List.length_append, List.length_singleton] at hile hw
    unfold slotAt
    rw [insertLine_mMessages, hm]
    by_cases hin : i = ls.length + 1
    · subst hin
      rw [Function.update_same]
      simp [ColorTimerString.set, Timer.resetTo, Timer.clear]
    · have hne : slotIndex i ≠ slotIndex (ls.length + 1) :=
        slotIndex_ne (by omega) hw
      rw [Function.update_noteq hne]
      have hw2 : ls.length + 1 < i + 25 := hw
      have := h4 i hi (by omega) (by show ls.length < i + 25; omega)
      unfold slotAt at this
      rw [List.getElem?_append_left (by omega)]
      exact this

theorem insertedFrom_reset (e : Nat) (d0 : ChatMessageDisplayer) :
    InsertedFrom e [] d0.reset := by
  refine ⟨reset_mFirst d0, reset_mLast d0, ?_, ?_⟩
  · rw [reset_mFull]; simp
  · intro i hi hile _
    simp at hile
    omega

theorem insertedFrom_insertMany (e : Nat) (d0 : ChatMessageDisplayer)
    (ls : List (String × Color × Nat)) (hlen : ls.length < U32_MOD) :
    InsertedFrom e ls (insertMany e ls d0.reset) := by
  induction ls using List.reverseRecOn with
  | nil => exact insertedFrom_reset e d0
  | append_singleton ls x ih =>
    rw [insertMany_append]
    have hl : ls.length + 1 < U32_MOD := by simpa using hlen
    exact insertedFrom_step e ls x _ hl (ih (by omega))

/-! ## Inserts up to the wrap of the head counter -/

theorem insertMany_at_wrap (e : Nat) (d0 : ChatMessageDisplayer)
    (ls : List (String × Color × Nat)) (x : String × Color × Nat)
    (hlen : ls.length = 4294967295) :
    (insertMany e (ls ++ [x]) d0.reset).mFirst = 0 ∧
    (insertMany e (ls ++ [x]) d0.reset).mLast = 4294967271 := by
  have h := insertedFrom_insertMany e d0 ls (by rw [hlen]; decide)
  obtain ⟨h1, h2, _, _⟩ := h
  rw [hlen] at h1 h2
  have h2b : (insertMany e ls d0.reset).mLast = 4294967271 := h2
  rw [insertMany_append]
  refine ⟨?_, ?_⟩
  · rw [insertLine_mFirst, h1]
    rfl
  · rw [insertLine_mLast, advanceFirst_mLast, h1, h2b]
    rfl

theorem insertMany_replicate_wrap (e : Nat) (d0 : ChatMessageDisplayer)
    (x : String × Color × Nat) :
    (insertMany e (List.replicate 4294967296 x) d0.reset).mFirst = 0 ∧
    (insertMany e (List.replicate 4294967296 x) d0.reset).mLast = 4294967271 := by
  have hr : List.replicate 4294967296 x = List.replicate 4294967295 x ++ [x] :=
    List.replicate_succ' 4294967295 x
  rw [hr]
  exact insertMany_at_wrap e d0 _ x (List.length_replicate 4294967295 x)

theorem getMessageCount_of_le (d : ChatMessageDisplayer) (h1 : d.mLast ≤ d.mFirst)
    (h2 : d.mFirst < U32_MOD) : d.getMessageCount = d.mFirst - d.mLast := by
  unfold getMessageCount
  simp only [U32_MOD] at h2 ⊢
  rw [Nat.mod_eq_of_lt (by omega : d.mLast < 4294967296)]
  omega

theorem getMessageCount_of_fields (d : ChatMessageDisplayer) (a b : Nat) (h1 : d.mFirst = a)
    (h2 : d.mLast = b) : d.getMessageCount = (a + U32_MOD - b % U32_MOD) % U32_MOD := by
  subst h1 h2
  rfl

/-! ## Claims -/

set_option maxRecDepth 200000

/-- C1, as amended: starting from a freshly reset buffer, after every prefix of a
sequence of fewer than `2^32` `insertLine` calls (no tick in between), `tail ≤ head`
and `messageCount() = head - tail ≤ C`, where `C = MAX_MESSAGES + 1 = 25`. -/
theorem C1_capacity_under_inserts (e : Nat) (d0 : ChatMessageDisplayer)
    (ls : List (String × Color × Nat)) (k : Nat) (hlen : ls.length < U32_MOD) :
    (insertMany e (ls.take k) d0.reset).mLast ≤ (insertMany e (ls.take k) d0.reset).mFirst ∧
    (insertMany e (ls.take k) d0.reset).getMessageCount =
      (insertMany e (ls.take k) d0.reset).mFirst - (insertMany e (ls.take k) d0.reset).mLast ∧
    (insertMany e (ls.take k) d0.reset).getMessageCount ≤ MSG_SLOTS := by
  have hk : (ls.take k).length < U32_MOD :=
    lt_of_le_of_lt (by rw [List.length_take]; exact Nat.min_le_right _ _) hlen
  obtain ⟨h1, h2, _, _⟩ := insertedFrom_insertMany e d0 (ls.take k) hk
  have hle : (insertMany e (ls.take k) d0.reset).mLast ≤
      (insertMany e (ls.take k) d0.reset).mFirst := by
    rw [h1, h2]; exact Nat.sub_le _ _
  have hc := getMessageCount_of_le _ hle (by rw [h1]; exact hk)
  refine ⟨hle, hc, ?_⟩
  rw [hc, h1, h2]
  simp only [MSG_SLOTS, MAX_MESSAGES]
  omega

/-- C1, witness: thirty inserts into a reset top-anchored displayer, observed after the
first twenty-seven. -/
theorem C1_capacity_under_inserts_witness :
    (List.replicate 30 sampleLine).length < U32_MOD ∧
    (insertMany 7000 ((List.replicate 30 sampleLine).take 27) freshTopDown.reset).mLast ≤
      (insertMany 7000 ((List.replicate 30 sampleLine).take 27) freshTopDown.reset).mFirst ∧
    (insertMany 7000 ((List.replicate 30 sampleLine).take 27) freshTopDown.reset).getMessageCount =
      (insertMany 7000 ((List.replicate 30 sampleLine).take 27) freshTopDown.reset).mFirst -
        (insertMany 7000 ((List.replicate 30 sampleLine).take 27) freshTopDown.reset).mLast ∧
    (insertMany 7000 ((List.replicate 30 sampleLine).take 27)
      freshTopDown.reset).getMessageCount ≤ MSG_SLOTS :=
  ⟨by decide, C1_capacity_under_inserts 7000 freshTopDown (List.replicate 30 sampleLine) 27
    (by decide)⟩

/-- C1, counterexample: after `2^32` inserts into a reset buffer the `U32` head counter
has wrapped to `0` while the tail stands at `2^32 - 25`, so `tail ≤ head` fails. -/
theorem C1_counterexample :
    ¬ ((insertMany 7000 (List.replicate 4294967296 sampleLine) freshTopDown.reset).mLast ≤
      (insertMany 7000 (List.replicate 4294967296 sampleLine) freshTopDown.reset).mFirst) := by
  obtain ⟨h1, h2⟩ := insertMany_replicate_wrap 7000 freshTopDown sampleLine
  rw [h1, h2]
  decide

/-- C2, failing input: a top-anchored displayer receives twenty-five lines and is then
ticked by the expiry duration.  All twenty-five physical slots report expiry, also the
one whose line was already evicted by the overflow of the twenty-fifth insert, so the
tail (26) overtakes the head (25) and the unsigned `messageCount()` is `2^32 - 1`. -/
theorem C2_tail_overtakes_head :
    ((insertMany 7000 (List.replicate 25 sampleLine) freshTopDown).idle 7000 false).mFirst = 25 ∧
    ((insertMany 7000 (List.replicate 25 sampleLine) freshTopDown).idle 7000 false).mLast = 26 ∧
    ((insertMany 7000 (List.replicate 25 sampleLine) freshTopDown).idle 7000
      false).getMessageCount = 4294967295 := by
  decide

/-- C3: in every state reached from a reset buffer by `insertLine` calls with one fixed
expiry duration, interleaved with ticks of arbitrary `timeDelta`, the retained slots are
ordered by age: for logical positions `max(1, head - C + 1) ≤ i < j ≤ head` the expiry
time left in slot `i mod C` is at most that of slot `j mod C`, and if slot `j` is fully
expired then so is slot `i`. -/
theorem C3_fifo_expiry (e : Nat) (d0 d : ChatMessageDisplayer) (h : ReachableIT e d0 d)
    (i j : Nat) (hi : max 1 (d.mFirst + 1 - MSG_SLOTS) ≤ i) (hij : i < j) (hj : j ≤ d.mFirst) :
    (d.slotAt i).timer.getCurrent ≤ (d.slotAt j).timer.getCurrent ∧
    ((d.slotAt j).messageHasExpired = true → (d.slotAt i).messageHasExpired = true) := by
  obtain ⟨_, _, h3⟩ := ageInv_of_reachable e d0 d h
  have hi1 : 1 ≤ i := le_trans (le_max_left _ _) hi
  have hi2 : d.mFirst + 1 - 25 ≤ i := le_trans (le_max_right _ _) hi
  obtain ⟨p1, p2⟩ := h3 i j hi1 hij hj (by show d.mFirst < i + 25; omega)
  refine ⟨p1, ?_⟩
  intro hx
  simp only [ColorTimerString.messageHasExpired, Timer.getCurrent, Bool.and_eq_true,
    beq_iff_eq] at hx ⊢
  have := p2 hx.1
  omega

/-- C3, witness: two lines inserted 3 s apart, observed 5 s after the second one: the
older slot has run out, the newer one has 2 s left. -/
theorem C3_fifo_expiry_witness :
    ReachableIT 7000 freshBottomUp
      ((insertLine 7000 "b" ⟨255, 0, 0⟩ 1
        ((insertLine 7000 "a" ⟨255, 0, 0⟩ 0 freshBottomUp.reset).idle 3000 false)).idle
          5000 false) ∧
    (((insertLine 7000 "b" ⟨255, 0, 0⟩ 1
        ((insertLine 7000 "a" ⟨255, 0, 0⟩ 0 freshBottomUp.reset).idle 3000 false)).idle
          5000 false).slotAt 1).timer.getCurrent ≤
      (((insertLine 7000 "b" ⟨255, 0, 0⟩ 1
        ((insertLine 7000 "a" ⟨255, 0, 0⟩ 0 freshBottomUp.reset).idle 3000 false)).idle
          5000 false).slotAt 2).timer.getCurrent ∧
    ((((insertLine 7000 "b" ⟨255, 0, 0⟩ 1
        ((insertLine 7000 "a" ⟨255, 0, 0⟩ 0 freshBottomUp.reset).idle 3000 false)).idle
          5000 false).slotAt 2).messageHasExpired = true →
      (((insertLine 7000 "b" ⟨255, 0, 0⟩ 1
        ((insertLine 7000 "a" ⟨255, 0, 0⟩ 0 freshBottomUp.reset).idle 3000 false)).idle
          5000 false).slotAt 1).messageHasExpired = true) :=
  have hr : ReachableIT 7000 freshBottomUp
      ((insertLine 7000 "b" ⟨255, 0, 0⟩ 1
        ((insertLine 7000 "a" ⟨255, 0, 0⟩ 0 freshBottomUp.reset).idle 3000 false)).idle
          5000 false) :=
    .tick _ _ _ (.insert _ _ _ _ (.tick _ _ _ (.insert _ _ _ _ .start)))
  ⟨hr, C3_fifo_expiry 7000 freshBottomUp _ hr 1 2 (by decide) (by decide) (by decide)⟩

/-- C4, as amended: starting from a reset buffer, after `n < 2^32` `insertLine` calls
with no intervening tick, `messageCount() = min(n, MAX_MESSAGES)`; for every `k ≥ 1`,
after `MAX_MESSAGES + k` inserts `tail = k`; and for every logical position `i` with
`tail < i ≤ head` the physical slot `i mod C` still holds the text, color and group id
of the `i`-th inserted line. -/
theorem C4_eviction_by_capacity (e : Nat) (d0 : ChatMessageDisplayer)
    (ls : List (String × Color × Nat)) (hlen : ls.length < U32_MOD) :
    (insertMany e ls d0.reset).getMessageCount = min ls.length MAX_MESSAGES ∧
    (∀ k : Nat, 1 ≤ k → ls.length = MAX_MESSAGES + k → (insertMany e ls d0.reset).mLast = k) ∧
    (∀ i : Nat, (insertMany e ls d0.reset).mLast < i → i ≤ (insertMany e ls d0.reset).mFirst →
      ls[i - 1]? = some (((insertMany e ls d0.reset).slotAt i).str,
        ((insertMany e ls d0.reset).slotAt i).color,
        ((insertMany e ls d0.reset).slotAt i).groupId)) := by
  obtain ⟨h1, h2, _, h4⟩ := insertedFrom_insertMany e d0 ls hlen
  have h2b : (insertMany e ls d0.reset).mLast = ls.length - 24 := h2
  have hle : (insertMany e ls d0.reset).mLast ≤ (insertMany e ls d0.reset).mFirst := by
    rw [h1, h2]; exact Nat.sub_le _ _
  refine ⟨?_, ?_, ?_⟩
  · rw [getMessageCount_of_le _ hle (by rw [h1]; exact hlen), h1, h2b]
    simp only [MAX_MESSAGES]
    omega
  · intro k _ hk
    rw [h2b, hk]
    simp only [MAX_MESSAGES]
    omega
  · intro i hlo hhi
    rw [h2b] at hlo
    rw [h1] at hhi
    exact (h4 i (by omega) hhi (by show ls.length < i + 25; omega)).1

/-- C4, witness: thirty inserts into a reset top-anchored displayer. -/
theorem C4_eviction_by_capacity_witness :
    (List.replicate 30 sampleLine).length < U32_MOD ∧
    (insertMany 7000 (List.replicate 30 sampleLine) freshTopDown.reset).getMessageCount =
      min (List.replicate 30 sampleLine).length MAX_MESSAGES ∧
    (∀ k : Nat, 1 ≤ k → (List.replicate 30 sampleLine).length = MAX_MESSAGES + k →
      (insertMany 7000 (List.replicate 30 sampleLine) freshTopDown.reset).mLast = k) ∧
    (∀ i : Nat, (insertMany 7000 (List.replicate 30 sampleLine) freshTopDown.reset).mLast < i →
      i ≤ (insertMany 7000 (List.replicate 30 sampleLine) freshTopDown.reset).mFirst →
      (List.replicate 30 sampleLine)[i - 1]? =
        some (((insertMany 7000 (List.replicate 30 sampleLine) freshTopDown.reset).slotAt i).str,
          ((insertMany 7000 (List.replicate 30 sampleLine) freshTopDown.reset).slotAt i).color,
          ((insertMany 7000 (List.replicate 30 sampleLine)
            freshTopDown.reset).slotAt i).groupId)) :=
  ⟨by decide,
    C4_eviction_by_capacity 7000 freshTopDown (List.replicate 30 sampleLine) (by decide)⟩

/-- C4, counterexample: after `n = 2^32` inserts into a reset buffer the head counter
has wrapped and `messageCount()` is `25`, not `min(n, MAX_MESSAGES) = 24`. -/
theorem C4_counterexample :
    (insertMany 7000 (List.replicate 4294967296 sampleLine) freshTopDown.reset).getMessageCount
      = 25 ∧
    min 4294967296 MAX_MESSAGES = 24 := by
  obtain ⟨h1, h2⟩ := insertMany_replicate_wrap 7000 freshTopDown sampleLine
  exact ⟨(getMessageCount_of_fields _ 0 4294967271 h1 h2).trans (by decide), by decide⟩

/-- C5, as amended: for every state, inserting a line (text, color, groupId) advances
the `U32` head counter by one modulo `2^32` and leaves the slot at physical index
(new head) mod `C` holding exactly the given text, color and group id, with its expiry
timer set to the fixed duration `MESSAGE_EXPIRE_TIME` and its fade timer `0`; every
other physical slot (text, color, group id and both timers) is unchanged. -/
theorem C5_insertLine_postcondition (e : Nat) (line : String) (c : Color) (id : Nat)
    (d : ChatMessageDisplayer) :
    (insertLine e line c id d).mFirst = (d.mFirst + 1) % U32_MOD ∧
    ((insertLine e line c id d).slotAt (insertLine e line c id d).mFirst).str = line ∧
    ((insertLine e line c id d).slotAt (insertLine e line c id d).mFirst).color = c ∧
    ((insertLine e line c id d).slotAt (insertLine e line c id d).mFirst).groupId = id ∧
    ((insertLine e line c id d).slotAt (insertLine e line c id d).mFirst).timer.getCurrent = e ∧
    ((insertLine e line c id d).slotAt
      (insertLine e line c id d).mFirst).fadeTimer.getCurrent = 0 ∧
    (∀ k : Fin MSG_SLOTS, k ≠ slotIndex (insertLine e line c id d).mFirst →
      (insertLine e line c id d).mMessages k = d.mMessages k) := by
  unfold slotAt
  rw [insertLine_mFirst, insertLine_mMessages, Function.update_same]
  refine ⟨rfl, rfl, rfl, rfl, rfl, rfl, ?_⟩
  intro k hk
  exact Function.update_noteq hk _ _

/-- C5, counterexample: with the head counter at `2^32 - 1` an insert wraps it to `0`
instead of increasing it by one. -/
theorem C5_counterexample :
    headAtMax.mFirst = 4294967295 ∧
    (insertLine 7000 "a" ⟨255, 255, 255⟩ 0 headAtMax).mFirst = 0 := by
  decide

/-- C6, as amended: for every state with `tail ≤ head ≤ tail + C` whose head counter is
below `2^32 - 1`, `insertLine` advances `tail` by one and sets `full = true` if the
buffer was holding exactly `MAX_MESSAGES = C - 1` live slots immediately before the
call; in every other case `tail` and `full` are left unchanged. -/
theorem C6_overflow_condition (e : Nat) (line : String) (c : Color) (id : Nat)
    (d : ChatMessageDisplayer) (h1 : d.mLast ≤ d.mFirst) (h2 : d.mFirst ≤ d.mLast + MSG_SLOTS)
    (h3 : d.mFirst + 1 < U32_MOD) :
    (d.getMessageCount = MAX_MESSAGES →
      (insertLine e line c id d).mLast = d.mLast + 1 ∧
      (insertLine e line c id d).mFull = true) ∧
    (d.getMessageCount ≠ MAX_MESSAGES →
      (insertLine e line c id d).mLast = d.mLast ∧
      (insertLine e line c id d).mFull = d.mFull) := by
  rw [getMessageCount_of_le d h1 (by omega), insertLine_mLast, insertLine_mFull,
    advanceFirst_mLast, advanceFirst_mFull, Nat.mod_eq_of_lt h3]
  simp only [U32_MOD, MSG_SLOTS, MAX_MESSAGES] at h2 h3 ⊢
  constructor
  · intro hc
    have hm : d.mLast % 25 = (d.mFirst + 1) % 25 := by omega
    rw [if_pos hm, if_pos hm]
    exact ⟨Nat.mod_eq_of_lt (by omega), rfl⟩
  · intro hc
    have hm : ¬ (d.mLast % 25 = (d.mFirst + 1) % 25) := by omega
    rw [if_neg hm, if_neg hm]
    exact ⟨rfl, rfl⟩

/-- C6, witness: a displayer holding twenty-four fresh lines. -/
theorem C6_overflow_condition_witness :
    (insertMany 7000 (List.replicate 24 sampleLine) freshTopDown).mLast ≤
      (insertMany 7000 (List.replicate 24 sampleLine) freshTopDown).mFirst ∧
    ((insertMany 7000 (List.replicate 24 sampleLine) freshTopDown).getMessageCount
        = MAX_MESSAGES →
      (insertLine 7000 "z" ⟨0, 0, 0⟩ 1
        (insertMany 7000 (List.replicate 24 sampleLine) freshTopDown)).mLast =
        (insertMany 7000 (List.replicate 24 sampleLine) freshTopDown).mLast + 1 ∧
      (insertLine 7000 "z" ⟨0, 0, 0⟩ 1
        (insertMany 7000 (List.replicate 24 sampleLine) freshTopDown)).mFull = true) ∧
    ((insertMany 7000 (List.replicate 24 sampleLine) freshTopDown).getMessageCount
        ≠ MAX_MESSAGES →
      (insertLine 7000 "z" ⟨0, 0, 0⟩ 1
        (insertMany 7000 (List.replicate 24 sampleLine) freshTopDown)).mLast =
        (insertMany 7000 (List.replicate 24 sampleLine) freshTopDown).mLast ∧
      (insertLine 7000 "z" ⟨0, 0, 0⟩ 1
        (insertMany 7000 (List.replicate 24 sampleLine) freshTopDown)).mFull =
        (insertMany 7000 (List.replicate 24 sampleLine) freshTopDown).mFull) :=
  ⟨by decide,
    C6_overflow_condition 7000 "z" ⟨0, 0, 0⟩ 1
      (insertMany 7000 (List.replicate 24 sampleLine) freshTopDown)
      (by decide) (by decide) (by decide)⟩

/-- C6, counterexample.  After twenty-four inserts into a fresh displayer
(`messageCount() = 24`, not `C = 25`) the next insert already advances `tail` and sets
`full`; in a state with `head - tail = C = 25` an insert leaves `tail` and `full`
unchanged; and with the head counter at `2^32 - 1` and twenty live slots an insert
advances `tail` and sets `full`. -/
theorem C6_counterexample :
    ((insertMany 7000 (List.replicate 24 sampleLine) freshTopDown).getMessageCount = 24 ∧
      (insertMany 7000 (List.replicate 24 sampleLine) freshTopDown).mLast = 0 ∧
      (insertLine 7000 "z" ⟨0, 0, 0⟩ 1
        (insertMany 7000 (List.replicate 24 sampleLine) freshTopDown)).mLast = 1 ∧
      (insertLine 7000 "z" ⟨0, 0, 0⟩ 1
        (insertMany 7000 (List.replicate 24 sampleLine) freshTopDown)).mFull = true) ∧
    (twentyFiveApart.getMessageCount = 25 ∧
      (insertLine 7000 "z" ⟨0, 0, 0⟩ 1 twentyFiveApart).mLast = 0 ∧
      (insertLine 7000 "z" ⟨0, 0, 0⟩ 1 twentyFiveApart).mFull = false) ∧
    (headAtMaxTwentyLive.getMessageCount = 20 ∧
      (insertLine 7000 "z" ⟨0, 0, 0⟩ 1 headAtMaxTwentyLive).mLast = 4294967276 ∧
      (insertLine 7000 "z" ⟨0, 0, 0⟩ 1 headAtMaxTwentyLive).mFull = true) := by
  decide

/-- C7: for every state, after `reset()` `head = 0`, `tail = 0`, `full = false`, and
every one of the `C` physical slots has expiry timer `0`, fade timer `0` and empty
text; hence `messageCount() = 0`. -/
theorem C7_reset_postcondition (d : ChatMessageDisplayer) :
    d.reset.mFirst = 0 ∧ d.reset.mLast = 0 ∧ d.reset.mFull = false ∧
    (∀ k : Fin MSG_SLOTS, (d.reset.mMessages k).timer.getCurrent = 0 ∧
      (d.reset.mMessages k).fadeTimer.getCurrent = 0 ∧ (d.reset.mMessages k).str = "") ∧
    d.reset.getMessageCount = 0 := by
  refine ⟨reset_mFirst d, reset_mLast d, reset_mFull d, ?_, ?_⟩
  · intro k
    rw [reset_mMessages]
    exact clearSlot_timer _
  · exact (getMessageCount_of_fields _ 0 0 (reset_mFirst d) (reset_mLast d)).trans (by decide)

/-- C8, as amended: for every state, immediately after `reset()` no slot is fading
(every fade timer is `0`), and the scroll animator is left as it was, so `isScrolling()`
has the value it had before the call. -/
theorem C8_reset_animations (d : ChatMessageDisplayer) :
    (∀ k : Fin MSG_SLOTS, (d.reset.mMessages k).fadeTimer.getCurrent = 0) ∧
    d.reset.mChatScrollTimer = d.mChatScrollTimer ∧
    d.reset.isScrolling = d.isScrolling := by
  refine ⟨?_, reset_mChatScrollTimer d, ?_⟩
  · intro k
    rw [reset_mMessages]
    exact (clearSlot_timer _).2.1
  · unfold isScrolling
    rw [reset_mChatScrollTimer]

/-- C8, counterexample: a bottom-anchored displayer receives a message, which restarts
the scroll animator; a `reset()` at that moment leaves the animator running, so
`isScrolling()` is still true. -/
theorem C8_counterexample :
    (onChatMessageReceived 7000 ⟨255, 255, 255⟩ ["hi"] freshBottomUp).isScrolling = true ∧
    (onChatMessageReceived 7000 ⟨255, 255, 255⟩ ["hi"] freshBottomUp).reset.isScrolling
      = true := by
  decide

/-- C9: whenever `head = 0` (no message inserted since construction or the last reset),
`visibleCount(helperFadeIn, composing) = 0` for every `helperFadeIn`, both values of
`composing`, every display mode and every scroll-timer state. -/
theorem C9_empty_shows_nothing (d : ChatMessageDisplayer) (helperFadeIn : ℚ)
    (composingMessage : Bool) (h : d.mFirst = 0) :
    d.getCountOfMessagesToDisplay helperFadeIn composingMessage = 0 := by
  unfold getCountOfMessagesToDisplay
  rw [if_pos h]

/-- C9, witness: a displayer that was receiving messages in `ShortFixed` mode and is
reset while its scroll animator runs. -/
theorem C9_empty_shows_nothing_witness :
    (onChatMessageReceived 7000 ⟨255, 255, 255⟩ ["hi"]
      freshBottomUp.toggleDisplayMode).reset.mFirst = 0 ∧
    (onChatMessageReceived 7000 ⟨255, 255, 255⟩ ["hi"]
      freshBottomUp.toggleDisplayMode).reset.getCountOfMessagesToDisplay (1 / 2) true = 0 :=
  ⟨reset_mFirst _, C9_empty_shows_nothing _ (1 / 2) true (reset_mFirst _)⟩

/-- C10, as amended: for every state with `head > 0` and every `helperFadeIn > 0`,
`visibleCount(helperFadeIn, composing) = min(MAX_MESSAGES, head)`, regardless of display
mode, composing flag, scroll state, slot timers and `tail`. -/
theorem C10_compose_fade_in (d : ChatMessageDisplayer) (helperFadeIn : ℚ)
    (composingMessage : Bool) (h1 : 0 < d.mFirst) (h2 : 0 < helperFadeIn) :
    d.getCountOfMessagesToDisplay helperFadeIn composingMessage = min MAX_MESSAGES d.mFirst := by
  unfold getCountOfMessagesToDisplay
  rw [if_neg (by omega), if_pos h2]

/-- C10, witness: the displayer whose only line has expired, while the compose overlay
is half faded in. -/
theorem C10_compose_fade_in_witness :
    0 < oneExpired.mFirst ∧ (0 : ℚ) < 1 / 2 ∧
    oneExpired.getCountOfMessagesToDisplay (1 / 2) false = min MAX_MESSAGES oneExpired.mFirst :=
  ⟨by decide, by norm_num, C10_compose_fade_in oneExpired (1 / 2) false (by decide) (by norm_num)⟩

/-- C10, counterexample: after its only line has expired and been evicted
(`head = tail = 1`, `messageCount() = 0`), the displayer still reports one visible
message during the compose fade-in, while `min(MAX_MESSAGES, messageCount())` is `0`. -/
theorem C10_counterexample :
    0 < oneExpired.mFirst ∧ (0 : ℚ) < 1 ∧
    oneExpired.getCountOfMessagesToDisplay 1 false = 1 ∧
    min MAX_MESSAGES oneExpired.getMessageCount = 0 := by
  refine ⟨by decide, by norm_num, ?_, by decide⟩
  have h : oneExpired.mFirst = 1 := by decide
  unfold getCountOfMessagesToDisplay
  rw [if_neg (by rw [h]; decide), if_pos (by norm_num), h]
  decide

/-! ## The backward walk of `getCountOfMessagesToDisplay` -/

theorem countLoop_le (d : ChatMessageDisplayer) (h : ℚ) (cm scr : Bool) (off : Nat)
    (i m sc : Nat) (hm : m < d.getNumberOfMessagesToShow cm) :
    countLoop d h cm scr off i m sc ≤ d.getNumberOfMessagesToShow cm := by
  induction i generalizing m sc with
  | zero => simp only [countLoop]; omega
  | succ i ih =>
    simp only [countLoop]
    split_ifs <;> first | omega | exact ih _ _ (by omega)

theorem countLoop_showing (d : ChatMessageDisplayer) (h : ℚ) (cm scr : Bool) (off : Nat)
    (hshow : cm = true ∨ d.mDisplayMode ≠ .ShortTimeout)
    (i m sc : Nat) (hm : m < d.getNumberOfMessagesToShow cm) :
    countLoop d h cm scr off i m sc = min (m + i) (d.getNumberOfMessagesToShow cm) := by
  have hnot : (!(cm || decide (h > 0) || decide (d.mDisplayMode ≠ .ShortTimeout))) = false := by
    rcases hshow with hc | hmode
    · simp [hc]
    · simp [hmode]
  induction i generalizing m sc with
  | zero => simp only [countLoop]; omega
  | succ i ih =>
    simp only [countLoop, hnot, Bool.and_false, Bool.false_and, Bool.false_eq_true, if_false]
    split_ifs with h1
    · omega
    · rw [ih _ _ (by omega)]
      omega

theorem countLoop_still (d : ChatMessageDisplayer) (h : ℚ) (off : Nat)
    (hh : h ≤ 0) (hmode : d.mDisplayMode = .ShortTimeout)
    (i m sc : Nat) (hm : m < d.getNumberOfMessagesToShow false) :
    countLoop d h false false off i m sc =
      min (m + unexpiredRun d i) (d.getNumberOfMessagesToShow false) := by
  have hnot : (!(false || decide (h > 0) || decide (d.mDisplayMode ≠ .ShortTimeout))) = true := by
    have : ¬ (h > 0) := not_lt.mpr hh
    simp [hmode, this]
  induction i generalizing m sc with
  | zero => simp only [countLoop, unexpiredRun]; omega
  | succ i ih =>
    simp only [countLoop, unexpiredRun, hnot, Bool.and_true, Bool.not_false]
    cases hx : (d.slotAt (i + 1)).messageHasExpired
    · simp only [Bool.false_eq_true, if_false, Bool.false_and]
      split_ifs with h1
      · omega
      · rw [ih _ _ (by omega)]
        omega
    · simp only [if_true]
      omega

theorem toU32_of_s32 (x : Int) (h1 : 0 ≤ x) (h2 : x ≤ 2147483647) : toU32 x = x.toNat := by
  unfold toU32
  omega

/-- C11: with `helperFadeIn ≤ 0`, whenever `composing` is true or the display mode is
`ShortFixed` or `LongFixed`, and `numberToShow(composing) ≥ 1`,
`visibleCount = min(numberToShow(composing), head)`, whatever the expiry and fade timers
of the slots, `tail` and the scroll timer are. -/
theorem C11_fixed_modes_keep_expired (d : ChatMessageDisplayer) (helperFadeIn : ℚ)
    (composingMessage : Bool) (hh : helperFadeIn ≤ 0)
    (hshow : composingMessage = true ∨ d.mDisplayMode = .ShortFixed ∨
      d.mDisplayMode = .LongFixed)
    (hn : 1 ≤ d.getNumberOfMessagesToShow composingMessage) :
    d.getCountOfMessagesToDisplay helperFadeIn composingMessage =
      min (d.getNumberOfMessagesToShow composingMessage) d.mFirst := by
  unfold getCountOfMessagesToDisplay
  by_cases h0 : d.mFirst = 0
  · rw [if_pos h0, h0]; simp
  · rw [if_neg h0, if_neg (not_lt.mpr hh)]
    have hs : composingMessage = true ∨ d.mDisplayMode ≠ .ShortTimeout := by
      rcases hshow with h1 | h1 | h1
      · exact Or.inl h1
      · right; rw [h1]; decide
      · right; rw [h1]; decide
    rw [countLoop_showing d helperFadeIn composingMessage _ _ hs _ 0 0 (by omega)]
    omega

/-- C11, witness: short count 3, five fully expired messages, `ShortFixed`, not
composing: three messages are visible. -/
theorem C11_fixed_modes_keep_expired_witness :
    (0 : ℚ) ≤ 0 ∧
    fiveExpired.toggleDisplayMode.mDisplayMode = .ShortFixed ∧
    (∀ i : Nat, 1 ≤ i → i ≤ 5 → (fiveExpired.toggleDisplayMode.slotAt i).messageHasExpired = true) ∧
    1 ≤ fiveExpired.toggleDisplayMode.getNumberOfMessagesToShow false ∧
    fiveExpired.toggleDisplayMode.getCountOfMessagesToDisplay 0 false =
      min (fiveExpired.toggleDisplayMode.getNumberOfMessagesToShow false)
        fiveExpired.toggleDisplayMode.mFirst ∧
    min (fiveExpired.toggleDisplayMode.getNumberOfMessagesToShow false)
      fiveExpired.toggleDisplayMode.mFirst = 3 :=
  ⟨le_refl 0, by decide, by decide, by decide,
    C11_fixed_modes_keep_expired fiveExpired.toggleDisplayMode 0 false (le_refl 0)
      (Or.inr (Or.inl (by decide))) (by decide),
    by decide⟩

/-- C12: in `ShortTimeout` mode with `composing = false`, `helperFadeIn ≤ 0`, the scroll
timer at 0 and `shortCount ≥ 1`, `visibleCount = min(shortCount, r)`, where `r` is the
number of slots met walking the logical positions `head`, `head - 1`, ..., `1` before
the first fully expired slot; in particular `visibleCount = 0` as soon as the newest
slot is fully expired. -/
theorem C12_short_timeout_excludes_expired (d : ChatMessageDisplayer) (helperFadeIn : ℚ)
    (hmode : d.mDisplayMode = .ShortTimeout) (hh : helperFadeIn ≤ 0)
    (hscroll : d.mChatScrollTimer.getCurrent = 0)
    (hn : 1 ≤ d.mMessagesToShowInShortMode) (hs32 : d.mMessagesToShowInShortMode ≤ 2147483647) :
    d.getCountOfMessagesToDisplay helperFadeIn false =
      min d.mMessagesToShowInShortMode.toNat (unexpiredRun d d.mFirst) ∧
    ((d.slotAt d.mFirst).messageHasExpired = true →
      d.getCountOfMessagesToDisplay helperFadeIn false = 0) := by
  have hnum : d.getNumberOfMessagesToShow false = d.mMessagesToShowInShortMode.toNat := by
    unfold getNumberOfMessagesToShow
    simp only [Bool.false_eq_true, if_false, hmode, true_or, if_true]
    exact toU32_of_s32 _ (by omega) hs32
  have hscr : d.isScrolling = false := by
    unfold isScrolling
    rw [hscroll]
    decide
  have hmain : d.getCountOfMessagesToDisplay helperFadeIn false =
      min d.mMessagesToShowInShortMode.toNat (unexpiredRun d d.mFirst) := by
    unfold getCountOfMessagesToDisplay
    by_cases h0 : d.mFirst = 0
    · rw [if_pos h0, h0]; simp [unexpiredRun]
    · rw [if_neg h0, if_neg (not_lt.mpr hh), hscr,
        countLoop_still d helperFadeIn _ hh hmode _ 0 0 (by rw [hnum]; omega), hnum]
      omega
  refine ⟨hmain, ?_⟩
  intro hx
  rw [hmain]
  cases hf : d.mFirst with
  | zero => simp [unexpiredRun]
  | succ k =>
    rw [hf] at hx
    simp [unexpiredRun, hx]

/-- C12, witness: short count 3 and five fully expired messages give 0. -/
theorem C12_short_timeout_excludes_expired_witness :
    fiveExpired.mDisplayMode = .ShortTimeout ∧ (0 : ℚ) ≤ 0 ∧
    fiveExpired.mChatScrollTimer.getCurrent = 0 ∧
    fiveExpired.mMessagesToShowInShortMode = 3 ∧
    (∀ i : Nat, 1 ≤ i → i ≤ 5 → (fiveExpired.slotAt i).messageHasExpired = true) ∧
    (fiveExpired.getCountOfMessagesToDisplay 0 false =
        min fiveExpired.mMessagesToShowInShortMode.toNat
          (unexpiredRun fiveExpired fiveExpired.mFirst) ∧
      ((fiveExpired.slotAt fiveExpired.mFirst).messageHasExpired = true →
        fiveExpired.getCountOfMessagesToDisplay 0 false = 0)) ∧
    min fiveExpired.mMessagesToShowInShortMode.toNat
      (unexpiredRun fiveExpired fiveExpired.mFirst) = 0 :=
  ⟨by decide, le_refl 0, by decide, by decide, by decide,
    C12_short_timeout_excludes_expired fiveExpired 0 (by decide) (le_refl 0) (by decide)
      (by decide) (by decide),
    by decide⟩

/-- C13, as amended: for every state in which `numberToShow(composing) ≥ 1` (every
configured short count other than 0), both values of `composing` and every
`helperFadeIn ≤ 0`, `visibleCount(helperFadeIn, composing) ≤ numberToShow(composing)`,
also while the scroll animator is running. -/
theorem C13_visible_within_limit (d : ChatMessageDisplayer) (helperFadeIn : ℚ)
    (composingMessage : Bool) (hh : helperFadeIn ≤ 0)
    (hn : 1 ≤ d.getNumberOfMessagesToShow composingMessage) :
    d.getCountOfMessagesToDisplay helperFadeIn composingMessage ≤
      d.getNumberOfMessagesToShow composingMessage := by
  unfold getCountOfMessagesToDisplay
  by_cases h0 : d.mFirst = 0
  · rw [if_pos h0]; omega
  · rw [if_neg h0, if_neg (not_lt.mpr hh)]
    exact countLoop_le d helperFadeIn composingMessage _ _ _ 0 0 (by omega)

/-- C13, witness: a top-anchored displayer with short count 5 that has just expired its
only line and is scrolling it off. -/
theorem C13_visible_within_limit_witness :
    (0 : ℚ) ≤ 0 ∧ oneExpired.isScrolling = true ∧
    1 ≤ oneExpired.getNumberOfMessagesToShow false ∧
    oneExpired.getCountOfMessagesToDisplay 0 false ≤ oneExpired.getNumberOfMessagesToShow false :=
  ⟨le_refl 0, by decide, by decide,
    C13_visible_within_limit oneExpired 0 false (le_refl 0) (by decide)⟩

/-- C13, counterexample: a displayer constructed with a short count of 0 that holds one
fresh line reports one visible message, above its limit `numberToShow(false) = 0`. -/
theorem C13_counterexample :
    zeroShortCount.getNumberOfMessagesToShow false = 0 ∧
    zeroShortCount.getCountOfMessagesToDisplay 0 false = 1 := by
  decide

/-! ## Ticks that leave slots alone -/

theorem timer_update_zero (t : Timer) : t.update 0 = (t, false) := by
  unfold Timer.update
  by_cases h : t.mCurrentCounter = 0
  · simp [h]
  · have h2 : ¬ (0 ≥ t.mCurrentCounter) := by omega
    simp [h, h2]

theorem timer_update_stopped (t : Timer) (dt : Nat) (h : t.mCurrentCounter = 0) :
    t.update dt = (t, false) := by
  unfold Timer.update
  simp [h]

theorem slot_idle_zero (m : ColorTimerString) : m.idle 0 = (m, false) := by
  unfold ColorTimerString.idle
  simp [timer_update_zero]

theorem slot_idle_quiet (m : ColorTimerString) (dt : Nat)
    (h : m.messageHasExpired = true) : m.idle dt = (m, false) := by
  simp only [ColorTimerString.messageHasExpired, Timer.getCurrent, Bool.and_eq_true,
    beq_iff_eq] at h
  unfold ColorTimerString.idle
  simp [timer_update_stopped _ dt h.1, timer_update_stopped _ dt h.2]

theorem idleSlot_of_idle_eq (dt : Nat) (cm : Bool) (d : ChatMessageDisplayer)
    (i : Fin MSG_SLOTS) (h : (d.mMessages i).idle dt = (d.mMessages i, false)) :
    idleSlot dt cm d i = d := by
  unfold idleSlot
  simp [h]

theorem idleLoop_quiet (dt : Nat) (cm : Bool) (l : List (Fin MSG_SLOTS))
    (d : ChatMessageDisplayer)
    (h : ∀ j, j ∈ l → (d.mMessages j).idle dt = (d.mMessages j, false)) :
    idleLoop dt cm l d = d := by
  induction l with
  | nil => rfl
  | cons i l ih =>
    simp only [idleLoop, List.foldl_cons]
    rw [idleSlot_of_idle_eq dt cm d i (h i (List.mem_cons_self _ _))]
    exact ih (fun j hj => h j (List.mem_cons_of_mem _ hj))

theorem idleSlot_mMessages_ne (dt : Nat) (cm : Bool) (d : ChatMessageDisplayer)
    (k j : Fin MSG_SLOTS) (h : j ≠ k) : (idleSlot dt cm d k).mMessages j = d.mMessages j := by
  rw [(idleSlot_frame dt cm d k).2.2.2.2.2.2, Function.update_noteq h]

theorem idleLoop_single (dt : Nat) (cm : Bool) (l : List (Fin MSG_SLOTS)) (hl : l.Nodup)
    (d : ChatMessageDisplayer) (k : Fin MSG_SLOTS) (hk : k ∈ l)
    (h : ∀ j, j ≠ k → (d.mMessages j).idle dt = (d.mMessages j, false)) :
    idleLoop dt cm l d = idleSlot dt cm d k := by
  induction l with
  | nil => exact absurd hk (List.not_mem_nil _)
  | cons i l ih =>
    have hn := List.nodup_cons.mp hl
    simp only [idleLoop, List.foldl_cons]
    by_cases hik : i = k
    · subst hik
      apply idleLoop_quiet
      intro j hj
      have hne : j ≠ i := fun e => hn.1 (e ▸ hj)
      rw [idleSlot_mMessages_ne dt cm d i j hne]
      exact h j hne
    · rw [idleSlot_of_idle_eq dt cm d i (h i hik)]
      rcases List.mem_cons.mp hk with e | hmem
      · exact absurd e.symm hik
      · exact ih hn.2 hmem

theorem idle_zero (d : ChatMessageDisplayer) (cm : Bool) : d.idle 0 cm = d := by
  unfold idle
  rw [timer_update_zero]
  exact idleLoop_quiet 0 cm _ d (fun j _ => slot_idle_zero _)

theorem idle_single (d : ChatMessageDisplayer) (dt : Nat) (cm : Bool) (k : Fin MSG_SLOTS)
    (h : ∀ j, j ≠ k → (d.mMessages j).idle dt = (d.mMessages j, false)) :
    d.idle dt cm =
      idleSlot dt cm { d with mChatScrollTimer := (d.mChatScrollTimer.update dt).1 } k := by
  unfold idle
  exact idleLoop_single dt cm _ (List.nodup_finRange _) _ k (List.mem_finRange k) h

theorem idle_quiet (d : ChatMessageDisplayer) (dt : Nat) (cm : Bool)
    (h : ∀ j, (d.mMessages j).idle dt = (d.mMessages j, false)) :
    d.idle dt cm = { d with mChatScrollTimer := (d.mChatScrollTimer.update dt).1 } := by
  unfold idle
  exact idleLoop_quiet dt cm _ _ (fun j _ => h j)

/-- C16: for every state and either value of `composing`, after `tick(0, composing)`
every slot's expiry and fade timer, the scroll timer, `head`, `tail` and `full` are
unchanged, and `visibleCount(h, c)` returns the same value as before for all `h` and
`c`. -/
theorem C16_zero_tick_identity (d : ChatMessageDisplayer) (composingMessage : Bool) :
    (∀ k : Fin MSG_SLOTS,
      ((d.idle 0 composingMessage).mMessages k).timer = (d.mMessages k).timer ∧
      ((d.idle 0 composingMessage).mMessages k).fadeTimer = (d.mMessages k).fadeTimer) ∧
    (d.idle 0 composingMessage).mChatScrollTimer = d.mChatScrollTimer ∧
    (d.idle 0 composingMessage).mFirst = d.mFirst ∧
    (d.idle 0 composingMessage).mLast = d.mLast ∧
    (d.idle 0 composingMessage).mFull = d.mFull ∧
    (∀ (h : ℚ) (c : Bool),
      (d.idle 0 composingMessage).getCountOfMessagesToDisplay h c =
        d.getCountOfMessagesToDisplay h c) := by
  rw [idle_zero]
  exact ⟨fun _ => ⟨rfl, rfl⟩, rfl, rfl, rfl, rfl, fun _ _ => rfl⟩

/-- C17: a freshly constructed displayer is in `ShortTimeout`; each toggle moves to the
next mode of the cycle `ShortTimeout → ShortFixed → LongFixed → ShortTimeout`, so three
toggles restore the original mode for every starting mode; and toggling changes nothing
else (`head`, `tail`, `full`, every slot, the scroll timer and the group-id counter are
unchanged). -/
theorem C17_toggle_cycles (d : ChatMessageDisplayer) (scrollTime : Nat) (msgCount : Int)
    (topDown : Bool) :
    (construct scrollTime msgCount topDown).mDisplayMode = .ShortTimeout ∧
    (d.mDisplayMode = .ShortTimeout → d.toggleDisplayMode.mDisplayMode = .ShortFixed) ∧
    (d.mDisplayMode = .ShortFixed → d.toggleDisplayMode.mDisplayMode = .LongFixed) ∧
    (d.mDisplayMode = .LongFixed → d.toggleDisplayMode.mDisplayMode = .ShortTimeout) ∧
    d.toggleDisplayMode.toggleDisplayMode.toggleDisplayMode.mDisplayMode = d.mDisplayMode ∧
    d.toggleDisplayMode.mFirst = d.mFirst ∧ d.toggleDisplayMode.mLast = d.mLast ∧
    d.toggleDisplayMode.mFull = d.mFull ∧ d.toggleDisplayMode.mMessages = d.mMessages ∧
    d.toggleDisplayMode.mChatScrollTimer = d.mChatScrollTimer ∧
    d.toggleDisplayMode.mNextGroupId = d.mNextGroupId := by
  refine ⟨rfl, ?_, ?_, ?_, ?_, rfl, rfl, rfl, rfl, rfl, rfl⟩
  · intro h; simp [toggleDisplayMode, h]
  · intro h; simp [toggleDisplayMode, h]
  · intro h; simp [toggleDisplayMode, h]
  · cases h : d.mDisplayMode <;> simp [toggleDisplayMode, h]

/-! ## A buffer holding a single line -/

theorem visible_head_one (d : ChatMessageDisplayer) (h : ℚ) (hh : h ≤ 0)
    (h1 : d.mFirst = 1) (hmode : d.mDisplayMode = .ShortTimeout) :
    d.getCountOfMessagesToDisplay h false =
      if (d.slotAt 1).messageHasExpired = true ∧
          (d.isScrolling = false ∨ d.messagesBeingScrolledOff = 0) then 0 else 1 := by
  have hnot : (!(false || decide (h > 0) || decide (d.mDisplayMode ≠ .ShortTimeout))) = true := by
    have : ¬ (h > 0) := not_lt.mpr hh
    simp [hmode, this]
  unfold getCountOfMessagesToDisplay
  rw [if_neg (by omega), if_neg (not_lt.mpr hh), h1]
  simp only [countLoop, hnot, Bool.and_true, Nat.zero_add]
  cases hx : (d.slotAt 1).messageHasExpired
  · simp
  · cases hs : d.isScrolling
    · simp
    · by_cases ho : d.messagesBeingScrolledOff = 0
      · simp [ho]
      · have : 1 ≤ d.messagesBeingScrolledOff := by omega
        have h2 : ¬ (1 > d.messagesBeingScrolledOff) := by omega
        simp [ho, h2]

theorem reset_mDisplayMode (d : ChatMessageDisplayer) : d.reset.mDisplayMode = d.mDisplayMode := by
  unfold reset; exact (resetLoop_spec _ _).2.2.2.2.1

theorem reset_mNextGroupId (d : ChatMessageDisplayer) :
    d.reset.mNextGroupId = d.mNextGroupId := by
  unfold reset; exact (resetLoop_spec _ _).2.2.2.2.2.2.2.1

theorem advanceFirst_frame (d : ChatMessageDisplayer) :
    d.advanceFirst.mDisplayMode = d.mDisplayMode ∧
    d.advanceFirst.mChatScrollTimer = d.mChatScrollTimer ∧
    d.advanceFirst.mMessagesToShowInShortMode = d.mMessagesToShowInShortMode ∧
    d.advanceFirst.mNextGroupId = d.mNextGroupId := by
  unfold advanceFirst; simp only; split <;> exact ⟨rfl, rfl, rfl, rfl⟩

theorem insertLine_frame (e : Nat) (line : String) (c : Color) (id : Nat)
    (d : ChatMessageDisplayer) :
    (insertLine e line c id d).mDisplayMode = d.mDisplayMode ∧
    (insertLine e line c id d).mChatScrollTimer = d.mChatScrollTimer ∧
    (insertLine e line c id d).mMessagesToShowInShortMode = d.mMessagesToShowInShortMode ∧
    (insertLine e line c id d).mNextGroupId = d.mNextGroupId :=
  advanceFirst_frame d

theorem idle_mDisplayMode (d : ChatMessageDisplayer) (dt : Nat) (cm : Bool) :
    (d.idle dt cm).mDisplayMode = d.mDisplayMode := by
  unfold idle; exact (idleLoop_frame _ _ _ _).2.2.2.1

theorem slot_expired_iff (m : ColorTimerString) :
    m.messageHasExpired = true ↔ m.timer.mCurrentCounter = 0 ∧ m.fadeTimer.mCurrentCounter = 0 := by
  simp [ColorTimerString.messageHasExpired, Timer.getCurrent]

theorem clearSlot_expired (m : ColorTimerString) : (clearSlot m).messageHasExpired = true := by
  rw [slot_expired_iff]; simp [clearSlot, Timer.clear]

/-- The state right after one line was inserted into a reset buffer. -/
theorem firstLine_state (e : Nat) (line : String) (c : Color) (id : Nat)
    (d0 : ChatMessageDisplayer) :
    (insertLine e line c id d0.reset).mFirst = 1 ∧
    (insertLine e line c id d0.reset).mLast = 0 ∧
    (insertLine e line c id d0.reset).mFull = false ∧
    (insertLine e line c id d0.reset).mTopDown = d0.mTopDown ∧
    (insertLine e line c id d0.reset).mDisplayMode = d0.mDisplayMode ∧
    (insertLine e line c id d0.reset).mChatScrollTimer = d0.mChatScrollTimer ∧
    ((insertLine e line c id d0.reset).slotAt 1).timer.mCurrentCounter = e ∧
    ((insertLine e line c id d0.reset).slotAt 1).fadeTimer.mCurrentCounter = 0 ∧
    ((insertLine e line c id d0.reset).slotAt 1).usingFadeTimer = !d0.mTopDown ∧
    (∀ j, j ≠ slotIndex 1 →
      ((insertLine e line c id d0.reset).mMessages j).messageHasExpired = true) := by
  have hf : (d0.reset.mFirst + 1) % U32_MOD = 1 := by rw [reset_mFirst]; rfl
  refine ⟨?_, ?_, ?_, ?_, ?_, ?_, ?_, ?_, ?_, ?_⟩
  · rw [insertLine_mFirst, hf]
  · rw [insertLine_mLast, advanceFirst_mLast, hf, reset_mLast]; rfl
  · rw [insertLine_mFull, advanceFirst_mFull, hf, reset_mLast, reset_mFull]; rfl
  · rw [insertLine_mTopDown, reset_mTopDown]
  · rw [(insertLine_frame e line c id _).1, reset_mDisplayMode]
  · rw [(insertLine_frame e line c id _).2.1, reset_mChatScrollTimer]
  · unfold slotAt; rw [insertLine_mMessages, hf, Function.update_same]; rfl
  · unfold slotAt; rw [insertLine_mMessages, hf, Function.update_same]; rfl
  · unfold slotAt; rw [insertLine_mMessages, hf, Function.update_same, reset_mTopDown]; rfl
  · intro j hj
    rw [insertLine_mMessages, hf, Function.update_noteq hj, reset_mMessages]
    exact clearSlot_expired _

theorem timer_update_mPeriod (t : Timer) (dt : Nat) : (t.update dt).1.mPeriod = t.mPeriod := by
  unfold Timer.update
  split_ifs <;> rfl

theorem timer_update_current (t : Timer) (dt : Nat) :
    (t.update dt).1.mCurrentCounter = t.mCurrentCounter - dt := by
  unfold Timer.update
  split_ifs <;> simp <;> omega

theorem slot_idle_reports_nofade (m : ColorTimerString) (dt : Nat)
    (h0 : m.timer.mCurrentCounter ≠ 0) (h1 : m.timer.mCurrentCounter ≤ dt)
    (hu : m.usingFadeTimer = false) : (m.idle dt).2 = true := by
  unfold ColorTimerString.idle Timer.update
  simp [h0, h1, hu]

theorem idleSlot_scroll_restart (dt : Nat) (cm : Bool) (d : ChatMessageDisplayer)
    (k : Fin MSG_SLOTS) (hr : ((d.mMessages k).idle dt).2 = true) (htd : d.mTopDown = true)
    (hc : (d.mFirst + U32_MOD - ((d.mLast + 1) % U32_MOD) % U32_MOD) % U32_MOD ≤
      d.getNumberOfMessagesToShow cm) :
    (idleSlot dt cm d k).mChatScrollTimer = d.mChatScrollTimer.reset := by
  unfold idleSlot
  simp only [hr, if_true, htd, Bool.true_and]
  rw [if_pos]
  rw [decide_eq_true_eq]
  exact hc

/-- The state of a top-anchored buffer after its only line has expired in a tick. -/
theorem expired_topDown_state (e dt : Nat) (line : String) (c : Color) (id : Nat)
    (d0 : ChatMessageDisplayer) (htd : d0.mTopDown = true) (he : 0 < e) (hdt : e ≤ dt) :
    ((insertLine e line c id d0.reset).idle dt false).mFirst = 1 ∧
    ((insertLine e line c id d0.reset).idle dt false).mDisplayMode = d0.mDisplayMode ∧
    ((insertLine e line c id d0.reset).idle dt false).mTopDown = true ∧
    (∀ j, (((insertLine e line c id d0.reset).idle dt false).mMessages j).messageHasExpired
      = true) ∧
    ((insertLine e line c id d0.reset).idle dt false).mChatScrollTimer.mCurrentCounter =
      d0.mChatScrollTimer.mPeriod ∧
    ((insertLine e line c id d0.reset).idle dt false).mChatScrollTimer.mPeriod =
      d0.mChatScrollTimer.mPeriod := by
  obtain ⟨f1, f2, _, f4, f5, f6, f7, f8, f9, f10⟩ := firstLine_state e line c id d0
  unfold slotAt at f7 f8 f9
  rw [htd] at f9
  have hslots : ∀ j, (((insertLine e line c id d0.reset).idle dt false).mMessages j).messageHasExpired
      = true := by
    intro j
    rw [idle_mMessages]
    by_cases hj : j = slotIndex 1
    · subst hj
      rw [slot_expired_iff, slot_idle_timer, slot_idle_fade, f7, f8, f9]
      refine ⟨by omega, ?_⟩
      rw [if_pos ⟨by omega, hdt⟩]
      rfl
    · rw [slot_idle_quiet _ dt (f10 j hj)]
      exact f10 j hj
  have hsingle := idle_single (insertLine e line c id d0.reset) dt false (slotIndex 1)
    (fun j hj => slot_idle_quiet _ dt (f10 j hj))
  have hscroll : ((insertLine e line c id d0.reset).idle dt false).mChatScrollTimer =
      ((insertLine e line c id d0.reset).mChatScrollTimer.update dt).1.reset := by
    rw [hsingle]
    apply idleSlot_scroll_restart
    · exact slot_idle_reports_nofade _ dt (by rw [f7]; omega) (by rw [f7]; exact hdt) f9
    · rw [← htd]; exact f4
    · show ((insertLine e line c id d0.reset).mFirst + U32_MOD -
        (((insertLine e line c id d0.reset).mLast + 1) % U32_MOD) % U32_MOD) % U32_MOD ≤ _
      rw [f1, f2]
      exact Nat.zero_le _
  refine ⟨by rw [idle_mFirst, f1], by rw [idle_mDisplayMode, f5], by rw [idle_mTopDown, f4, htd],
    hslots, ?_, ?_⟩
  · rw [hscroll, f6]
    simp [Timer.reset, timer_update_mPeriod]
  · rw [hscroll, f6]
    simp [Timer.reset, timer_update_mPeriod]

/-- C14, as amended: for a top-anchored buffer (fade disabled) in `ShortTimeout` mode,
starting from reset, after one line is inserted and `tick(timeDelta, false)` is applied
with `timeDelta` at least the (positive) expiry duration, the tick has restarted the
scroll animator and the very next `visibleCount(0, false)` returns 1 when the scroll
period is positive (the expired line is counted while it scrolls off) and 0 only when
the scroll period is 0; after one more tick of at least the scroll period it returns
0. -/
theorem C14_expiry_top_anchored (e dt dt2 : Nat) (line : String) (c : Color) (id : Nat)
    (d0 : ChatMessageDisplayer) (htd : d0.mTopDown = true)
    (hmode : d0.mDisplayMode = .ShortTimeout) (he : 0 < e) (hdt : e ≤ dt)
    (hdt2 : d0.mChatScrollTimer.mPeriod ≤ dt2) :
    ((insertLine e line c id d0.reset).idle dt false).getCountOfMessagesToDisplay 0 false =
      (if 0 < d0.mChatScrollTimer.mPeriod then 1 else 0) ∧
    (((insertLine e line c id d0.reset).idle dt false).idle dt2
      false).getCountOfMessagesToDisplay 0 false = 0 := by
  obtain ⟨g1, g2, g3, g4, g5, _⟩ := expired_topDown_state e dt line c id d0 htd he hdt
  generalize (insertLine e line c id d0.reset).idle dt false = x at g1 g2 g3 g4 g5 ⊢
  have hx : (x.slotAt 1).messageHasExpired = true := g4 (slotIndex 1)
  constructor
  · rw [visible_head_one x 0 (le_refl 0) g1 (by rw [g2, hmode]), hx]
    unfold messagesBeingScrolledOff isScrolling Timer.getCurrent
    rw [g5, g3]
    by_cases hp : 0 < d0.mChatScrollTimer.mPeriod
    · simp [hp]
    · simp [hp]
  · rw [idle_quiet x dt2 false (fun j => slot_idle_quiet _ dt2 (g4 j))]
    have hs : ChatMessageDisplayer.isScrolling
        { x with mChatScrollTimer := (x.mChatScrollTimer.update dt2).1 } = false := by
      unfold isScrolling Timer.getCurrent
      simp only [timer_update_current, g5]
      simp
      omega
    have key : ∀ y : ChatMessageDisplayer, y.mFirst = 1 → y.mDisplayMode = .ShortTimeout →
        (y.slotAt 1).messageHasExpired = true → y.isScrolling = false →
        y.getCountOfMessagesToDisplay 0 false = 0 := by
      intro y a b c d
      rw [visible_head_one y 0 (le_refl 0) a b]
      exact if_pos ⟨c, Or.inl d⟩
    exact key _ g1 (g2.trans hmode) hx hs

/-- C14, witness: a top-anchored displayer with scroll period 100 ms whose only line
expires in a tick of 7000 ms, followed by a tick of 100 ms. -/
theorem C14_expiry_top_anchored_witness :
    freshTopDown.mTopDown = true ∧ freshTopDown.mDisplayMode = .ShortTimeout ∧
    (0 : Nat) < 7000 ∧ (7000 : Nat) ≤ 7000 ∧ freshTopDown.mChatScrollTimer.mPeriod ≤ 100 ∧
    ((insertLine 7000 "a" ⟨255, 255, 255⟩ 0 freshTopDown.reset).idle 7000
        false).getCountOfMessagesToDisplay 0 false =
      (if 0 < freshTopDown.mChatScrollTimer.mPeriod then 1 else 0) ∧
    (((insertLine 7000 "a" ⟨255, 255, 255⟩ 0 freshTopDown.reset).idle 7000 false).idle 100
      false).getCountOfMessagesToDisplay 0 false = 0 :=
  ⟨by decide, by decide, by decide, by decide, by decide,
    C14_expiry_top_anchored 7000 7000 100 "a" ⟨255, 255, 255⟩ 0 freshTopDown (by decide)
      (by decide) (by decide) (by decide) (by decide)⟩

/-- C14, counterexample: a top-anchored displayer in `ShortTimeout` mode with short
count 5 is reset, receives one line and is ticked by the expiry duration; the very next
`visibleCount(0, false)` is 1, not 0, because the tick restarted the scroll animator. -/
theorem C14_counterexample :
    freshTopDown.mTopDown = true ∧ freshTopDown.mDisplayMode = .ShortTimeout ∧
    freshTopDown.mMessagesToShowInShortMode = 5 ∧
    ((insertLine 7000 "a" ⟨255, 255, 255⟩ 0 freshTopDown.reset).idle 7000 false).isScrolling
      = true ∧
    ((insertLine 7000 "a" ⟨255, 255, 255⟩ 0 freshTopDown.reset).idle 7000
      false).getCountOfMessagesToDisplay 0 false = 1 := by
  decide

/-! ## A bottom-anchored buffer whose only line fades out -/

theorem onChatMessageReceived_frame (e : Nat) (c : Color) (lines : List String)
    (d : ChatMessageDisplayer) :
    (onChatMessageReceived e c lines d).mFirst = (insertLines e c d.mNextGroupId lines d).mFirst ∧
    (onChatMessageReceived e c lines d).mLast = (insertLines e c d.mNextGroupId lines d).mLast ∧
    (onChatMessageReceived e c lines d).mFull = (insertLines e c d.mNextGroupId lines d).mFull ∧
    (onChatMessageReceived e c lines d).mMessages =
      (insertLines e c d.mNextGroupId lines d).mMessages ∧
    (onChatMessageReceived e c lines d).mDisplayMode =
      (insertLines e c d.mNextGroupId lines d).mDisplayMode ∧
    (onChatMessageReceived e c lines d).mTopDown =
      (insertLines e c d.mNextGroupId lines d).mTopDown := by
  unfold onChatMessageReceived
  simp only
  split <;> exact ⟨rfl, rfl, rfl, rfl, rfl, rfl⟩

theorem singleFading_tick (d : ChatMessageDisplayer) (r t : Nat) (cm : Bool)
    (h : SingleFading d r) : SingleFading (d.idle t cm) (r - t) := by
  obtain ⟨h1, h2, h3, h4, h5, h6⟩ := h
  unfold slotAt at h5 h6
  refine ⟨by rw [idle_mFirst, h1], by rw [idle_mDisplayMode, h2], by rw [idle_mTopDown, h3],
    by rw [idle_mFull, h4], ?_, ?_⟩
  · unfold slotAt
    rw [idle_mMessages, slot_idle_timer, h5]
    exact Nat.zero_sub t
  · unfold slotAt
    rw [idle_mMessages, slot_idle_fade, h5, h6]
    simp

theorem singleFading_idleMany (ts : List Nat) (d : ChatMessageDisplayer) (r : Nat)
    (h : SingleFading d r) : SingleFading (idleMany ts d) (r - ts.sum) := by
  induction ts generalizing d r with
  | nil => simpa [idleMany] using h
  | cons t ts ih =>
    have := ih (d.idle t false) (r - t) (singleFading_tick d r t false h)
    simp only [idleMany, List.sum_cons]
    rw [Nat.sub_add_eq]
    exact this

theorem singleFading_visible (d : ChatMessageDisplayer) (r : Nat) (h : SingleFading d r) :
    d.getCountOfMessagesToDisplay 0 false = if r = 0 then 0 else 1 := by
  obtain ⟨h1, h2, h3, h4, h5, h6⟩ := h
  have hoff : d.messagesBeingScrolledOff = 0 := by
    unfold messagesBeingScrolledOff
    simp [h3, h4]
  have hiff : ((d.slotAt 1).messageHasExpired = true ∧
      (d.isScrolling = false ∨ d.messagesBeingScrolledOff = 0)) ↔ r = 0 := by
    rw [slot_expired_iff, h5, h6]
    simp [hoff]
  rw [visible_head_one d 0 (le_refl 0) h1 h2]
  by_cases hr : r = 0
  · rw [if_pos (hiff.mpr hr), if_pos hr]
  · rw [if_neg (fun hc => hr (hiff.mp hc)), if_neg hr]

theorem singleFading_start (e dt : Nat) (line : String) (c : Color)
    (d0 : ChatMessageDisplayer) (hbu : d0.mTopDown = false)
    (hmode : d0.mDisplayMode = .ShortTimeout) (he : 0 < e) (hdt : e ≤ dt) :
    SingleFading ((onChatMessageReceived e c [line] d0.reset).idle dt false) FADE_TIME := by
  obtain ⟨f1, _, f3, f4, f5, _, f7, f8, f9, _⟩ :=
    firstLine_state e line c d0.reset.mNextGroupId d0
  obtain ⟨o1, _, o3, o4, o5, o6⟩ := onChatMessageReceived_frame e c [line] d0.reset
  simp only [insertLines] at o1 o3 o4 o5 o6
  unfold slotAt at f7 f8 f9
  rw [hbu] at f9
  refine ⟨by rw [idle_mFirst, o1, f1], by rw [idle_mDisplayMode, o5, f5, hmode],
    by rw [idle_mTopDown, o6, f4, hbu], by rw [idle_mFull, o3, f3], ?_, ?_⟩
  · unfold slotAt
    rw [idle_mMessages, o4, slot_idle_timer, f7]
    omega
  · unfold slotAt
    rw [idle_mMessages, o4, slot_idle_fade, f7, f9]
    rw [if_pos ⟨by omega, hdt⟩]
    rfl

/-- C15: for a bottom-anchored buffer (fade enabled) in `ShortTimeout` mode, starting
from reset, after one one-line message is received and a tick with `timeDelta` at least
the (positive) expiry duration, the slot is fading (expiry timer 0, fade timer
`FADE_TIME = 100`) and `visibleCount(0, false) = 1`; it stays 1 after further ticks whose
deltas sum to less than `FADE_TIME`, and becomes 0 after the tick in which the fade timer
reaches 0. -/
theorem C15_fade_phase_bottom_anchored (e dt : Nat) (line : String) (c : Color)
    (d0 : ChatMessageDisplayer) (ts : List Nat) (tLast : Nat)
    (hbu : d0.mTopDown = false) (hmode : d0.mDisplayMode = .ShortTimeout)
    (he : 0 < e) (hdt : e ≤ dt) (hsum : ts.sum < FADE_TIME)
    (hlast : FADE_TIME ≤ ts.sum + tLast) :
    (((onChatMessageReceived e c [line] d0.reset).idle dt false).slotAt 1).timer.getCurrent
      = 0 ∧
    (((onChatMessageReceived e c [line] d0.reset).idle dt false).slotAt 1).fadeTimer.getCurrent
      = FADE_TIME ∧
    ((onChatMessageReceived e c [line] d0.reset).idle dt false).getCountOfMessagesToDisplay
      0 false = 1 ∧
    (idleMany ts ((onChatMessageReceived e c [line] d0.reset).idle dt
      false)).getCountOfMessagesToDisplay 0 false = 1 ∧
    ((idleMany ts ((onChatMessageReceived e c [line] d0.reset).idle dt false)).idle tLast
      false).getCountOfMessagesToDisplay 0 false = 0 := by
  have h0 := singleFading_start e dt line c d0 hbu hmode he hdt
  have h1 := singleFading_idleMany ts _ _ h0
  have h2 := singleFading_tick _ _ tLast false h1
  refine ⟨h0.2.2.2.2.1, h0.2.2.2.2.2, ?_, ?_, ?_⟩
  · rw [singleFading_visible _ _ h0]; rfl
  · rw [singleFading_visible _ _ h1, if_neg (by simp only [FADE_TIME] at hsum ⊢; omega)]
  · rw [singleFading_visible _ _ h2, if_pos (by simp only [FADE_TIME] at hlast ⊢; omega)]

/-- C15, witness: a bottom-anchored displayer receives one line, is ticked by 7000 ms,
then by 30 ms and 60 ms (the line is still fading), and finally by 10 ms. -/
theorem C15_fade_phase_bottom_anchored_witness :
    freshBottomUp.mTopDown = false ∧ freshBottomUp.mDisplayMode = .ShortTimeout ∧
    (0 : Nat) < 7000 ∧ (7000 : Nat) ≤ 7000 ∧ [30, 60].sum < FADE_TIME ∧
    FADE_TIME ≤ [30, 60].sum + 10 ∧
    ((((onChatMessageReceived 7000 ⟨255, 255, 255⟩ ["hi"] freshBottomUp.reset).idle 7000
        false).slotAt 1).timer.getCurrent = 0 ∧
      (((onChatMessageReceived 7000 ⟨255, 255, 255⟩ ["hi"] freshBottomUp.reset).idle 7000
        false).slotAt 1).fadeTimer.getCurrent = FADE_TIME ∧
      ((onChatMessageReceived 7000 ⟨255, 255, 255⟩ ["hi"] freshBottomUp.reset).idle 7000
        false).getCountOfMessagesToDisplay 0 false = 1 ∧
      (idleMany [30, 60] ((onChatMessageReceived 7000 ⟨255, 255, 255⟩ ["hi"]
        freshBottomUp.reset).idle 7000 false)).getCountOfMessagesToDisplay 0 false = 1 ∧
      ((idleMany [30, 60] ((onChatMessageReceived 7000 ⟨255, 255, 255⟩ ["hi"]
        freshBottomUp.reset).idle 7000 false)).idle 10
          false).getCountOfMessagesToDisplay 0 false = 0) :=
  ⟨by decide, by decide, by decide, by decide, by decide, by decide,
    C15_fade_phase_bottom_anchored 7000 7000 "hi" ⟨255, 255, 255⟩ freshBottomUp [30, 60] 10
      (by decide) (by decide) (by decide) (by decide) (by decide) (by decide)⟩

/-- C18, as amended: `numberToShow(composing)` equals `MAX_MESSAGES` (= C - 1 = 24) when
`composing` is true; otherwise it equals the configured short count, returned as a
`U32` (a non-negative count unchanged), in `ShortTimeout` and `ShortFixed` modes and
`MAX_MESSAGES` in `LongFixed` mode.  It returns `C` only when not composing, in one of
the two short modes, with a configured short count equal to `C`. -/
theorem C18_number_to_show (d : ChatMessageDisplayer) :
    d.getNumberOfMessagesToShow true = MAX_MESSAGES ∧
    (d.mDisplayMode = .ShortTimeout ∨ d.mDisplayMode = .ShortFixed →
      d.getNumberOfMessagesToShow false = toU32 d.mMessagesToShowInShortMode ∧
      (0 ≤ d.mMessagesToShowInShortMode → d.mMessagesToShowInShortMode ≤ 2147483647 →
        d.getNumberOfMessagesToShow false = d.mMessagesToShowInShortMode.toNat)) ∧
    (d.mDisplayMode = .LongFixed → d.getNumberOfMessagesToShow false = MAX_MESSAGES) ∧
    (∀ c : Bool, d.getNumberOfMessagesToShow c = MSG_SLOTS →
      c = false ∧ (d.mDisplayMode = .ShortTimeout ∨ d.mDisplayMode = .ShortFixed) ∧
      toU32 d.mMessagesToShowInShortMode = MSG_SLOTS) := by
  refine ⟨rfl, ?_, ?_, ?_⟩
  · intro hm
    have h1 : d.getNumberOfMessagesToShow false = toU32 d.mMessagesToShowInShortMode := by
      unfold getNumberOfMessagesToShow
      rw [if_neg (by decide), if_pos hm]
    exact ⟨h1, fun h0 h32 => h1.trans (toU32_of_s32 _ h0 h32)⟩
  · intro hm
    unfold getNumberOfMessagesToShow
    rw [if_neg (by decide), if_neg (by rw [hm]; decide)]
  · intro c hc
    unfold getNumberOfMessagesToShow at hc
    cases c
    · rw [if_neg (by decide)] at hc
      by_cases hm : d.mDisplayMode = .ShortTimeout ∨ d.mDisplayMode = .ShortFixed
      · rw [if_pos hm] at hc
        exact ⟨rfl, hm, hc⟩
      · rw [if_neg hm] at hc
        exact absurd hc (by decide)
    · rw [if_pos rfl] at hc
      exact absurd hc (by decide)

/-- C18, counterexample: a displayer constructed with short count 25 returns
`numberToShow(false) = 25 = C` in its initial `ShortTimeout` mode; and one constructed
with the negative short count -1 returns `2^32 - 1`. -/
theorem C18_counterexample :
    (shortCountTwentyFive.mDisplayMode = .ShortTimeout ∧
      shortCountTwentyFive.getNumberOfMessagesToShow false = 25 ∧ MSG_SLOTS = 25) ∧
    (shortCountNegative.mMessagesToShowInShortMode = -1 ∧
      shortCountNegative.getNumberOfMessagesToShow false = 4294967295) := by
  decide

/-! ## The loop of `substitueVars` -/

theorem strReplace_length (s : List Char) (pos len : Nat) (val : List Char)
    (h : pos + len ≤ s.length) :
    (strReplace s pos len val).length = s.length + val.length - len := by
  unfold strReplace
  simp only [List.length_append, List.length_take, List.length_drop]
  omega

theorem strSubstr_length (s : List Char) (pos len : Nat) (h : pos + len ≤ s.length) :
    (strSubstr s pos len).length = len := by
  unfold strSubstr
  simp only [List.length_take, List.length_drop]
  omega

/-- The loop of `substitueVars` ends within `s.length - i` iterations. -/
theorem substLoop_isSome (game : ClientGame) (fuel : Nat) (s : List Char) (i : Nat)
    (inside : Bool) (startPos : Nat) (hfuel : s.length ≤ i + fuel)
    (hin : inside = true → 1 ≤ startPos ∧ startPos ≤ i) :
    (substLoop game fuel s i inside startPos).isSome = true := by
  induction fuel generalizing s i inside startPos with
  | zero =>
    unfold substLoop
    rw [if_neg (by omega)]
    rfl
  | succ fuel ih =>
    unfold substLoop
    by_cases hi : i < s.length
    · rw [if_pos hi]
      by_cases hp : s[i]? = some '%'
      · rw [if_pos hp]
        cases inside
        · simp only [Bool.not_false, if_true]
          exact ih s (i + 1) true (i + 1) (by omega) (fun _ => ⟨by omega, le_refl _⟩)
        · simp only [Bool.not_true, Bool.false_eq_true, if_false]
          obtain ⟨h1, h2⟩ := hin rfl
          apply ih
          · have hv : (strSubstr s startPos (i - startPos)).length = i - startPos :=
              strSubstr_length s _ _ (by omega)
            rw [strReplace_length s _ _ _ (by omega), hv]
            omega
          · intro hc
            exact absurd hc (by decide)
      · rw [if_neg hp]
        exact ih s (i + 1) inside startPos (by omega)
          (fun hc => ⟨(hin hc).1, by have := (hin hc).2; omega⟩)
    · rw [if_neg hi]
      rfl

theorem substitueVars_isSome (game : ClientGame) (str : List Char) :
    (substitueVars game str).isSome = true :=
  substLoop_isSome game _ str 0 false 0 (by omega) (fun hc => absurd hc (by decide))

theorem strSubstr_append_left (p r : List Char) (pos len : Nat) :
    strSubstr (p ++ r) (p.length + pos) len = strSubstr r pos len := by
  unfold strSubstr
  rw [List.drop_append]

theorem strReplace_append_left (p r : List Char) (pos len : Nat) (val : List Char) :
    strReplace (p ++ r) (p.length + pos) len val = p ++ strReplace r pos len val := by
  unfold strReplace
  rw [List.take_append, Nat.add_assoc, List.drop_append]
  simp only [List.append_assoc]

/-- The loop does not look back: run behind a prefix `p` that it has left, it does to
the rest of the string what it does to that rest alone. -/
theorem substLoop_shift (game : ClientGame) (p : List Char) (fuel : Nat) (r : List Char)
    (j : Nat) (inside : Bool) (sp1 sp2 : Nat)
    (hin : inside = true → sp1 = p.length + sp2 ∧ 1 ≤ sp2 ∧ sp2 ≤ j) :
    substLoop game fuel (p ++ r) (p.length + j) inside sp1 =
      (substLoop game fuel r j inside sp2).map (fun x => p ++ x) := by
  induction fuel generalizing r j inside sp1 sp2 with
  | zero =>
    unfold substLoop
    by_cases hj : j < r.length
    · rw [if_pos (by rw [List.length_append]; omega), if_pos hj]
      rfl
    · rw [if_neg (by rw [List.length_append]; omega), if_neg hj]
      rfl
  | succ fuel ih =>
    unfold substLoop
    have hget : (p ++ r)[p.length + j]? = r[j]? := by
      rw [List.getElem?_append_right (by omega)]
      congr 1
      omega
    by_cases hj : j < r.length
    · rw [if_pos (by rw [List.length_append]; omega), if_pos hj, hget]
      by_cases hp : r[j]? = some '%'
      · rw [if_pos hp, if_pos hp]
        cases inside
        · simp only [Bool.not_false, if_true]
          rw [Nat.add_assoc]
          exact ih r (j + 1) true (p.length + (j + 1)) (j + 1)
            (fun _ => ⟨rfl, by omega, le_refl _⟩)
        · simp only [Bool.not_true, Bool.false_eq_true, if_false]
          obtain ⟨h1, h2, h3⟩ := hin rfl
          subst h1
          have he : p.length + j - (p.length + sp2) = j - sp2 := by omega
          have hs : p.length + sp2 - 1 = p.length + (sp2 - 1) := by omega
          rw [he, strSubstr_append_left, hs, strReplace_append_left]
          have hv : (strSubstr r sp2 (j - sp2)).length = j - sp2 :=
            strSubstr_length r _ _ (by omega)
          have hi : (((p.length + j : Nat) : Int) +
              ((getSubstVarVal game (strSubstr r sp2 (j - sp2))).length : Int) -
              ((strSubstr r sp2 (j - sp2)).length : Int) - 2 + 1).toNat =
              p.length + (((j : Nat) : Int) +
                ((getSubstVarVal game (strSubstr r sp2 (j - sp2))).length : Int) -
                ((strSubstr r sp2 (j - sp2)).length : Int) - 2 + 1).toNat := by
            rw [hv]
            omega
          rw [hi]
          exact ih _ _ false _ _ (fun hc => absurd hc (by decide))
      · rw [if_neg hp, if_neg hp, Nat.add_assoc]
        exact ih r (j + 1) inside sp1 sp2
          (fun hc => ⟨(hin hc).1, (hin hc).2.1, by have := (hin hc).2.2; omega⟩)
    · rw [if_neg (by rw [List.length_append]; omega), if_neg hj]
      rfl

/-- The loop walks over a stretch without `%` one character at a time. -/
theorem substLoop_skip (game : ClientGame) (a : List Char) (ha : '%' ∉ a) (fuel : Nat)
    (p r : List Char) (inside : Bool) (sp : Nat) :
    substLoop game (fuel + a.length) (p ++ a ++ r) p.length inside sp =
      substLoop game fuel (p ++ a ++ r) (p.length + a.length) inside sp := by
  induction a generalizing p with
  | nil => simp
  | cons x a ih =>
    have hx : x ≠ '%' := fun e => ha (e ▸ List.mem_cons_self _ _)
    have ha2 : '%' ∉ a := fun hm => ha (List.mem_cons_of_mem _ hm)
    have hlen : p.length < (p ++ x :: a ++ r).length := by
      simp only [List.length_append, List.length_cons]; omega
    have hget : (p ++ x :: a ++ r)[p.length]? = some x := by
      rw [List.append_assoc, List.getElem?_append_right (le_refl _)]
      simp
    have hne : ¬ ((p ++ x :: a ++ r)[p.length]? = some '%') := by
      rw [hget]
      intro hc
      exact hx (Option.some.inj hc)
    have hfuel : fuel + (x :: a).length = (fuel + a.length) + 1 := by
      simp only [List.length_cons]; omega
    rw [hfuel]
    conv_lhs => unfold substLoop
    rw [if_pos hlen, if_neg hne]
    have hsplit : p ++ x :: a ++ r = (p ++ [x]) ++ a ++ r := by simp
    have hl1 : p.length + 1 = (p ++ [x]).length := by simp
    have hl2 : p.length + (x :: a).length = (p ++ [x]).length + a.length := by
      simp only [List.length_cons, List.length_append, List.length_nil]; omega
    rw [hsplit, hl1, hl2]
    exact ih ha2 (p ++ [x])

/-- One token: the loop run on `pre ++ "%" ++ var ++ "%" ++ rest`, with no `%` in `pre`
and `var`, replaces the token and goes on behind the inserted text. -/
theorem substLoop_token (game : ClientGame) (pre var rest : List Char)
    (hpre : '%' ∉ pre) (hvar : '%' ∉ var) :
    substLoop game (rest.length + 1 + var.length + 1 + pre.length)
        (pre ++ '%' :: (var ++ '%' :: rest)) 0 false 0 =
      (substLoop game rest.length rest 0 false 0).map
        (fun x => pre ++ getSubstVarVal game var ++ x) := by
  -- walk over `pre`
  have e1 := substLoop_skip game pre hpre (rest.length + 1 + var.length + 1) []
    ('%' :: (var ++ '%' :: rest)) false 0
  simp only [List.nil_append, List.length_nil, Nat.zero_add] at e1
  rw [e1]
  -- the opening `%`
  have hlen1 : pre.length < (pre ++ '%' :: (var ++ '%' :: rest)).length := by
    simp only [List.length_append, List.length_cons]; omega
  have hget1 : (pre ++ '%' :: (var ++ '%' :: rest))[pre.length]? = some '%' := by
    rw [List.getElem?_append_right (le_refl _)]
    simp
  conv_lhs => unfold substLoop
  rw [if_pos hlen1, if_pos hget1]
  simp only [Bool.not_false, if_true]
  -- walk over `var`
  have hs2 : pre ++ '%' :: (var ++ '%' :: rest) = (pre ++ ['%']) ++ var ++ ('%' :: rest) := by
    simp
  have e2 := substLoop_skip game var hvar (rest.length + 1) (pre ++ ['%']) ('%' :: rest)
    true (pre.length + 1)
  rw [← hs2] at e2
  simp only [List.length_append, List.length_singleton] at e2
  rw [e2]
  -- the closing `%`
  have hlen2 : pre.length + 1 + var.length < (pre ++ '%' :: (var ++ '%' :: rest)).length := by
    simp only [List.length_append, List.length_cons]; omega
  have hget2 : (pre ++ '%' :: (var ++ '%' :: rest))[pre.length + 1 + var.length]? =
      some '%' := by
    have hq : pre.length + 1 + var.length = (pre ++ ['%'] ++ var).length := by
      simp only [List.length_append, List.length_singleton]
    rw [hs2, hq, List.getElem?_append_right (le_refl _)]
    simp
  conv_lhs => unfold substLoop
  rw [if_pos hlen2, if_pos hget2]
  simp only [Bool.not_true, Bool.false_eq_true, if_false]
  have hend : pre.length + 1 + var.length - (pre.length + 1) = var.length := by omega
  have hsub : strSubstr (pre ++ '%' :: (var ++ '%' :: rest)) (pre.length + 1) var.length
      = var := by
    unfold strSubstr
    have : pre ++ '%' :: (var ++ '%' :: rest) = (pre ++ ['%']) ++ (var ++ '%' :: rest) := by
      simp
    rw [this, show pre.length + 1 = (pre ++ ['%']).length by simp, List.drop_left]
    simp
  have hrep : strReplace (pre ++ '%' :: (var ++ '%' :: rest)) (pre.length + 1 - 1)
      (var.length + 2) (getSubstVarVal game var) = pre ++ getSubstVarVal game var ++ rest := by
    unfold strReplace
    have h1 : pre.length + 1 - 1 = pre.length := by omega
    have h2 : pre ++ '%' :: (var ++ '%' :: rest) =
        (pre ++ ('%' :: var ++ ['%'])) ++ rest := by simp
    rw [h1, List.take_left]
    have h3 : pre.length + (var.length + 2) = (pre ++ ('%' :: var ++ ['%'])).length := by
      simp only [List.length_append, List.length_cons, List.length_nil]
    rw [h3, h2, List.drop_left]
  have hidx : (((pre.length + 1 + var.length : Nat) : Int) +
      ((getSubstVarVal game var).length : Int) - (var.length : Int) - 2 + 1).toNat =
      (pre ++ getSubstVarVal game var).length + 0 := by
    simp only [List.length_append]
    omega
  rw [hend, hsub, hrep, hidx]
  -- the rest of the string, behind the inserted text
  exact substLoop_shift game (pre ++ getSubstVarVal game var) rest.length rest 0 false _ 0
    (fun hc => absurd hc (by decide))

/-- C19: for every resolver, every `pre` and `var` containing no `%` and every string
`rest`, `substitute(pre ++ "%" ++ var ++ "%" ++ rest)` returns
`pre ++ value(var) ++ substitute(rest)`, where `value(var)` is what `getSubstVarVal`
returns for the token: the resolved text on a hit and `"%" ++ var ++ "%"` on a miss.  The
inserted text is not scanned again, whatever it contains, also when it is empty or the
token stands at position 0. -/
theorem C19_substitution_left_to_right (game : ClientGame) (pre var rest : List Char)
    (hpre : '%' ∉ pre) (hvar : '%' ∉ var) :
    (∃ r : List Char, substitueVars game rest = some r ∧
      substitueVars game (pre ++ ['%'] ++ var ++ ['%'] ++ rest) =
        some (pre ++ getSubstVarVal game var ++ r)) ∧
    (game.getKeyBoundToBindingCodeName var = none →
      caseInsensitiveStringCompare var "playerName".toList = false →
      getSubstVarVal game var = ['%'] ++ var ++ ['%']) := by
  constructor
  · have hsome := substitueVars_isSome game rest
    obtain ⟨r, hr⟩ := Option.isSome_iff_exists.mp hsome
    refine ⟨r, hr, ?_⟩
    have hs : pre ++ ['%'] ++ var ++ ['%'] ++ rest = pre ++ '%' :: (var ++ '%' :: rest) := by
      simp
    have hl : (pre ++ '%' :: (var ++ '%' :: rest)).length =
        rest.length + 1 + var.length + 1 + pre.length := by
      simp only [List.length_append, List.length_cons]; omega
    unfold substitueVars at hr ⊢
    rw [hs, hl, substLoop_token game pre var rest hpre hvar, hr]
    rfl
  · intro h1 h2
    unfold getSubstVarVal
    rw [h1]
    simp only [h2, Bool.false_eq_true, if_false]

/-- C19, witness: with a player called `%playerName%`, the token of
`Hi %PlayerName%, %playerName%!` is replaced twice and the inserted text is left
alone. -/
theorem C19_substitution_left_to_right_witness :
    '%' ∉ "Hi ".toList ∧ '%' ∉ "PlayerName".toList ∧
    ((∃ r : List Char, substitueVars echoGame ", %playerName%!".toList = some r ∧
        substitueVars echoGame
            ("Hi ".toList ++ ['%'] ++ "PlayerName".toList ++ ['%'] ++ ", %playerName%!".toList) =
          some ("Hi ".toList ++ getSubstVarVal echoGame "PlayerName".toList ++ r)) ∧
      (echoGame.getKeyBoundToBindingCodeName "PlayerName".toList = none →
        caseInsensitiveStringCompare "PlayerName".toList "playerName".toList = false →
        getSubstVarVal echoGame "PlayerName".toList =
          ['%'] ++ "PlayerName".toList ++ ['%'])) ∧
    substitueVars echoGame "Hi %PlayerName%, %playerName%!".toList =
      some "Hi %playerName%, %playerName%!".toList :=
  ⟨by decide, by decide,
    C19_substitution_left_to_right echoGame "Hi ".toList "PlayerName".toList
      ", %playerName%!".toList (by decide) (by decide),
    by decide⟩

theorem drop_of_getElem? (s : List Char) (i : Nat) (c : Char) (h : s[i]? = some c) :
    s.drop i = c :: s.drop (i + 1) := by
  obtain ⟨hlt, hc⟩ := List.getElem?_eq_some.mp h
  rw [List.drop_eq_getElem_cons hlt, hc]

theorem strReplace_same (s : List Char) (sp i : Nat) (h1 : 1 ≤ sp) (h2 : sp ≤ i)
    (ha : s[sp - 1]? = some '%') (hb : s[i]? = some '%') :
    strReplace s (sp - 1) (i - sp + 2) (['%'] ++ strSubstr s sp (i - sp) ++ ['%']) = s := by
  have d1 : s.drop (sp - 1) = '%' :: s.drop sp := by
    have := drop_of_getElem? s (sp - 1) '%' ha
    rwa [show sp - 1 + 1 = sp by omega] at this
  have d2 : s.drop i = '%' :: s.drop (i + 1) := drop_of_getElem? s i '%' hb
  have d3 : s.drop sp = (s.drop sp).take (i - sp) ++ '%' :: s.drop (i + 1) := by
    have := (List.take_append_drop (i - sp) (s.drop sp)).symm
    rwa [List.drop_drop, show sp + (i - sp) = i by omega, d2] at this
  have hs : s = s.take (sp - 1) ++ '%' :: ((s.drop sp).take (i - sp) ++ '%' :: s.drop (i + 1)) := by
    have := (List.take_append_drop (sp - 1) s).symm
    rwa [d1, d3] at this
  unfold strReplace strSubstr
  rw [show sp - 1 + (i - sp + 2) = i + 1 by omega]
  conv_rhs => rw [hs]
  simp

theorem strSubstr_succ (s : List Char) (sp n : Nat) (c : Char) (h : s[sp + n]? = some c) :
    strSubstr s sp (n + 1) = strSubstr s sp n ++ [c] := by
  unfold strSubstr
  rw [List.take_succ, List.getElem?_drop, h]
  rfl

/-- While every token met is a miss, the loop leaves the string as it is. -/
theorem substLoop_miss (game : ClientGame) (s : List Char) (fuel i : Nat) (inside : Bool)
    (sp : Nat) (acc : List Char)
    (hin : inside = true → 1 ≤ sp ∧ sp ≤ i ∧ s[sp - 1]? = some '%' ∧
      acc.reverse = strSubstr s sp (i - sp))
    (hmiss : ∀ v, v ∈ tokenScan (s.drop i) inside acc →
      getSubstVarVal game v = ['%'] ++ v ++ ['%'])
    (hfuel : s.length ≤ i + fuel) :
    substLoop game fuel s i inside sp = some s := by
  induction fuel generalizing i inside sp acc with
  | zero =>
    unfold substLoop
    rw [if_neg (by omega)]
  | succ fuel ih =>
    unfold substLoop
    by_cases hi : i < s.length
    · rw [if_pos hi]
      have hd : s.drop i = s[i] :: s.drop (i + 1) := List.drop_eq_getElem_cons hi
      have hgi : s[i]? = some s[i] := List.getElem?_eq_getElem hi
      by_cases hp : s[i]? = some '%'
      · rw [if_pos hp]
        have hc : s[i] = '%' := by
          rw [hgi] at hp
          exact Option.some.inj hp
        rw [hd, hc] at hmiss
        cases inside
        · simp only [Bool.not_false, if_true]
          simp only [tokenScan, if_true] at hmiss
          exact ih (i + 1) true (i + 1) []
            (fun _ => ⟨by omega, le_refl _, by simpa using hp, by simp [strSubstr]⟩)
            hmiss (by omega)
        · simp only [Bool.not_true, Bool.false_eq_true, if_false]
          obtain ⟨h1, h2, h3, h4⟩ := hin rfl
          simp only [tokenScan, if_true] at hmiss
          have hv := hmiss acc.reverse (List.mem_cons_self _ _)
          rw [h4] at hv
          have hlen : (strSubstr s sp (i - sp)).length = i - sp :=
            strSubstr_length s _ _ (by omega)
          have hidx : (((i : Nat) : Int) +
              ((['%'] ++ strSubstr s sp (i - sp) ++ ['%']).length : Int) -
              ((strSubstr s sp (i - sp)).length : Int) - 2 + 1).toNat = i + 1 := by
            simp only [List.length_append, List.length_singleton, hlen]
            omega
          rw [hv, strReplace_same s sp i h1 h2 h3 hp, hidx]
          exact ih (i + 1) false sp [] (fun hc2 => absurd hc2 (by decide))
            (fun v hv2 => hmiss v (List.mem_cons_of_mem _ hv2)) (by omega)
      · rw [if_neg hp]
        have hc : s[i] ≠ '%' := by
          intro e
          exact hp (by rw [hgi, e])
        rw [hd] at hmiss
        cases inside
        · simp only [tokenScan, hc, if_false] at hmiss
          exact ih (i + 1) false sp [] (fun hc2 => absurd hc2 (by decide)) hmiss (by omega)
        · simp only [tokenScan, hc, if_false] at hmiss
          obtain ⟨h1, h2, h3, h4⟩ := hin rfl
          refine ih (i + 1) true sp (s[i] :: acc) (fun _ => ⟨h1, by omega, h3, ?_⟩) hmiss
            (by omega)
          rw [List.reverse_cons, h4, show i + 1 - sp = (i - sp) + 1 by omega]
          exact (strSubstr_succ s sp (i - sp) s[i]
            (by rw [show sp + (i - sp) = i by omega]; exact hgi)).symm
    · rw [if_neg hi]

/-- C20: if the resolver misses on every token occurring in the input, `substitute`
returns the input string unchanged, for every input (any number of `%` characters,
including the empty token `%%`). -/
theorem C20_unknown_tokens_preserved (game : ClientGame) (s : List Char)
    (hmiss : ∀ v, v ∈ tokensOf s → getSubstVarVal game v = ['%'] ++ v ++ ['%']) :
    substitueVars game s = some s :=
  substLoop_miss game s s.length 0 false 0 [] (fun hc => absurd hc (by decide))
    (by simpa [tokensOf] using hmiss) (by omega)

/-- C20, witness: `substitute("%unknownVar%") = "%unknownVar%"`, for a resolver that
knows one key binding and the player name but not `unknownVar`. -/
theorem C20_unknown_tokens_preserved_witness :
    (∀ v, v ∈ tokensOf "%unknownVar%".toList →
      getSubstVarVal sampleGame v = ['%'] ++ v ++ ['%']) ∧
    substitueVars sampleGame "%unknownVar%".toList = some "%unknownVar%".toList :=
  ⟨by decide, C20_unknown_tokens_preserved sampleGame "%unknownVar%".toList (by decide)⟩

/-! ## Substitution, token by token -/

theorem substitueVars_nil (game : ClientGame) : substitueVars game [] = some [] := rfl

theorem substitueVars_plain_append (game : ClientGame) (a r : List Char) (ha : '%' ∉ a) :
    substitueVars game (a ++ r) = (substitueVars game r).map (fun x => a ++ x) := by
  unfold substitueVars
  have e1 := substLoop_skip game a ha r.length [] r false 0
  simp only [List.nil_append, List.length_nil, Nat.zero_add] at e1
  rw [List.length_append, Nat.add_comm a.length r.length, e1]
  exact substLoop_shift game a r.length r 0 false 0 0 (fun hc => absurd hc (by decide))

theorem substitueVars_plain (game : ClientGame) (a : List Char) (ha : '%' ∉ a) :
    substitueVars game a = some a := by
  have := substitueVars_plain_append game a [] ha
  simpa [substitueVars_nil] using this

theorem substitueVars_token (game : ClientGame) (pre var rest : List Char)
    (hpre : '%' ∉ pre) (hvar : '%' ∉ var) :
    substitueVars game (pre ++ '%' :: (var ++ '%' :: rest)) =
      (substitueVars game rest).map (fun x => pre ++ getSubstVarVal game var ++ x) := by
  have hl : (pre ++ '%' :: (var ++ '%' :: rest)).length =
      rest.length + 1 + var.length + 1 + pre.length := by
    simp only [List.length_append, List.length_cons]; omega
  unfold substitueVars
  rw [hl]
  exact substLoop_token game pre var rest hpre hvar

theorem substitueVars_open (game : ClientGame) (tail : List Char) (ht : '%' ∉ tail) :
    substitueVars game ('%' :: tail) = some ('%' :: tail) := by
  unfold substitueVars
  rw [List.length_cons]
  conv_lhs => unfold substLoop
  rw [if_pos (by simp), if_pos (by simp)]
  simp only [Bool.not_false, if_true]
  have e := substLoop_skip game tail ht 0 ['%'] [] true 1
  simp only [List.length_singleton, Nat.zero_add, List.append_nil, List.singleton_append] at e
  rw [e]
  unfold substLoop
  rw [if_neg (by simp only [List.length_cons]; omega)]

theorem split_at_percent (l : List Char) (h : '%' ∈ l) :
    ∃ pre rest, l = pre ++ '%' :: rest ∧ '%' ∉ pre := by
  induction l with
  | nil => exact absurd h (List.not_mem_nil _)
  | cons x l ih =>
    by_cases hx : x = '%'
    · exact ⟨[], l, by rw [hx]; rfl, List.not_mem_nil _⟩
    · have hl : '%' ∈ l := by
        rcases List.mem_cons.mp h with e | e
        · exact absurd e.symm hx
        · exact e
      obtain ⟨pre, rest, e1, e2⟩ := ih hl
      refine ⟨x :: pre, rest, by rw [e1]; rfl, ?_⟩
      intro hm
      rcases List.mem_cons.mp hm with e | e
      · exact hx e.symm
      · exact e2 e

theorem count_split (pre rest : List Char) (h : '%' ∉ pre) :
    (pre ++ '%' :: rest).count '%' = rest.count '%' + 1 := by
  rw [List.count_append, List.count_eq_zero_of_not_mem h, List.count_cons_self]
  omega

/-- A stretch with an even number of `%` is left with all its tokens closed, and what
follows it is handled as if it stood alone. -/
theorem substitueVars_even_append (game : ClientGame) (n : Nat) (front rest : List Char)
    (hn : front.count '%' = 2 * n) :
    ∃ f r, substitueVars game front = some f ∧ substitueVars game rest = some r ∧
      substitueVars game (front ++ rest) = some (f ++ r) := by
  induction n generalizing front with
  | zero =>
    have hnot : '%' ∉ front := List.count_eq_zero.mp (by omega)
    obtain ⟨r, hr⟩ := Option.isSome_iff_exists.mp (substitueVars_isSome game rest)
    refine ⟨front, r, substitueVars_plain game front hnot, hr, ?_⟩
    rw [substitueVars_plain_append game front rest hnot, hr]
    rfl
  | succ n ih =>
    have h1 : '%' ∈ front := List.count_pos_iff.mp (by omega)
    obtain ⟨pre, f1, e1, hpre⟩ := split_at_percent front h1
    have c1 : f1.count '%' = 2 * n + 1 := by
      have := count_split pre f1 hpre
      rw [← e1] at this
      omega
    have h2 : '%' ∈ f1 := List.count_pos_iff.mp (by omega)
    obtain ⟨var, f2, e2, hvar⟩ := split_at_percent f1 h2
    have c2 : f2.count '%' = 2 * n := by
      have := count_split var f2 hvar
      rw [← e2] at this
      omega
    obtain ⟨f, r, hf, hr, hfr⟩ := ih f2 c2
    refine ⟨pre ++ getSubstVarVal game var ++ f, r, ?_, hr, ?_⟩
    · rw [e1, e2, substitueVars_token game pre var f2 hpre hvar, hf]
      rfl
    · have hs : front ++ rest = pre ++ '%' :: (var ++ '%' :: (f2 ++ rest)) := by
        rw [e1, e2]; simp
      rw [hs, substitueVars_token game pre var (f2 ++ rest) hpre hvar, hfr]
      simp

/-- C21: for every resolver, when a string has an odd number of `%` characters (an even
number in `front`, then the last `%`, then a `tail` without `%`), everything from the
last `%` to the end of the string appears verbatim at the end of the output; in
particular, for `front` containing no `%`,
`substitute(front ++ "%" ++ tail) = front ++ "%" ++ tail`. -/
theorem C21_unterminated_token (game : ClientGame) (front tail : List Char)
    (hev : front.count '%' % 2 = 0) (ht : '%' ∉ tail) :
    (∃ out, substitueVars game front = some out ∧
      substitueVars game (front ++ ['%'] ++ tail) = some (out ++ ['%'] ++ tail)) ∧
    ('%' ∉ front →
      substitueVars game (front ++ ['%'] ++ tail) = some (front ++ ['%'] ++ tail)) := by
  have hn : front.count '%' = 2 * (front.count '%' / 2) := by omega
  obtain ⟨f, r, hf, hr, hfr⟩ :=
    substitueVars_even_append game _ front ('%' :: tail) hn
  rw [substitueVars_open game tail ht] at hr
  have hr2 : r = '%' :: tail := (Option.some.inj hr).symm
  subst hr2
  have hs : front ++ ['%'] ++ tail = front ++ '%' :: tail := by simp
  refine ⟨⟨f, hf, ?_⟩, ?_⟩
  · rw [hs, hfr]; simp
  · intro hnot
    rw [substitueVars_plain game front hnot] at hf
    have hf2 : f = front := (Option.some.inj hf).symm
    subst hf2
    rw [hs, hfr]

/-- C21, witness: `substitute("100% done") = "100% done"`. -/
theorem C21_unterminated_token_witness :
    "100".toList.count '%' % 2 = 0 ∧ '%' ∉ " done".toList ∧
    ((∃ out, substitueVars sampleGame "100".toList = some out ∧
        substitueVars sampleGame ("100".toList ++ ['%'] ++ " done".toList) =
          some (out ++ ['%'] ++ " done".toList)) ∧
      ('%' ∉ "100".toList →
        substitueVars sampleGame ("100".toList ++ ['%'] ++ " done".toList) =
          some ("100".toList ++ ['%'] ++ " done".toList))) ∧
    "100".toList ++ ['%'] ++ " done".toList = "100% done".toList :=
  ⟨by decide, by decide,
    C21_unterminated_token sampleGame "100".toList " done".toList (by decide) (by decide),
    by decide⟩

/-- C22: `getSubstVarVal` resolves a token in this order: if the keybinding lookup yields
a known input code, the value is `"[" ++ keyName ++ "]"` (also for a token spelled like
`playerName`); otherwise, if the token equals `playerName` ignoring letter case, the
value is the client's player name; otherwise the value is `"%" ++ token ++ "%"`.  Hence,
with player name `Nick` and no binding for the two spellings,
`substitute("Hello %playerName%") = substitute("Hello %PLAYERNAME%") = "Hello Nick"`. -/
theorem C22_token_resolution (game : ClientGame) (var : List Char) :
    (∀ code, game.getKeyBoundToBindingCodeName var = some code →
      getSubstVarVal game var = ['['] ++ game.inputCodeToString code ++ [']']) ∧
    (game.getKeyBoundToBindingCodeName var = none →
      var.map Char.toLower = "playername".toList → getSubstVarVal game var = game.getName) ∧
    (game.getKeyBoundToBindingCodeName var = none →
      var.map Char.toLower ≠ "playername".toList →
      getSubstVarVal game var = ['%'] ++ var ++ ['%']) ∧
    (getSubstVarVal boundNameGame "playerName".toList = "[F1]".toList) ∧
    (game.getName = "Nick".toList →
      game.getKeyBoundToBindingCodeName "playerName".toList = none →
      game.getKeyBoundToBindingCodeName "PLAYERNAME".toList = none →
      substitueVars game "Hello %playerName%".toList = some "Hello Nick".toList ∧
      substitueVars game "Hello %PLAYERNAME%".toList = some "Hello Nick".toList) := by
  have hlow : "playerName".toList.map Char.toLower = "playername".toList := by decide
  refine ⟨?_, ?_, ?_, by decide, ?_⟩
  · intro code hc
    unfold getSubstVarVal
    rw [hc]
  · intro hn hv
    unfold getSubstVarVal caseInsensitiveStringCompare
    rw [hn, hlow, hv]
    simp
  · intro hn hv
    unfold getSubstVarVal caseInsensitiveStringCompare
    rw [hn, hlow]
    have hb : (List.map Char.toLower var == "playername".toList) = false := by
      rw [beq_eq_false_iff_ne]
      exact hv
    simp only [hb, Bool.false_eq_true, if_false]
  · intro hname h1 h2
    have v1 : getSubstVarVal game "playerName".toList = "Nick".toList := by
      unfold getSubstVarVal caseInsensitiveStringCompare
      rw [h1, hname]
      rfl
    have v2 : getSubstVarVal game "PLAYERNAME".toList = "Nick".toList := by
      unfold getSubstVarVal caseInsensitiveStringCompare
      rw [h2, hname]
      rfl
    have s1 : "Hello %playerName%".toList =
        "Hello ".toList ++ '%' :: ("playerName".toList ++ '%' :: []) := by decide
    have s2 : "Hello %PLAYERNAME%".toList =
        "Hello ".toList ++ '%' :: ("PLAYERNAME".toList ++ '%' :: []) := by decide
    constructor
    · rw [s1, substitueVars_token game _ _ [] (by decide) (by decide), v1, substitueVars_nil]
      decide
    · rw [s2, substitueVars_token game _ _ [] (by decide) (by decide), v2, substitueVars_nil]
      decide

/-! ## The lines of one message -/

theorem insertLines_frame (e : Nat) (c : Color) (id : Nat) (lines : List String)
    (d : ChatMessageDisplayer) :
    (insertLines e c id lines d).mDisplayMode = d.mDisplayMode ∧
    (insertLines e c id lines d).mChatScrollTimer = d.mChatScrollTimer ∧
    (insertLines e c id lines d).mMessagesToShowInShortMode = d.mMessagesToShowInShortMode ∧
    (insertLines e c id lines d).mNextGroupId = d.mNextGroupId ∧
    (insertLines e c id lines d).mTopDown = d.mTopDown := by
  induction lines generalizing d with
  | nil => exact ⟨rfl, rfl, rfl, rfl, rfl⟩
  | cons l ls ih =>
    obtain ⟨a1, a2, a3, a4, a5⟩ := ih (insertLine e l c id d)
    obtain ⟨b1, b2, b3, b4⟩ := insertLine_frame e l c id d
    simp only [insertLines]
    exact ⟨a1.trans b1, a2.trans b2, a3.trans b3, a4.trans b4,
      a5.trans (insertLine_mTopDown e l c id d)⟩

theorem insertLines_mFirst (e : Nat) (c : Color) (id : Nat) (lines : List String)
    (d : ChatMessageDisplayer) (h : d.mFirst + lines.length < U32_MOD) :
    (insertLines e c id lines d).mFirst = d.mFirst + lines.length := by
  induction lines generalizing d with
  | nil => rfl
  | cons l ls ih =>
    simp only [List.length_cons] at h
    have h1 : (insertLine e l c id d).mFirst = d.mFirst + 1 := by
      rw [insertLine_mFirst]
      exact Nat.mod_eq_of_lt (by omega)
    simp only [insertLines, List.length_cons]
    rw [ih (insertLine e l c id d) (by rw [h1]; omega), h1]
    omega

theorem insertLines_untouched (e : Nat) (c : Color) (id : Nat) (lines : List String)
    (d : ChatMessageDisplayer) (j : Fin MSG_SLOTS) (h : d.mFirst + lines.length < U32_MOD)
    (hj : ∀ m, 1 ≤ m → m ≤ lines.length → slotIndex (d.mFirst + m) ≠ j) :
    (insertLines e c id lines d).mMessages j = d.mMessages j := by
  induction lines generalizing d with
  | nil => rfl
  | cons l ls ih =>
    simp only [List.length_cons] at h hj
    have h1 : (insertLine e l c id d).mFirst = d.mFirst + 1 := by
      rw [insertLine_mFirst]
      exact Nat.mod_eq_of_lt (by omega)
    simp only [insertLines]
    rw [ih (insertLine e l c id d) (by rw [h1]; omega)]
    · rw [insertLine_mMessages, Nat.mod_eq_of_lt (by omega)]
      exact Function.update_noteq (hj 1 (le_refl _) (by omega)).symm _ _
    · intro m hm1 hm2
      rw [h1, Nat.add_assoc, Nat.add_comm 1 m]
      exact hj (m + 1) (by omega) (by omega)

theorem insertLines_content (e : Nat) (c : Color) (id : Nat) (lines : List String)
    (d : ChatMessageDisplayer) (h : d.mFirst + lines.length < U32_MOD)
    (hlen : lines.length ≤ MSG_SLOTS) (k : Nat) (hk1 : 1 ≤ k) (hk2 : k ≤ lines.length) :
    lines[k - 1]? = some ((insertLines e c id lines d).slotAt (d.mFirst + k)).str ∧
    ((insertLines e c id lines d).slotAt (d.mFirst + k)).color = c ∧
    ((insertLines e c id lines d).slotAt (d.mFirst + k)).groupId = id ∧
    ((insertLines e c id lines d).slotAt (d.mFirst + k)).timer.mCurrentCounter = e := by
  induction lines generalizing d k with
  | nil => simp at hk2; omega
  | cons l ls ih =>
    simp only [List.length_cons] at h hlen hk2
    have h1 : (insertLine e l c id d).mFirst = d.mFirst + 1 := by
      rw [insertLine_mFirst]
      exact Nat.mod_eq_of_lt (by omega)
    simp only [insertLines]
    by_cases hk : k = 1
    · subst hk
      unfold slotAt
      rw [insertLines_untouched e c id ls (insertLine e l c id d) _ (by rw [h1]; omega)]
      · rw [insertLine_mMessages, Nat.mod_eq_of_lt (by omega), Function.update_same]
        exact ⟨by simp [ColorTimerString.set], rfl, rfl, rfl⟩
      · intro m hm1 hm2
        have hlen2 : ls.length + 1 ≤ 25 := hlen
        rw [h1]
        exact (slotIndex_ne (by omega) (by show d.mFirst + 1 + m < d.mFirst + 1 + 25; omega)).symm
    · have := ih (insertLine e l c id d) (by rw [h1]; omega) (by omega) (k - 1) (by omega)
        (by omega)
      rw [h1, show d.mFirst + 1 + (k - 1) = d.mFirst + k by omega] at this
      have hidx : (l :: ls)[k - 1]? = ls[k - 1 - 1]? := by
        rw [show k - 1 = (k - 1 - 1) + 1 by omega, List.getElem?_cons_succ]
        simp
      rw [hidx]
      exact this

theorem onChatMessageReceived_mNextGroupId (e : Nat) (c : Color) (lines : List String)
    (d : ChatMessageDisplayer) :
    (onChatMessageReceived e c lines d).mNextGroupId = (d.mNextGroupId + 1) % U32_MOD := by
  unfold onChatMessageReceived
  simp only
  split <;> simp [(insertLines_frame e c d.mNextGroupId lines d).2.2.2.1]

/-- What one `onChatMessageReceived` call does to the head counter, the slots of its
lines and the group-id counter, while neither counter wraps. -/
theorem onChatMessageReceived_lines (e : Nat) (c : Color) (lines : List String)
    (d : ChatMessageDisplayer) (hN : lines.length ≤ MAX_MESSAGES)
    (hhead : d.mFirst + lines.length < U32_MOD) (hid : d.mNextGroupId + 1 < U32_MOD) :
    (onChatMessageReceived e c lines d).mFirst = d.mFirst + lines.length ∧
    (∀ k, 1 ≤ k → k ≤ lines.length →
      lines[k - 1]? = some ((onChatMessageReceived e c lines d).slotAt (d.mFirst + k)).str ∧
      ((onChatMessageReceived e c lines d).slotAt (d.mFirst + k)).color = c ∧
      ((onChatMessageReceived e c lines d).slotAt (d.mFirst + k)).groupId = d.mNextGroupId) ∧
    (onChatMessageReceived e c lines d).mNextGroupId = d.mNextGroupId + 1 := by
  obtain ⟨o1, _, _, o4, _, _⟩ := onChatMessageReceived_frame e c lines d
  refine ⟨by rw [o1, insertLines_mFirst e c _ lines d hhead], ?_, ?_⟩
  · intro k hk1 hk2
    unfold slotAt
    rw [o4]
    have := insertLines_content e c d.mNextGroupId lines d hhead
      (by simp only [MSG_SLOTS, MAX_MESSAGES] at hN ⊢; omega) k hk1 hk2
    exact ⟨this.1, this.2.1, this.2.2.1⟩
  · rw [onChatMessageReceived_mNextGroupId]
    exact Nat.mod_eq_of_lt hid

/-- C23, as amended: an `onMessageReceived` call whose wrapped text has `N` lines
(`N ≤ MAX_MESSAGES`), made while `head + N` and the group-id counter plus one stay below
`2^32`, advances `head` by exactly `N`, stores line `k` (`k = 1..N`, in wrap order) at
logical position `oldHead + k`, gives all `N` slots the same group id, equal to the
group-id counter's value before the call, and increments the group-id counter by exactly
one; so the lines of the next message carry the next group id, and `reset()` does not
rewind the counter. -/
theorem C23_group_id_per_message (e : Nat) (c c2 : Color) (lines lines2 : List String)
    (d : ChatMessageDisplayer) (hN : lines.length ≤ MAX_MESSAGES)
    (hN2 : lines2.length ≤ MAX_MESSAGES)
    (hhead : d.mFirst + lines.length + lines2.length < U32_MOD)
    (hid : d.mNextGroupId + 2 < U32_MOD) :
    (onChatMessageReceived e c lines d).mFirst = d.mFirst + lines.length ∧
    (∀ k, 1 ≤ k → k ≤ lines.length →
      lines[k - 1]? = some ((onChatMessageReceived e c lines d).slotAt (d.mFirst + k)).str ∧
      ((onChatMessageReceived e c lines d).slotAt (d.mFirst + k)).color = c ∧
      ((onChatMessageReceived e c lines d).slotAt (d.mFirst + k)).groupId = d.mNextGroupId) ∧
    (onChatMessageReceived e c lines d).mNextGroupId = d.mNextGroupId + 1 ∧
    (∀ k, 1 ≤ k → k ≤ lines2.length →
      ((onChatMessageReceived e c2 lines2 (onChatMessageReceived e c lines d)).slotAt
        (d.mFirst + lines.length + k)).groupId = d.mNextGroupId + 1) ∧
    d.reset.mNextGroupId = d.mNextGroupId := by
  obtain ⟨a1, a2, a3⟩ := onChatMessageReceived_lines e c lines d hN (by omega) (by omega)
  obtain ⟨_, b2, _⟩ := onChatMessageReceived_lines e c2 lines2
    (onChatMessageReceived e c lines d) hN2 (by rw [a1]; exact hhead) (by rw [a3]; omega)
  refine ⟨a1, a2, a3, ?_, reset_mNextGroupId d⟩
  intro k hk1 hk2
  have := (b2 k hk1 hk2).2.2
  rw [a1, a3] at this
  exact this

/-- C23, witness: a three-line message followed by a two-line message. -/
theorem C23_group_id_per_message_witness :
    ["a", "b", "c"].length ≤ MAX_MESSAGES ∧ ["x", "y"].length ≤ MAX_MESSAGES ∧
    freshBottomUp.mFirst + ["a", "b", "c"].length + ["x", "y"].length < U32_MOD ∧
    freshBottomUp.mNextGroupId + 2 < U32_MOD ∧
    ((onChatMessageReceived 7000 ⟨255, 0, 0⟩ ["a", "b", "c"] freshBottomUp).mFirst =
        freshBottomUp.mFirst + ["a", "b", "c"].length ∧
      (∀ k, 1 ≤ k → k ≤ ["a", "b", "c"].length →
        ["a", "b", "c"][k - 1]? =
          some ((onChatMessageReceived 7000 ⟨255, 0, 0⟩ ["a", "b", "c"] freshBottomUp).slotAt
            (freshBottomUp.mFirst + k)).str ∧
        ((onChatMessageReceived 7000 ⟨255, 0, 0⟩ ["a", "b", "c"] freshBottomUp).slotAt
          (freshBottomUp.mFirst + k)).color = ⟨255, 0, 0⟩ ∧
        ((onChatMessageReceived 7000 ⟨255, 0, 0⟩ ["a", "b", "c"] freshBottomUp).slotAt
          (freshBottomUp.mFirst + k)).groupId = freshBottomUp.mNextGroupId) ∧
      (onChatMessageReceived 7000 ⟨255, 0, 0⟩ ["a", "b", "c"] freshBottomUp).mNextGroupId =
        freshBottomUp.mNextGroupId + 1 ∧
      (∀ k, 1 ≤ k → k ≤ ["x", "y"].length →
        ((onChatMessageReceived 7000 ⟨0, 255, 0⟩ ["x", "y"]
          (onChatMessageReceived 7000 ⟨255, 0, 0⟩ ["a", "b", "c"] freshBottomUp)).slotAt
            (freshBottomUp.mFirst + ["a", "b", "c"].length + k)).groupId =
          freshBottomUp.mNextGroupId + 1) ∧
      freshBottomUp.reset.mNextGroupId = freshBottomUp.mNextGroupId) :=
  ⟨by decide, by decide, by decide, by decide,
    C23_group_id_per_message 7000 ⟨255, 0, 0⟩ ⟨0, 255, 0⟩ ["a", "b", "c"] ["x", "y"]
      freshBottomUp (by decide) (by decide) (by decide) (by decide)⟩

/-- C23, counterexample: with the group-id counter at `2^32 - 1` a one-line message is
stored under group id `2^32 - 1` and the counter wraps to `0`, so the next message
carries a smaller group id; and with the head counter at `2^32 - 1` a one-line message
leaves `head = 0`. -/
theorem C23_counterexample :
    (groupIdAtMax.mNextGroupId = 4294967295 ∧
      ((onChatMessageReceived 7000 ⟨255, 0, 0⟩ ["a"] groupIdAtMax).slotAt 1).groupId
        = 4294967295 ∧
      (onChatMessageReceived 7000 ⟨255, 0, 0⟩ ["a"] groupIdAtMax).mNextGroupId = 0 ∧
      ((onChatMessageReceived 7000 ⟨255, 0, 0⟩ ["b"]
        (onChatMessageReceived 7000 ⟨255, 0, 0⟩ ["a"] groupIdAtMax)).slotAt 2).groupId = 0) ∧
    (headAtMax.mFirst = 4294967295 ∧
      (onChatMessageReceived 7000 ⟨255, 0, 0⟩ ["a"] headAtMax).mFirst = 0) := by
  decide

/-! ## The counters of a tick -/

theorem timer_reset_reset (t : Timer) : t.reset.reset = t.reset := rfl

theorem getMessageCount_after_one (d : ChatMessageDisplayer) (ms : Fin MSG_SLOTS → ColorTimerString)
    (t : Timer) :
    ChatMessageDisplayer.getMessageCount
      { d with mMessages := ms, mLast := (d.mLast + 1) % U32_MOD, mChatScrollTimer := t } =
      countAfter d 1 := by
  unfold getMessageCount countAfter
  simp only [Nat.mod_mod]

theorem idleSlot_counters (dt : Nat) (cm : Bool) (d : ChatMessageDisplayer)
    (i : Fin MSG_SLOTS) :
    (idleSlot dt cm d i).mLast =
      (if ((d.mMessages i).idle dt).2 = true then (d.mLast + 1) % U32_MOD else d.mLast) ∧
    (idleSlot dt cm d i).mChatScrollTimer =
      (if ((d.mMessages i).idle dt).2 = true ∧ d.mTopDown = true ∧
          countAfter d 1 ≤ d.getNumberOfMessagesToShow cm
        then d.mChatScrollTimer.reset else d.mChatScrollTimer) := by
  have hcount := getMessageCount_after_one d
    (Function.update d.mMessages i ((d.mMessages i).idle dt).1) d.mChatScrollTimer
  unfold idleSlot
  simp only
  by_cases hr : ((d.mMessages i).idle dt).2 = true
  · simp only [hr, if_true, true_and]
    by_cases hc : d.mTopDown = true ∧ countAfter d 1 ≤ d.getNumberOfMessagesToShow cm
    · rw [if_pos hc, if_pos]
      · exact ⟨rfl, rfl⟩
      · rw [Bool.and_eq_true, decide_eq_true_eq]
        exact ⟨hc.1, by rw [hcount]; exact hc.2⟩
    · rw [if_neg hc, if_neg]
      · exact ⟨rfl, rfl⟩
      · rw [Bool.and_eq_true, decide_eq_true_eq]
        intro hx
        exact hc ⟨hx.1, by rw [← hcount]; exact hx.2⟩
  · have hf : ((d.mMessages i).idle dt).2 = false := by simpa using hr
    simp [hf]


theorem idleSlot_numberToShow (dt : Nat) (cm c : Bool) (d : ChatMessageDisplayer)
    (i : Fin MSG_SLOTS) :
    (idleSlot dt cm d i).getNumberOfMessagesToShow c = d.getNumberOfMessagesToShow c := by
  obtain ⟨_, _, _, f4, f5, _, _⟩ := idleSlot_frame dt cm d i
  unfold getNumberOfMessagesToShow
  rw [f4, f5]

theorem expiryReports_idleSlot (dt : Nat) (cm : Bool) (d : ChatMessageDisplayer)
    (i : Fin MSG_SLOTS) (l : List (Fin MSG_SLOTS)) (hi : i ∉ l) :
    expiryReports (idleSlot dt cm d i) dt l = expiryReports d dt l := by
  unfold expiryReports
  apply List.countP_congr
  intro k hk
  have hne : k ≠ i := fun e => hi (e ▸ hk)
  rw [idleSlot_mMessages_ne dt cm d i k hne]

theorem countAfter_succ (d d1 : ChatMessageDisplayer) (j : Nat) (h1 : d1.mFirst = d.mFirst)
    (h2 : d1.mLast = (d.mLast + 1) % U32_MOD) : countAfter d1 j = countAfter d (j + 1) := by
  unfold countAfter
  rw [h1, h2]
  simp only [U32_MOD]
  omega

/-- The tail counter and the scroll timer after the loop of `idle` over the slots `l`. -/
theorem idleLoop_counters (dt : Nat) (cm : Bool) (l : List (Fin MSG_SLOTS)) (hl : l.Nodup)
    (d : ChatMessageDisplayer) :
    (idleLoop dt cm l d).mLast =
      (if expiryReports d dt l = 0 then d.mLast
        else (d.mLast + expiryReports d dt l) % U32_MOD) ∧
    (restartsScroll d cm (expiryReports d dt l) →
      (idleLoop dt cm l d).mChatScrollTimer = d.mChatScrollTimer.reset) ∧
    (¬ restartsScroll d cm (expiryReports d dt l) →
      (idleLoop dt cm l d).mChatScrollTimer = d.mChatScrollTimer) := by
  induction l generalizing d with
  | nil =>
    refine ⟨by simp [idleLoop, expiryReports], ?_, fun _ => rfl⟩
    intro h
    obtain ⟨_, j, h1, h2, _⟩ := h
    simp only [expiryReports, List.countP_nil] at h2
    omega
  | cons i l ih =>
    have hn := List.nodup_cons.mp hl
    obtain ⟨ih1, ih2, ih3⟩ := ih hn.2 (idleSlot dt cm d i)
    rw [expiryReports_idleSlot dt cm d i l hn.1] at ih1 ih2 ih3
    obtain ⟨c1, c2⟩ := idleSlot_counters dt cm d i
    obtain ⟨f1, _, f3, _, _, _, _⟩ := idleSlot_frame dt cm d i
    have hcons : expiryReports d dt (i :: l) =
        expiryReports d dt l + (if ((d.mMessages i).idle dt).2 = true then 1 else 0) := by
      unfold expiryReports
      rw [List.countP_cons]
    simp only [idleLoop, List.foldl_cons] at ih1 ih2 ih3 ⊢
    by_cases hr : ((d.mMessages i).idle dt).2 = true
    swap
    · -- the slot reports nothing
      have c1' : (idleSlot dt cm d i).mLast = d.mLast := by rw [c1, if_neg hr]
      have c2' : (idleSlot dt cm d i).mChatScrollTimer = d.mChatScrollTimer := by
        rw [c2, if_neg (fun hc => hr hc.1)]
      have hcons' : expiryReports d dt (i :: l) = expiryReports d dt l := by
        rw [hcons, if_neg hr]; rfl
      have hrs : restartsScroll (idleSlot dt cm d i) cm (expiryReports d dt l) ↔
          restartsScroll d cm (expiryReports d dt l) := by
        unfold restartsScroll countAfter
        rw [f1, f3, c1', idleSlot_numberToShow]
      rw [hcons']
      refine ⟨by rw [ih1, c1'], ?_, ?_⟩
      · intro h
        rw [ih2 (hrs.mpr h), c2']
      · intro h
        rw [ih3 (fun hc => h (hrs.mp hc)), c2']
    · -- the slot reports expiry
      have c1 : (idleSlot dt cm d i).mLast = (d.mLast + 1) % U32_MOD := by rw [c1, if_pos hr]
      have c2 : (idleSlot dt cm d i).mChatScrollTimer =
          (if d.mTopDown = true ∧ countAfter d 1 ≤ d.getNumberOfMessagesToShow cm
            then d.mChatScrollTimer.reset else d.mChatScrollTimer) := by
        rw [c2]
        by_cases hx : d.mTopDown = true ∧ countAfter d 1 ≤ d.getNumberOfMessagesToShow cm
        · rw [if_pos hx, if_pos ⟨hr, hx⟩]
        · rw [if_neg hx, if_neg (fun hc => hx hc.2)]
      have hcons : expiryReports d dt (i :: l) = expiryReports d dt l + 1 := by
        rw [hcons, if_pos hr]
      have hca : ∀ j, countAfter (idleSlot dt cm d i) j = countAfter d (j + 1) :=
        fun j => countAfter_succ d _ j f1 c1
      have hrs : restartsScroll d cm (expiryReports d dt l + 1) ↔
          ((d.mTopDown = true ∧ countAfter d 1 ≤ d.getNumberOfMessagesToShow cm) ∨
            restartsScroll (idleSlot dt cm d i) cm (expiryReports d dt l)) := by
        unfold restartsScroll
        rw [f3, idleSlot_numberToShow]
        constructor
        · rintro ⟨htd, j, hj1, hj2, hj3⟩
          by_cases hj : j = 1
          · left; subst hj; exact ⟨htd, hj3⟩
          · right
            refine ⟨htd, j - 1, by omega, by omega, ?_⟩
            rw [hca, show j - 1 + 1 = j by omega]
            exact hj3
        · rintro (⟨htd, h1⟩ | ⟨htd, j, hj1, hj2, hj3⟩)
          · exact ⟨htd, 1, le_refl _, by omega, h1⟩
          · refine ⟨htd, j + 1, by omega, by omega, ?_⟩
            rw [← hca]
            exact hj3
      rw [hcons]
      refine ⟨?_, ?_, ?_⟩
      · rw [ih1, c1, if_neg (Nat.succ_ne_zero _)]
        simp only [U32_MOD]
        split_ifs <;> omega
      · intro h
        by_cases hx : restartsScroll (idleSlot dt cm d i) cm (expiryReports d dt l)
        · rw [ih2 hx, c2]
          split <;> rfl
        · rw [ih3 hx, c2]
          rcases hrs.mp h with h1 | h1
          · rw [if_pos h1]
          · exact absurd h1 hx
      · intro h
        have hx : ¬ restartsScroll (idleSlot dt cm d i) cm (expiryReports d dt l) :=
          fun hc => h (hrs.mpr (Or.inr hc))
        have h1 : ¬ (d.mTopDown = true ∧ countAfter d 1 ≤ d.getNumberOfMessagesToShow cm) :=
          fun hc => h (hrs.mpr (Or.inl hc))
        rw [ih3 hx, c2, if_neg h1]

theorem idle_mLast (d : ChatMessageDisplayer) (dt : Nat) (cm : Bool) :
    (d.idle dt cm).mLast =
      (if tickReports d dt = 0 then d.mLast else (d.mLast + tickReports d dt) % U32_MOD) := by
  unfold idle
  exact (idleLoop_counters dt cm _ (List.nodup_finRange _) _).1

theorem idle_scroll_restart (d : ChatMessageDisplayer) (dt : Nat) (cm : Bool)
    (h : restartsScroll d cm (tickReports d dt)) :
    (d.idle dt cm).mChatScrollTimer = (d.mChatScrollTimer.update dt).1.reset := by
  unfold idle
  exact (idleLoop_counters dt cm _ (List.nodup_finRange _) _).2.1 h

theorem idle_scroll_countdown (d : ChatMessageDisplayer) (dt : Nat) (cm : Bool)
    (h : ¬ restartsScroll d cm (tickReports d dt)) :
    (d.idle dt cm).mChatScrollTimer = (d.mChatScrollTimer.update dt).1 := by
  unfold idle
  exact (idleLoop_counters dt cm _ (List.nodup_finRange _) _).2.2 h

theorem idle_scroll_mPeriod (d : ChatMessageDisplayer) (dt : Nat) (cm : Bool) :
    (d.idle dt cm).mChatScrollTimer.mPeriod = d.mChatScrollTimer.mPeriod := by
  by_cases h : restartsScroll d cm (tickReports d dt)
  · rw [idle_scroll_restart d dt cm h]
    simp [Timer.reset, timer_update_mPeriod]
  · rw [idle_scroll_countdown d dt cm h]
    exact timer_update_mPeriod _ _

/-- C25, as amended: in a top-anchored buffer, `tick(timeDelta, composing)` restarts the
scroll animator if and only if some slot reports expiry in that tick and the live message
count immediately after that eviction is at most `numberToShow(composing)`; otherwise,
and always in a bottom-anchored buffer, the tick only counts the scroll animator
down. -/
theorem C25_scroll_restart_on_contraction (d : ChatMessageDisplayer) (timeDelta : Nat)
    (composingMessage : Bool) :
    (restartsScroll d composingMessage (tickReports d timeDelta) →
      (d.idle timeDelta composingMessage).mChatScrollTimer =
        (d.mChatScrollTimer.update timeDelta).1.reset) ∧
    (¬ restartsScroll d composingMessage (tickReports d timeDelta) →
      (d.idle timeDelta composingMessage).mChatScrollTimer =
        (d.mChatScrollTimer.update timeDelta).1) ∧
    (d.mTopDown = false →
      (d.idle timeDelta composingMessage).mChatScrollTimer =
        (d.mChatScrollTimer.update timeDelta).1) := by
  refine ⟨idle_scroll_restart d timeDelta composingMessage,
    idle_scroll_countdown d timeDelta composingMessage, ?_⟩
  intro hbu
  apply idle_scroll_countdown
  intro hc
  rw [hc.1] at hbu
  exact Bool.noConfusion hbu

/-- C25, counterexample: the only line of a top-anchored displayer with short count 5
expires in a tick; the live message count right after the eviction is 0, not equal to
`numberToShow(false) = 5`, and yet the tick restarts the scroll animator, which had run
out, at its full period. -/
theorem C25_counterexample :
    oneFresh.mTopDown = true ∧ tickReports oneFresh 7000 = 1 ∧
    countAfter oneFresh 1 = 0 ∧ oneFresh.getNumberOfMessagesToShow false = 5 ∧
    (oneFresh.idle 7000 false).getMessageCount = 0 ∧
    oneFresh.mChatScrollTimer.getCurrent = 0 ∧
    (oneFresh.idle 7000 false).mChatScrollTimer.getCurrent = 100 := by
  decide

/-! ## What every reachable state keeps -/

theorem slotFadeOk_idle (td : Bool) (m : ColorTimerString) (dt : Nat)
    (h : SlotFadeOk td m) : SlotFadeOk td (m.idle dt).1 := by
  obtain ⟨h1, h2⟩ := h
  unfold SlotFadeOk
  rw [slot_idle_timer, slot_idle_fade, (slot_idle_content m dt).2.2.2]
  by_cases c : m.timer.mCurrentCounter ≠ 0 ∧ dt ≥ m.timer.mCurrentCounter
  · rw [if_pos c]
    obtain ⟨u, f⟩ := h1 c.1
    refine ⟨fun hc => absurd hc (by omega), ?_⟩
    cases hu : m.usingFadeTimer
    · simp [f]
    · intro _
      rw [hu] at u
      cases td
      · exact ⟨rfl, rfl⟩
      · simp at u
  · rw [if_neg c]
    refine ⟨?_, ?_⟩
    · intro hc
      obtain ⟨u, f⟩ := h1 (by omega)
      exact ⟨u, by omega⟩
    · intro hc
      exact h2 (by omega)

theorem slotFadeOk_set (td : Bool) (m : ColorTimerString) (line : String) (c : Color)
    (e id : Nat) : SlotFadeOk td (m.set line (!td) c e id) := by
  simp [SlotFadeOk, ColorTimerString.set, Timer.resetTo, Timer.clear]

theorem slotFadeOk_clear (td : Bool) (m : ColorTimerString) : SlotFadeOk td (clearSlot m) := by
  simp [SlotFadeOk, clearSlot, Timer.clear]

theorem configInv_reset (st : Nat) (td : Bool) (d : ChatMessageDisplayer)
    (h : ConfigInv st td d) : ConfigInv st td d.reset := by
  refine ⟨by rw [reset_mTopDown]; exact h.1, by rw [reset_mChatScrollTimer]; exact h.2.1, ?_⟩
  intro k
  rw [reset_mMessages]
  exact slotFadeOk_clear td _

theorem configInv_construct (st : Nat) (mc : Int) (td : Bool) :
    ConfigInv st td (construct st mc td) := by
  unfold construct
  refine ⟨rfl, ?_, ?_⟩
  · simp only [reset_mChatScrollTimer]
    rfl
  · intro k
    simp only [reset_mMessages]
    exact slotFadeOk_clear td _

theorem configInv_insertLine (st : Nat) (td : Bool) (e : Nat) (line : String) (c : Color)
    (id : Nat) (d : ChatMessageDisplayer) (h : ConfigInv st td d) :
    ConfigInv st td (insertLine e line c id d) := by
  obtain ⟨h1, h2, h3⟩ := h
  refine ⟨by rw [insertLine_mTopDown]; exact h1,
    by rw [(insertLine_frame e line c id d).2.1]; exact h2, ?_⟩
  intro k
  rw [insertLine_mMessages, h1]
  by_cases hk : k = slotIndex ((d.mFirst + 1) % U32_MOD)
  · subst hk
    rw [Function.update_same]
    exact slotFadeOk_set td _ _ _ _ _
  · rw [Function.update_noteq hk]
    exact h3 k

theorem configInv_insertLines (st : Nat) (td : Bool) (e : Nat) (c : Color) (id : Nat)
    (lines : List String) (d : ChatMessageDisplayer) (h : ConfigInv st td d) :
    ConfigInv st td (insertLines e c id lines d) := by
  induction lines generalizing d with
  | nil => exact h
  | cons l ls ih => exact ih _ (configInv_insertLine st td e l c id d h)

theorem onChatMessageReceived_scroll (e : Nat) (c : Color) (lines : List String)
    (d : ChatMessageDisplayer) :
    (onChatMessageReceived e c lines d).mChatScrollTimer =
      (if d.mTopDown = true then d.mChatScrollTimer else d.mChatScrollTimer.reset) := by
  obtain ⟨_, f2, _, _, f5⟩ := insertLines_frame e c d.mNextGroupId lines d
  unfold onChatMessageReceived
  simp only [f5]
  cases htd : d.mTopDown
  · simp [f2]
  · simp [f2]

theorem configInv_receive (st : Nat) (td : Bool) (e : Nat) (c : Color) (lines : List String)
    (d : ChatMessageDisplayer) (h : ConfigInv st td d) :
    ConfigInv st td (onChatMessageReceived e c lines d) := by
  obtain ⟨g1, g2, g3⟩ := configInv_insertLines st td e c d.mNextGroupId lines d h
  obtain ⟨_, _, _, o4, _, o6⟩ := onChatMessageReceived_frame e c lines d
  refine ⟨by rw [o6]; exact g1, ?_, ?_⟩
  · rw [onChatMessageReceived_scroll]
    split
    · exact h.2.1
    · exact h.2.1
  · intro k
    rw [o4]
    exact g3 k

theorem configInv_idle (st : Nat) (td : Bool) (d : ChatMessageDisplayer) (dt : Nat)
    (cm : Bool) (h : ConfigInv st td d) : ConfigInv st td (d.idle dt cm) := by
  obtain ⟨h1, h2, h3⟩ := h
  refine ⟨by rw [idle_mTopDown]; exact h1, by rw [idle_scroll_mPeriod]; exact h2, ?_⟩
  intro k
  rw [idle_mMessages]
  exact slotFadeOk_idle td _ dt (h3 k)

theorem configInv_of_reachable (e st : Nat) (mc : Int) (td : Bool)
    (d : ChatMessageDisplayer) (h : Reachable e st mc td d) : ConfigInv st td d := by
  induction h with
  | init => exact configInv_construct st mc td
  | reset d _ ih => exact configInv_reset st td d ih
  | receive d c lines _ ih => exact configInv_receive st td e c lines d ih
  | insert d line c id _ ih => exact configInv_insertLine st td e line c id d ih
  | tick d dt cm _ ih => exact configInv_idle st td d dt cm ih
  | toggle d _ ih => exact ih

/-- C24: on a bottom-anchored buffer every `onMessageReceived` call (for any number
`N ≥ 0` of wrapped lines) restarts the scroll animator at its full period `SCROLL_TIME`,
a positive constant, so `isScrolling()` is true immediately afterwards; on a top-anchored
buffer `onMessageReceived` leaves the scroll timer unchanged. -/
theorem C24_scroll_restart_on_arrival (e st : Nat) (mc : Int) (td : Bool)
    (d : ChatMessageDisplayer) (c : Color) (lines : List String)
    (hst : 0 < st) (h : Reachable e st mc td d) :
    (td = false →
      (onChatMessageReceived e c lines d).mChatScrollTimer.getCurrent = st ∧
      (onChatMessageReceived e c lines d).isScrolling = true) ∧
    (td = true →
      (onChatMessageReceived e c lines d).mChatScrollTimer = d.mChatScrollTimer) := by
  obtain ⟨h1, h2, _⟩ := configInv_of_reachable e st mc td d h
  rw [onChatMessageReceived_scroll]
  constructor
  · intro htd
    have hcur : (if d.mTopDown = true then d.mChatScrollTimer
        else d.mChatScrollTimer.reset).getCurrent = st := by
      rw [if_neg (by rw [h1, htd]; decide)]
      exact h2
    refine ⟨hcur, ?_⟩
    unfold isScrolling
    rw [onChatMessageReceived_scroll, hcur]
    exact decide_eq_true hst
  · intro htd
    rw [if_pos (by rw [h1, htd])]

/-- C24, witness: a bottom-anchored displayer with scroll period 100 ms that is in
the fade phase of an earlier line receives a message of no lines. -/
theorem C24_scroll_restart_on_arrival_witness :
    (0 : Nat) < 100 ∧
    Reachable 7000 100 5 false
      ((onChatMessageReceived 7000 ⟨255, 255, 255⟩ ["hi"] (construct 100 5 false)).idle
        7000 false) ∧
    ((false = false →
        (onChatMessageReceived 7000 ⟨0, 0, 255⟩ []
          ((onChatMessageReceived 7000 ⟨255, 255, 255⟩ ["hi"] (construct 100 5 false)).idle
            7000 false)).mChatScrollTimer.getCurrent = 100 ∧
        (onChatMessageReceived 7000 ⟨0, 0, 255⟩ []
          ((onChatMessageReceived 7000 ⟨255, 255, 255⟩ ["hi"] (construct 100 5 false)).idle
            7000 false)).isScrolling = true) ∧
      (false = true →
        (onChatMessageReceived 7000 ⟨0, 0, 255⟩ []
          ((onChatMessageReceived 7000 ⟨255, 255, 255⟩ ["hi"] (construct 100 5 false)).idle
            7000 false)).mChatScrollTimer =
          ((onChatMessageReceived 7000 ⟨255, 255, 255⟩ ["hi"] (construct 100 5 false)).idle
            7000 false).mChatScrollTimer)) :=
  have hr : Reachable 7000 100 5 false
      ((onChatMessageReceived 7000 ⟨255, 255, 255⟩ ["hi"] (construct 100 5 false)).idle
        7000 false) :=
    .tick _ _ _ (.receive _ _ _ .init)
  ⟨by decide, hr,
    C24_scroll_restart_on_arrival 7000 100 5 false _ ⟨0, 0, 255⟩ [] (by decide) hr⟩

/-- C28: in every reachable state and for every physical slot, a non-zero fade timer
implies that the slot was set with fading enabled (bottom-anchored buffer) and that its
expiry timer is 0; in particular no slot ever has both timers non-zero, and in a
top-anchored buffer every slot's fade timer is 0 at all times. -/
theorem C28_fade_timer_invariant (e st : Nat) (mc : Int) (td : Bool)
    (d : ChatMessageDisplayer) (k : Fin MSG_SLOTS) (h : Reachable e st mc td d) :
    ((d.mMessages k).fadeTimer.getCurrent ≠ 0 →
      (d.mMessages k).usingFadeTimer = true ∧ d.mTopDown = false ∧
      (d.mMessages k).timer.getCurrent = 0) ∧
    ¬ ((d.mMessages k).timer.getCurrent ≠ 0 ∧ (d.mMessages k).fadeTimer.getCurrent ≠ 0) ∧
    (d.mTopDown = true → (d.mMessages k).fadeTimer.getCurrent = 0) := by
  obtain ⟨h1, _, h3⟩ := configInv_of_reachable e st mc td d h
  obtain ⟨a1, a2⟩ := h3 k
  unfold Timer.getCurrent
  refine ⟨?_, ?_, ?_⟩
  · intro hf
    obtain ⟨u, t⟩ := a2 hf
    refine ⟨u, by rw [h1]; exact t, ?_⟩
    by_contra hc
    exact hf (a1 hc).2
  · rintro ⟨ht, hf⟩
    exact hf (a1 ht).2
  · intro htd
    by_contra hc
    have := (a2 hc).2
    rw [← h1, htd] at this
    exact Bool.noConfusion this

/-- C28, witness: a bottom-anchored displayer whose only line is in its fade phase. -/
theorem C28_fade_timer_invariant_witness :
    Reachable 7000 100 5 false
      ((onChatMessageReceived 7000 ⟨255, 255, 255⟩ ["hi"] (construct 100 5 false)).idle
        7000 false) ∧
    ((((onChatMessageReceived 7000 ⟨255, 255, 255⟩ ["hi"] (construct 100 5 false)).idle
        7000 false).mMessages 1).fadeTimer.getCurrent = 100) ∧
    (((((onChatMessageReceived 7000 ⟨255, 255, 255⟩ ["hi"] (construct 100 5 false)).idle
          7000 false).mMessages 1).fadeTimer.getCurrent ≠ 0 →
        (((onChatMessageReceived 7000 ⟨255, 255, 255⟩ ["hi"] (construct 100 5 false)).idle
          7000 false).mMessages 1).usingFadeTimer = true ∧
        ((onChatMessageReceived 7000 ⟨255, 255, 255⟩ ["hi"] (construct 100 5 false)).idle
          7000 false).mTopDown = false ∧
        (((onChatMessageReceived 7000 ⟨255, 255, 255⟩ ["hi"] (construct 100 5 false)).idle
          7000 false).mMessages 1).timer.getCurrent = 0) ∧
      ¬ ((((onChatMessageReceived 7000 ⟨255, 255, 255⟩ ["hi"] (construct 100 5 false)).idle
          7000 false).mMessages 1).timer.getCurrent ≠ 0 ∧
        (((onChatMessageReceived 7000 ⟨255, 255, 255⟩ ["hi"] (construct 100 5 false)).idle
          7000 false).mMessages 1).fadeTimer.getCurrent ≠ 0) ∧
      (((onChatMessageReceived 7000 ⟨255, 255, 255⟩ ["hi"] (construct 100 5 false)).idle
          7000 false).mTopDown = true →
        (((onChatMessageReceived 7000 ⟨255, 255, 255⟩ ["hi"] (construct 100 5 false)).idle
          7000 false).mMessages 1).fadeTimer.getCurrent = 0)) :=
  have hr : Reachable 7000 100 5 false
      ((onChatMessageReceived 7000 ⟨255, 255, 255⟩ ["hi"] (construct 100 5 false)).idle
        7000 false) :=
    .tick _ _ _ (.receive _ _ _ .init)
  ⟨hr, by decide, C28_fade_timer_invariant 7000 100 5 false _ 1 hr⟩

/-! ## The display mode and the storage -/

theorem advanceFirst_withMode (d : ChatMessageDisplayer) (m : MessageDisplayMode) :
    ChatMessageDisplayer.advanceFirst { d with mDisplayMode := m } =
      { d.advanceFirst with mDisplayMode := m } := by
  unfold advanceFirst
  simp only
  split <;> rfl

theorem insertLine_withMode (e : Nat) (line : String) (c : Color) (id : Nat)
    (d : ChatMessageDisplayer) (m : MessageDisplayMode) :
    insertLine e line c id { d with mDisplayMode := m } =
      { insertLine e line c id d with mDisplayMode := m } := by
  unfold insertLine
  rw [advanceFirst_withMode]

theorem insertLines_withMode (e : Nat) (c : Color) (id : Nat) (lines : List String)
    (d : ChatMessageDisplayer) (m : MessageDisplayMode) :
    insertLines e c id lines { d with mDisplayMode := m } =
      { insertLines e c id lines d with mDisplayMode := m } := by
  induction lines generalizing d with
  | nil => rfl
  | cons l ls ih =>
    simp only [insertLines]
    rw [insertLine_withMode, ih]

/-- C29: for any two states that differ only in display mode, applying the same
operation (`insertLine` or `onMessageReceived` with the same lines, or a tick with the
same `timeDelta` and composing flag) yields the same `head`, `tail`, `full` flag and the
same slots (text, color, group id and timers). -/
theorem C29_mode_does_not_affect_storage (d : ChatMessageDisplayer) (m : MessageDisplayMode)
    (e : Nat) (c : Color) (line : String) (id : Nat) (lines : List String) (dt : Nat)
    (cm : Bool) :
    ((insertLine e line c id { d with mDisplayMode := m }).mFirst =
        (insertLine e line c id d).mFirst ∧
      (insertLine e line c id { d with mDisplayMode := m }).mLast =
        (insertLine e line c id d).mLast ∧
      (insertLine e line c id { d with mDisplayMode := m }).mFull =
        (insertLine e line c id d).mFull ∧
      (insertLine e line c id { d with mDisplayMode := m }).mMessages =
        (insertLine e line c id d).mMessages) ∧
    ((onChatMessageReceived e c lines { d with mDisplayMode := m }).mFirst =
        (onChatMessageReceived e c lines d).mFirst ∧
      (onChatMessageReceived e c lines { d with mDisplayMode := m }).mLast =
        (onChatMessageReceived e c lines d).mLast ∧
      (onChatMessageReceived e c lines { d with mDisplayMode := m }).mFull =
        (onChatMessageReceived e c lines d).mFull ∧
      (onChatMessageReceived e c lines { d with mDisplayMode := m }).mMessages =
        (onChatMessageReceived e c lines d).mMessages) ∧
    ((ChatMessageDisplayer.idle { d with mDisplayMode := m } dt cm).mFirst =
        (d.idle dt cm).mFirst ∧
      (ChatMessageDisplayer.idle { d with mDisplayMode := m } dt cm).mLast =
        (d.idle dt cm).mLast ∧
      (ChatMessageDisplayer.idle { d with mDisplayMode := m } dt cm).mFull =
        (d.idle dt cm).mFull ∧
      (ChatMessageDisplayer.idle { d with mDisplayMode := m } dt cm).mMessages =
        (d.idle dt cm).mMessages) := by
  refine ⟨?_, ?_, ?_⟩
  · rw [insertLine_withMode]
    exact ⟨rfl, rfl, rfl, rfl⟩
  · obtain ⟨a1, a2, a3, a4, _, _⟩ :=
      onChatMessageReceived_frame e c lines { d with mDisplayMode := m }
    obtain ⟨b1, b2, b3, b4, _, _⟩ := onChatMessageReceived_frame e c lines d
    rw [a1, a2, a3, a4, b1, b2, b3, b4]
    have hw := insertLines_withMode e c d.mNextGroupId lines d m
    have hw1 : insertLines e c
        (ChatMessageDisplayer.mNextGroupId { d with mDisplayMode := m }) lines
        { d with mDisplayMode := m } =
        { insertLines e c d.mNextGroupId lines d with mDisplayMode := m } := hw
    rw [hw1]
    exact ⟨rfl, rfl, rfl, rfl⟩
  · refine ⟨by rw [idle_mFirst, idle_mFirst], ?_, by rw [idle_mFull, idle_mFull], ?_⟩
    · rw [idle_mLast, idle_mLast]
      rfl
    · funext k
      rw [idle_mMessages, idle_mMessages]

/-! ## The visible window and the head counter -/

theorem countLoop_le_position (d : ChatMessageDisplayer) (h : ℚ) (cm scr : Bool)
    (off i m sc : Nat) : countLoop d h cm scr off i m sc ≤ m + i := by
  induction i generalizing m sc with
  | zero => simp only [countLoop]; omega
  | succ i ih =>
    simp only [countLoop]
    have h1 := ih (m + 1) sc
    have h2 := ih (m + 1) (sc + 1)
    split_ifs <;> omega

theorem visible_le_head (d : ChatMessageDisplayer) (h : ℚ) (cm : Bool) :
    d.getCountOfMessagesToDisplay h cm ≤ d.mFirst := by
  unfold getCountOfMessagesToDisplay
  split_ifs
  · omega
  · exact Nat.min_le_right _ _
  · have := countLoop_le_position d h cm d.isScrolling d.messagesBeingScrolledOff d.mFirst 0 0
    omega

/-- C30, as amended: in every state and for all arguments,
`visibleCount(helperFadeIn, composing) ≤ head`, i.e. every slot selected for rendering
lies between the logical positions 1 and `head`; lines that have expired and lie at or
below `tail` are selected whenever the display shows expired lines, so `visibleCount` is
not bounded by `messageCount()`. -/
theorem C30_visible_window_within_head (d : ChatMessageDisplayer) (helperFadeIn : ℚ)
    (composingMessage : Bool) :
    d.getCountOfMessagesToDisplay helperFadeIn composingMessage ≤ d.mFirst :=
  visible_le_head d helperFadeIn composingMessage

/-- C30, counterexample: a freshly constructed top-anchored displayer receives one line
and is ticked by the expiry duration; `messageCount()` is 0, and while composing the
expired line is still visible: `visibleCount(0, true) = 1`. -/
theorem C30_counterexample :
    Reachable 7000 100 5 true oneExpired ∧ oneExpired.getMessageCount = 0 ∧
    oneExpired.getCountOfMessagesToDisplay 0 true = 1 :=
  ⟨.tick _ _ _ (.insert _ _ _ _ .init), by decide, by decide⟩

/-! ## `render` -/

theorem renderLoop_length (d : ChatMessageDisplayer) (lh : Int) (last i : Nat) (y : Int) :
    (renderLoop d lh last i y).length = i - last := by
  induction i generalizing y with
  | zero => simp [renderLoop]
  | succ i ih =>
    unfold renderLoop
    split_ifs with h
    · rw [List.length_cons, ih]
      omega
    · simp only [List.length_nil]
      omega

theorem toS32_modEq (a : Int) : toS32 a ≡ a [ZMOD 4294967296] := by
  unfold toS32 Int.ModEq
  omega

theorem toS32_congr (a b : Int) (h : a ≡ b [ZMOD 4294967296]) : toS32 a = toS32 b := by
  unfold toS32
  have h2 := Int.ModEq.add_right 2147483648 h
  unfold Int.ModEq at h2
  rw [h2]

theorem toS32_idem (a : Int) : toS32 (toS32 a) = toS32 a :=
  toS32_congr _ _ (toS32_modEq a)

theorem toS32_of_range (x : Int) (h1 : -2147483648 ≤ x) (h2 : x < 2147483648) :
    toS32 x = x := by
  unfold toS32
  omega

theorem toS32_range (x : Int) : -2147483648 ≤ toS32 x ∧ toS32 x < 2147483648 := by
  unfold toS32
  omega

theorem renderLoop_get (d : ChatMessageDisplayer) (lh : Int) (last i : Nat) (y : Int)
    (hy : toS32 y = y) (k : Nat) (hk : k < i - last) :
    (renderLoop d lh last i y)[k]? =
      some { index := (i - k) % MSG_SLOTS, str := (d.slotAt (i - k)).str,
             color := (d.slotAt (i - k)).color, y := toS32 (y - (k : Int) * lh) } := by
  induction i generalizing y k with
  | zero => omega
  | succ i ih =>
    unfold renderLoop
    rw [if_pos (by omega)]
    cases k with
    | zero => simp [hy]
    | succ k =>
      rw [List.getElem?_cons_succ, ih (toS32 (y - lh)) (toS32_idem _) k (by omega)]
      have h1 : i + 1 - (k + 1) = i - k := by omega
      have h2 : toS32 (toS32 (y - lh) - (k : Int) * lh) =
          toS32 (y - ((k + 1 : Nat) : Int) * lh) := by
        apply toS32_congr
        have h3 : y - ((k + 1 : Nat) : Int) * lh = y - lh - (k : Int) * lh := by
          push_cast
          ring
        rw [h3]
        exact Int.ModEq.sub_right _ (toS32_modEq _)
      rw [h1, h2]

theorem renderLoop_index (d : ChatMessageDisplayer) (lh : Int) (last i : Nat) (y : Int)
    (r : RenderedLine) (hr : r ∈ renderLoop d lh last i y) : r.index < MSG_SLOTS := by
  induction i generalizing y with
  | zero => simp [renderLoop] at hr
  | succ i ih =>
    unfold renderLoop at hr
    split_ifs at hr
    · rcases List.mem_cons.mp hr with e | e
      · rw [e]
        exact Nat.mod_lt _ (by decide)
      · exact ih _ e
    · exact absurd hr (List.not_mem_nil _)

theorem u32Sub_of_le (a b : Nat) (h1 : b ≤ a) (h2 : a < U32_MOD) : u32Sub a b = a - b := by
  unfold u32Sub
  simp only [U32_MOD] at h2 ⊢
  rw [Nat.mod_eq_of_lt (by omega : b < 4294967296)]
  omega

theorem renderLoop_lines (d : ChatMessageDisplayer) (lh : Int) (last i : Nat) (y : Int) :
    ∃ y0 : Int, toS32 y0 = y0 ∧ ∀ k : Nat,
      k < (renderLoop d (toS32 lh) last i (toS32 y)).length →
      (renderLoop d (toS32 lh) last i (toS32 y))[k]? =
        some { index := (i - k) % MSG_SLOTS, str := (d.slotAt (i - k)).str,
               color := (d.slotAt (i - k)).color, y := toS32 (y0 - (k : Int) * lh) } := by
  refine ⟨toS32 y, toS32_idem y, fun k hk => ?_⟩
  rw [renderLoop_length] at hk
  rw [renderLoop_get d _ _ _ _ (toS32_idem y) k hk]
  have h : toS32 (toS32 y - (k : Int) * toS32 lh) = toS32 (toS32 y - (k : Int) * lh) :=
    toS32_congr _ _ (Int.ModEq.sub (Int.ModEq.refl _) (Int.ModEq.mul_left _ (toS32_modEq lh)))
  rw [h]

/-- C26, as amended: for every state and all arguments, `render` issues its text-draw
calls for the newest logical positions `head`, `head - 1`, ... in that order, each with
that slot's text and color, successive lines being one line-height
(`fontSize + lineGap`) apart in `S32` arithmetic: line `k` is drawn at the `S32` value of
`y0 - k * (fontSize + lineGap)`, `y0` being the position of the first line, which is that
number itself whenever it lies in `[-2^31, 2^31)`.  It draws exactly
`visibleCount(composeFadeIn, composing)` lines, except that with `announcementActive`
and `head ≥ MAX_MESSAGES` it draws one line fewer (the oldest line of the window is left
out); when `visibleCount = 0` nothing is drawn. -/
theorem C26_render_draws_window (d : ChatMessageDisplayer)
    (fontSize fontGap scrollOffset anchorPos : Int) (helperFadeIn : ℚ)
    (composingMessage anouncementActive : Bool) (hU : d.mFirst < U32_MOD) :
    (render d fontSize fontGap scrollOffset anchorPos helperFadeIn composingMessage
        anouncementActive).length =
      d.getCountOfMessagesToDisplay helperFadeIn composingMessage -
        (if anouncementActive = true ∧ MAX_MESSAGES ≤ d.mFirst then 1 else 0) ∧
    (∃ y0 : Int, toS32 y0 = y0 ∧ ∀ k : Nat,
      k < (render d fontSize fontGap scrollOffset anchorPos helperFadeIn composingMessage
        anouncementActive).length →
      (render d fontSize fontGap scrollOffset anchorPos helperFadeIn composingMessage
          anouncementActive)[k]? =
        some { index := (d.mFirst - k) % MSG_SLOTS, str := (d.slotAt (d.mFirst - k)).str,
               color := (d.slotAt (d.mFirst - k)).color,
               y := toS32 (y0 - (k : Int) * (fontSize + fontGap)) }) ∧
    (∀ x : Int, -2147483648 ≤ x → x < 2147483648 → toS32 x = x) ∧
    (d.getCountOfMessagesToDisplay helperFadeIn composingMessage = 0 →
      render d fontSize fontGap scrollOffset anchorPos helperFadeIn composingMessage
        anouncementActive = []) := by
  have hv := visible_le_head d helperFadeIn composingMessage
  have hlast := u32Sub_of_le d.mFirst _ hv hU
  have hU2 : d.mFirst < 4294967296 := hU
  unfold render
  simp only [hlast]
  by_cases h0 : d.getCountOfMessagesToDisplay helperFadeIn composingMessage = 0
  · have he : d.mFirst = d.mFirst - d.getCountOfMessagesToDisplay helperFadeIn composingMessage := by
      omega
    rw [if_pos he]
    refine ⟨by simp [h0], ⟨0, rfl, fun k hk => absurd hk (by simp)⟩, toS32_of_range,
      fun _ => rfl⟩
  · have hne : ¬ (d.mFirst =
        d.mFirst - d.getCountOfMessagesToDisplay helperFadeIn composingMessage) := by omega
    rw [if_neg hne]
    refine ⟨?_, ?_, toS32_of_range, fun hc => absurd hc h0⟩
    · rw [renderLoop_length]
      simp only [MSG_SLOTS, MAX_MESSAGES, U32_MOD]
      cases anouncementActive
      · simp
        omega
      · simp only [if_true, true_and]
        split_ifs <;> omega
    · exact renderLoop_lines d _ _ _ _

/-- C26, witness: the three visible lines of five expired ones in `ShortFixed` mode,
drawn with font size 14 and line gap 3 below the anchor 100. -/
theorem C26_render_draws_window_witness :
    fiveExpired.toggleDisplayMode.mFirst < U32_MOD ∧
    fiveExpired.toggleDisplayMode.getCountOfMessagesToDisplay 0 false = 3 ∧
    (render fiveExpired.toggleDisplayMode 14 3 0 100 0 false false).map RenderedLine.y =
      [148, 131, 114] ∧
    ((render fiveExpired.toggleDisplayMode 14 3 0 100 0 false false).length =
        fiveExpired.toggleDisplayMode.getCountOfMessagesToDisplay 0 false -
          (if false = true ∧ MAX_MESSAGES ≤ fiveExpired.toggleDisplayMode.mFirst then 1 else 0) ∧
      (∃ y0 : Int, toS32 y0 = y0 ∧ ∀ k : Nat,
        k < (render fiveExpired.toggleDisplayMode 14 3 0 100 0 false false).length →
        (render fiveExpired.toggleDisplayMode 14 3 0 100 0 false false)[k]? =
          some { index := (fiveExpired.toggleDisplayMode.mFirst - k) % MSG_SLOTS,
                 str := (fiveExpired.toggleDisplayMode.slotAt
                   (fiveExpired.toggleDisplayMode.mFirst - k)).str,
                 color := (fiveExpired.toggleDisplayMode.slotAt
                   (fiveExpired.toggleDisplayMode.mFirst - k)).color,
                 y := toS32 (y0 - (k : Int) * (14 + 3)) }) ∧
      (∀ x : Int, -2147483648 ≤ x → x < 2147483648 → toS32 x = x) ∧
      (fiveExpired.toggleDisplayMode.getCountOfMessagesToDisplay 0 false = 0 →
        render fiveExpired.toggleDisplayMode 14 3 0 100 0 false false = [])) :=
  ⟨by decide, by decide, by decide,
    C26_render_draws_window fiveExpired.toggleDisplayMode 14 3 0 100 0 false false
      (by decide)⟩

/-- C26, counterexample: (1) a displayer holding twenty-four lines shows all of them
while composing (`visibleCount(0, true) = 24`), but with an announcement active `render`
issues only twenty-three text-draw calls; (2) with the anchor at 2147483608 the `S32`
position of the first of three lines wraps to -2147483640 and that of the second line to
2147483639, so these two lines are not one line-height (17) apart. -/
theorem C26_counterexample :
    (twentyFourFresh.mFirst = 24 ∧
      twentyFourFresh.getCountOfMessagesToDisplay 0 true = 24 ∧
      (render twentyFourFresh 14 3 0 100 0 true true).length = 23 ∧
      (render twentyFourFresh 14 3 0 100 0 true false).length = 24) ∧
    (render fiveExpired.toggleDisplayMode 14 3 0 2147483608 0 false false).map RenderedLine.y =
      [-2147483640, 2147483639, 2147483622] := by
  decide

/-! ## Index safety -/

theorem countLoopTrace_bound (d : ChatMessageDisplayer) (h : ℚ) (cm scr : Bool)
    (off i m sc : Nat) :
    (countLoopTrace d h cm scr off i m sc).length ≤ i ∧
    ∀ x, x ∈ countLoopTrace d h cm scr off i m sc → x < MSG_SLOTS := by
  induction i generalizing m sc with
  | zero => simp [countLoopTrace]
  | succ i ih =>
    have hlt : (i + 1) % MSG_SLOTS < MSG_SLOTS := Nat.mod_lt _ (by decide)
    simp only [countLoopTrace]
    split_ifs
    all_goals first
      | exact ⟨by simp, fun x hx => by simp at hx; rw [hx]; exact hlt⟩
      | (constructor
         · rw [List.length_cons]
           exact Nat.succ_le_succ (ih _ _).1
         · intro x hx
           rcases List.mem_cons.mp hx with e | e
           · rw [e]; exact hlt
           · exact (ih _ _).2 x e)

theorem countLoopTrace_length (d : ChatMessageDisplayer) (h : ℚ) (cm scr : Bool)
    (off i m sc : Nat) (hm : m < d.getNumberOfMessagesToShow cm ∨ i = 0) :
    countLoop d h cm scr off i m sc ≤ m + (countLoopTrace d h cm scr off i m sc).length := by
  induction i generalizing m sc with
  | zero => simp [countLoop, countLoopTrace]
  | succ i ih =>
    simp only [countLoop, countLoopTrace]
    split_ifs
    all_goals first
      | (simp only [List.length_cons, List.length_nil]; omega)
      | (rw [List.length_cons]
         have := ih (m + 1) sc (by omega)
         omega)
      | (rw [List.length_cons]
         have := ih (m + 1) (sc + 1) (by omega)
         omega)

/-- C27: every physical slot index used by `insertLine`, tick, `visibleCount` and
`render` lies in `[0, C)`, for every value of the head counter: `insertLine`,
`visibleCount` and `render` compute it as a logical position mod `C`, the tick runs its
loop variable from 0 up to `C`; and the backward walk in `visibleCount` ends after at
most `head` iterations. -/
theorem C27_index_safety (d : ChatMessageDisplayer) (helperFadeIn : ℚ)
    (composingMessage anouncementActive : Bool)
    (fontSize fontGap scrollOffset anchorPos : Int) (e : Nat) (line : String) (c : Color)
    (id : Nat) :
    (insertLineIndex d = ((d.mFirst + 1) % U32_MOD) % MSG_SLOTS ∧
      insertLineIndex d < MSG_SLOTS ∧
      (∀ k : Fin MSG_SLOTS, k.val ≠ insertLineIndex d →
        (insertLine e line c id d).mMessages k = d.mMessages k)) ∧
    (∀ x, x ∈ idleIndices → x < MSG_SLOTS) ∧
    (∀ x, x ∈ visibleTrace d helperFadeIn composingMessage → x < MSG_SLOTS) ∧
    (visibleTrace d helperFadeIn composingMessage).length ≤ d.mFirst ∧
    (∀ r, r ∈ render d fontSize fontGap scrollOffset anchorPos helperFadeIn composingMessage
        anouncementActive → r.index < MSG_SLOTS) ∧
    (∀ i : Nat, (slotIndex i).val = i % MSG_SLOTS ∧ (slotIndex i).val < MSG_SLOTS) := by
  have hidx : insertLineIndex d = ((d.mFirst + 1) % U32_MOD) % MSG_SLOTS := by
    unfold insertLineIndex
    rw [advanceFirst_mFirst]
  refine ⟨⟨hidx, ?_, ?_⟩, ?_, ?_, ?_, ?_, ?_⟩
  · rw [hidx]
    exact Nat.mod_lt _ (by decide)
  · intro k hk
    rw [insertLine_mMessages]
    apply Function.update_noteq
    intro hc
    apply hk
    rw [hidx, hc]
    rfl
  · intro x hx
    exact List.mem_range.mp hx
  · intro x hx
    unfold visibleTrace at hx
    split_ifs at hx
    · exact absurd hx (List.not_mem_nil _)
    · exact absurd hx (List.not_mem_nil _)
    · exact (countLoopTrace_bound d _ _ _ _ _ _ _).2 x hx
  · unfold visibleTrace
    split_ifs
    · simp
    · simp
    · exact (countLoopTrace_bound d _ _ _ _ _ _ _).1
  · intro r hr
    unfold render at hr
    simp only at hr
    split_ifs at hr
    all_goals first
      | exact absurd hr (List.not_mem_nil _)
      | exact renderLoop_index d _ _ _ _ r hr
  · intro i
    exact ⟨rfl, Nat.mod_lt _ (by decide)⟩

/-! ## The lifecycle of one slot -/

theorem lifecycle_fade_zero (m : ColorTimerString) (h : Lifecycle m) :
    m.timer.mCurrentCounter ≠ 0 → m.fadeTimer.mCurrentCounter = 0 := by
  induction h with
  | set m0 s u c time id => intro _; rfl
  | idle m dt _ ih =>
    rw [slot_idle_timer, slot_idle_fade]
    intro ht
    have hne : m.timer.mCurrentCounter ≠ 0 := by omega
    rw [if_neg (by omega), ih hne]
    exact Nat.zero_sub dt

theorem slot_idle_report_iff (m : ColorTimerString) (dt : Nat)
    (hf : m.timer.mCurrentCounter ≠ 0 → m.fadeTimer.mCurrentCounter = 0) :
    (m.idle dt).2 = true ↔
      (m.timer.mCurrentCounter ≠ 0 ∧ m.timer.mCurrentCounter ≤ dt ∧ m.usingFadeTimer = false) ∨
      (m.timer.mCurrentCounter = 0 ∧ m.fadeTimer.mCurrentCounter ≠ 0 ∧
        m.fadeTimer.mCurrentCounter ≤ dt) := by
  unfold ColorTimerString.idle Timer.update
  by_cases h0 : m.timer.mCurrentCounter = 0
  · by_cases f0 : m.fadeTimer.mCurrentCounter = 0
    · simp [h0, f0]
    · by_cases f1 : dt ≥ m.fadeTimer.mCurrentCounter
      · simp [h0, f0, f1]
      · simp [h0, f0, f1]
  · have f0 := hf h0
    by_cases h1 : dt ≥ m.timer.mCurrentCounter
    · cases hu : m.usingFadeTimer <;> simp [h0, h1, hu]
    · simp [h0, h1, f0]

/-- C31: for a slot in its lifecycle with remaining expiry `r > 0` and `timeDelta = d`:
if `d < r` the expiry timer becomes `r - d` and no expiry is reported; if `d ≥ r` the
expiry timer becomes 0 and, when fading is enabled, the fade timer is started at the full
constant `FADE_TIME = 100` whatever the overshoot `d - r` and expiry is not reported in
that tick, whereas when fading is disabled expiry is reported in that same tick.  For a
fading slot (expiry timer 0, fade remaining `f > 0`) expiry is reported exactly when
`d ≥ f`. -/
theorem C31_slot_lifecycle_step (m : ColorTimerString) (d : Nat) (hL : Lifecycle m) :
    (0 < m.timer.getCurrent → d < m.timer.getCurrent →
      (m.idle d).1.timer.getCurrent = m.timer.getCurrent - d ∧ (m.idle d).2 = false) ∧
    (0 < m.timer.getCurrent → m.timer.getCurrent ≤ d →
      (m.idle d).1.timer.getCurrent = 0 ∧
      (m.usingFadeTimer = true →
        (m.idle d).1.fadeTimer.getCurrent = FADE_TIME ∧ (m.idle d).2 = false) ∧
      (m.usingFadeTimer = false → (m.idle d).2 = true)) ∧
    (m.timer.getCurrent = 0 → 0 < m.fadeTimer.getCurrent →
      ((m.idle d).2 = true ↔ m.fadeTimer.getCurrent ≤ d)) := by
  have hf := lifecycle_fade_zero m hL
  have hrep := slot_idle_report_iff m d hf
  unfold Timer.getCurrent
  refine ⟨?_, ?_, ?_⟩
  · intro hr hd
    refine ⟨slot_idle_timer m d, ?_⟩
    cases hx : (m.idle d).2
    · rfl
    · rcases hrep.mp hx with h | h <;> omega
  · intro hr hd
    refine ⟨by rw [slot_idle_timer]; omega, ?_, ?_⟩
    · intro hu
      constructor
      · rw [slot_idle_fade, if_pos ⟨by omega, hd⟩, if_pos hu]
      · cases hx : (m.idle d).2
        · rfl
        · rcases hrep.mp hx with h | h
          · rw [hu] at h
            exact Bool.noConfusion h.2.2
          · omega
    · intro hu
      exact hrep.mpr (Or.inl ⟨by omega, hd, hu⟩)
  · intro ht hfd
    rw [hrep]
    constructor
    · rintro (h | h)
      · omega
      · exact h.2.2
    · intro h
      exact Or.inr ⟨ht, by omega, h⟩

/-- C31, witness: a slot set with fading and 7000 ms to live, ticked by 7300 ms. -/
theorem C31_slot_lifecycle_step_witness :
    Lifecycle fadingSlot ∧
    ((0 < fadingSlot.timer.getCurrent → 7300 < fadingSlot.timer.getCurrent →
        (fadingSlot.idle 7300).1.timer.getCurrent = fadingSlot.timer.getCurrent - 7300 ∧
        (fadingSlot.idle 7300).2 = false) ∧
      (0 < fadingSlot.timer.getCurrent → fadingSlot.timer.getCurrent ≤ 7300 →
        (fadingSlot.idle 7300).1.timer.getCurrent = 0 ∧
        (fadingSlot.usingFadeTimer = true →
          (fadingSlot.idle 7300).1.fadeTimer.getCurrent = FADE_TIME ∧
          (fadingSlot.idle 7300).2 = false) ∧
        (fadingSlot.usingFadeTimer = false → (fadingSlot.idle 7300).2 = true)) ∧
      (fadingSlot.timer.getCurrent = 0 → 0 < fadingSlot.fadeTimer.getCurrent →
        ((fadingSlot.idle 7300).2 = true ↔ fadingSlot.fadeTimer.getCurrent ≤ 7300))) ∧
    (fadingSlot.idle 7300).1.fadeTimer.getCurrent = 100 :=
  ⟨.set _ _ _ _ _ _, C31_slot_lifecycle_step fadingSlot 7300 (.set _ _ _ _ _ _), by decide⟩

theorem lifecycle_slotAfter (m : ColorTimerString) (ts : List Nat) (h : Lifecycle m) :
    Lifecycle (slotAfter m ts) := by
  induction ts generalizing m with
  | nil => exact h
  | cons dt rest ih => exact ih _ (.idle m dt h)

theorem slot_report_expires (m : ColorTimerString) (dt : Nat)
    (hf : m.timer.mCurrentCounter ≠ 0 → m.fadeTimer.mCurrentCounter = 0)
    (hr : (m.idle dt).2 = true) : (m.idle dt).1.messageHasExpired = true := by
  rw [slot_expired_iff, slot_idle_timer, slot_idle_fade]
  rcases (slot_idle_report_iff m dt hf).mp hr with ⟨h1, h2, h3⟩ | ⟨h1, h2, h3⟩
  · refine ⟨by omega, ?_⟩
    rw [if_pos ⟨h1, h2⟩, h3]
    exact hf h1
  · refine ⟨by omega, ?_⟩
    rw [if_neg (by omega)]
    omega

theorem slotReports_expired (m : ColorTimerString) (ts : List Nat)
    (h : m.messageHasExpired = true) : slotReports m ts = 0 := by
  induction ts with
  | nil => rfl
  | cons dt rest ih =>
    unfold slotReports
    rw [slot_idle_quiet m dt h]
    simpa using ih

theorem slotReports_le_one (m : ColorTimerString) (ts : List Nat) (h : Lifecycle m) :
    slotReports m ts ≤ 1 := by
  induction ts generalizing m with
  | nil => exact Nat.zero_le _
  | cons dt rest ih =>
    unfold slotReports
    by_cases hr : (m.idle dt).2 = true
    · rw [if_pos hr,
        slotReports_expired _ rest (slot_report_expires m dt (lifecycle_fade_zero m h) hr)]
    · rw [if_neg hr]
      have := ih _ (.idle m dt h)
      omega

/-- C37: over any sequence `ts` of per-slot ticks applied to a slot after `set()`,
`ColorTimerString::idle` returns true at most once; and whenever it returns true (after
any ticks `pre`), the slot is then fully expired (both timers 0) and every later tick on
it returns false and changes nothing. -/
theorem C37_slot_reports_at_most_once (m0 : ColorTimerString) (s : String)
    (useFadeTimer : Bool) (c : Color) (time id : Nat) (ts pre : List Nat) (dt : Nat) :
    slotReports (m0.set s useFadeTimer c time id) ts ≤ 1 ∧
    (((slotAfter (m0.set s useFadeTimer c time id) pre).idle dt).2 = true →
      ((slotAfter (m0.set s useFadeTimer c time id) pre).idle dt).1.timer.getCurrent = 0 ∧
      ((slotAfter (m0.set s useFadeTimer c time id) pre).idle dt).1.fadeTimer.getCurrent = 0 ∧
      ∀ later : Nat,
        ((slotAfter (m0.set s useFadeTimer c time id) pre).idle dt).1.idle later =
          (((slotAfter (m0.set s useFadeTimer c time id) pre).idle dt).1, false)) := by
  have hL : Lifecycle (m0.set s useFadeTimer c time id) := .set _ _ _ _ _ _
  refine ⟨slotReports_le_one _ ts hL, fun hr => ?_⟩
  have hx := slot_report_expires _ dt
    (lifecycle_fade_zero _ (lifecycle_slotAfter _ pre hL)) hr
  have hx2 := (slot_expired_iff _).mp hx
  exact ⟨hx2.1, hx2.2, fun later => slot_idle_quiet _ later hx⟩

/-- C37, witness: a fading slot ticked by 7000 ms and then by 100 ms reports on the
second of these ticks, once over the whole sequence. -/
theorem C37_slot_reports_at_most_once_witness :
    slotReports fadingSlot [7000, 100, 50, 7000] = 1 ∧
    ((slotAfter fadingSlot [7000]).idle 100).2 = true ∧
    (slotReports fadingSlot [7000, 100, 50, 7000] ≤ 1 ∧
      (((slotAfter fadingSlot [7000]).idle 100).2 = true →
        ((slotAfter fadingSlot [7000]).idle 100).1.timer.getCurrent = 0 ∧
        ((slotAfter fadingSlot [7000]).idle 100).1.fadeTimer.getCurrent = 0 ∧
        ∀ later : Nat,
          ((slotAfter fadingSlot [7000]).idle 100).1.idle later =
            (((slotAfter fadingSlot [7000]).idle 100).1, false))) :=
  ⟨by decide, by decide,
    C37_slot_reports_at_most_once ⟨"", ⟨0, 0, 0⟩, 0, ⟨0, 0⟩, false, ⟨0, 0⟩⟩ "a" true
      ⟨255, 255, 255⟩ 7000 0 [7000, 100, 50, 7000] [7000] 100⟩

/-! ## Tick accounting -/

theorem idle_mNextGroupId (d : ChatMessageDisplayer) (dt : Nat) (cm : Bool) :
    (d.idle dt cm).mNextGroupId = d.mNextGroupId := by
  unfold idle; exact (idleLoop_frame _ _ _ _).2.2.2.2.2

/-- C35, amended: for every state whose tail counter is a `U32` value,
`tick(timeDelta, composing)` sets tail to `(tail + R) mod 2^32`, where `R` is the number of
physical slots (live or not) whose per-slot step reports expiry in that tick, so tail
advances by exactly `R` whenever `tail + R < 2^32`; and the tick changes neither head,
full, the display mode, the group-id counter, nor any slot's text, color or group id. -/
theorem C35_tick_accounting (d : ChatMessageDisplayer) (timeDelta : Nat) (composing : Bool)
    (hU : d.mLast < U32_MOD) :
    (d.idle timeDelta composing).mLast = (d.mLast + tickReports d timeDelta) % U32_MOD ∧
    (d.mLast + tickReports d timeDelta < U32_MOD →
      (d.idle timeDelta composing).mLast = d.mLast + tickReports d timeDelta) ∧
    (d.idle timeDelta composing).mFirst = d.mFirst ∧
    (d.idle timeDelta composing).mFull = d.mFull ∧
    (d.idle timeDelta composing).mDisplayMode = d.mDisplayMode ∧
    (d.idle timeDelta composing).mNextGroupId = d.mNextGroupId ∧
    ∀ k, ((d.idle timeDelta composing).mMessages k).str = (d.mMessages k).str ∧
      ((d.idle timeDelta composing).mMessages k).color = (d.mMessages k).color ∧
      ((d.idle timeDelta composing).mMessages k).groupId = (d.mMessages k).groupId := by
  have h1 : (d.idle timeDelta composing).mLast =
      (d.mLast + tickReports d timeDelta) % U32_MOD := by
    rw [idle_mLast]
    split_ifs with h0
    · rw [h0, Nat.add_zero, Nat.mod_eq_of_lt hU]
    · rfl
  refine ⟨h1, fun hlt => by rw [h1, Nat.mod_eq_of_lt hlt], idle_mFirst _ _ _, idle_mFull _ _ _,
    idle_mDisplayMode _ _ _, idle_mNextGroupId _ _ _, fun k => ?_⟩
  rw [idle_mMessages]
  have := slot_idle_content (d.mMessages k) timeDelta
  exact ⟨this.1, this.2.1, this.2.2.1⟩

/-- C35, witness: the tick that expires the only line of `oneFresh`. -/
theorem C35_tick_accounting_witness :
    oneFresh.mLast < U32_MOD ∧ tickReports oneFresh 7000 = 1 ∧
    ((oneFresh.idle 7000 false).mLast = (oneFresh.mLast + tickReports oneFresh 7000) % U32_MOD ∧
    (oneFresh.mLast + tickReports oneFresh 7000 < U32_MOD →
      (oneFresh.idle 7000 false).mLast = oneFresh.mLast + tickReports oneFresh 7000) ∧
    (oneFresh.idle 7000 false).mFirst = oneFresh.mFirst ∧
    (oneFresh.idle 7000 false).mFull = oneFresh.mFull ∧
    (oneFresh.idle 7000 false).mDisplayMode = oneFresh.mDisplayMode ∧
    (oneFresh.idle 7000 false).mNextGroupId = oneFresh.mNextGroupId ∧
    ∀ k, ((oneFresh.idle 7000 false).mMessages k).str = (oneFresh.mMessages k).str ∧
      ((oneFresh.idle 7000 false).mMessages k).color = (oneFresh.mMessages k).color ∧
      ((oneFresh.idle 7000 false).mMessages k).groupId = (oneFresh.mMessages k).groupId) :=
  ⟨by decide, by decide, C35_tick_accounting oneFresh 7000 false (by decide)⟩

/-- C35, counterexample: with the tail counter at the largest `U32` value and one live
line, the tick in which that line reports expiry moves tail from 4294967295 to 0, not to
`tail + 1`. -/
theorem C35_counterexample :
    tailAtMax.mLast = 4294967295 ∧ tickReports tailAtMax 7000 = 1 ∧
    (tailAtMax.idle 7000 false).mLast = 0 ∧
    (tailAtMax.idle 7000 false).mLast ≠ tailAtMax.mLast + tickReports tailAtMax 7000 := by
  decide

/-! ## The full flag -/

theorem insertLine_mFull_of_true (e : Nat) (line : String) (c : Color) (id : Nat)
    (d : ChatMessageDisplayer) (h : d.mFull = true) :
    (insertLine e line c id d).mFull = true := by
  rw [insertLine_mFull, advanceFirst_mFull, h]
  split <;> rfl

theorem insertLines_mFull_of_true (e : Nat) (c : Color) (id : Nat) (lines : List String)
    (d : ChatMessageDisplayer) (h : d.mFull = true) :
    (insertLines e c id lines d).mFull = true := by
  induction lines generalizing d with
  | nil => exact h
  | cons l ls ih => exact ih _ (insertLine_mFull_of_true e l c id d h)

theorem applyOp_mFull_of_true (e : Nat) (d : ChatMessageDisplayer) (op : Op)
    (h : d.mFull = true) : (applyOp e d op).mFull = true := by
  cases op with
  | insert line c id => exact insertLine_mFull_of_true e line c id d h
  | receive c lines =>
    show (onChatMessageReceived e c lines d).mFull = true
    rw [(onChatMessageReceived_frame e c lines d).2.2.1]
    exact insertLines_mFull_of_true e c _ lines d h
  | tick dt cm =>
    show (d.idle dt cm).mFull = true
    rw [idle_mFull]; exact h
  | toggle => exact h

theorem applyOps_mFull_of_true (e : Nat) (ops : List Op) (d : ChatMessageDisplayer)
    (h : d.mFull = true) : (applyOps e ops d).mFull = true := by
  induction ops generalizing d with
  | nil => exact h
  | cons op rest ih => exact ih _ (applyOp_mFull_of_true e d op h)

/-- C38: once the full flag is true it remains true through every later sequence of
`insertLine`, `onChatMessageReceived`, tick and `toggleDisplayMode` calls, whatever has
expired meanwhile, and `reset()` clears it; and the scroll allowance of a bottom-anchored
buffer whose scroll timer runs is 1 when the flag is set and 0 otherwise, so it depends
on whether the buffer has overflowed since the last reset, not on its occupancy. -/
theorem C38_full_flag_sticky (expireTime : Nat) (d : ChatMessageDisplayer) (ops : List Op) :
    (d.mFull = true → (applyOps expireTime ops d).mFull = true) ∧
    d.reset.mFull = false ∧
    (d.mTopDown = false → d.isScrolling = true →
      d.messagesBeingScrolledOff = if d.mFull then 1 else 0) := by
  refine ⟨applyOps_mFull_of_true expireTime ops d, reset_mFull d, fun htd hs => ?_⟩
  unfold messagesBeingScrolledOff
  rw [if_pos hs, htd]
  rfl

/-- C38, witness: a bottom-anchored buffer that overflowed on its 25th line; after every
line has expired and faded, a toggle and one more line, the flag is still set. -/
theorem C38_full_flag_sticky_witness :
    overflowedBottomUp.mFull = true ∧
    (∀ k, ((applyOps 7000 [.tick 7000 false, .tick 100 false] overflowedBottomUp).mMessages
      k).messageHasExpired = true) ∧
    ((overflowedBottomUp.mFull = true →
      (applyOps 7000 [.tick 7000 false, .tick 100 false, .toggle, .insert "b" ⟨0, 0, 0⟩ 1]
        overflowedBottomUp).mFull = true) ∧
    overflowedBottomUp.reset.mFull = false ∧
    (overflowedBottomUp.mTopDown = false → overflowedBottomUp.isScrolling = true →
      overflowedBottomUp.messagesBeingScrolledOff =
        if overflowedBottomUp.mFull then 1 else 0)) :=
  ⟨by decide, by decide,
    C38_full_flag_sticky 7000 overflowedBottomUp
      [.tick 7000 false, .tick 100 false, .toggle, .insert "b" ⟨0, 0, 0⟩ 1]⟩

/-! ## Two ticks against one, without fade -/

theorem countP_split {α : Type} (l : List α) (p p1 p2 : α → Bool)
    (h : ∀ x ∈ l, (p x = true ↔ p1 x = true ∨ p2 x = true) ∧ ¬ (p1 x = true ∧ p2 x = true)) :
    l.countP p = l.countP p1 + l.countP p2 := by
  induction l with
  | nil => rfl
  | cons x xs ih =>
    have hx := h x (List.mem_cons_self _ _)
    have ih2 := ih (fun y hy => h y (List.mem_cons_of_mem _ hy))
    rw [List.countP_cons, List.countP_cons, List.countP_cons, ih2]
    cases h1 : p1 x <;> cases h2 : p2 x <;> cases h0 : p x <;> simp_all <;> omega

theorem slot_nofade_facts (m : ColorTimerString) (h : SlotFadeOk true m) :
    m.fadeTimer.mCurrentCounter = 0 ∧
    (m.timer.mCurrentCounter ≠ 0 → m.usingFadeTimer = false) := by
  refine ⟨?_, fun ht => by simpa using (h.1 ht).1⟩
  by_contra hne
  exact Bool.noConfusion (h.2 hne).2

theorem slot_nofade_report (m : ColorTimerString) (dt : Nat) (h : SlotFadeOk true m) :
    (m.idle dt).2 = true ↔ m.timer.mCurrentCounter ≠ 0 ∧ m.timer.mCurrentCounter ≤ dt := by
  have hf := slot_nofade_facts m h
  rw [slot_idle_report_iff m dt (fun _ => hf.1)]
  constructor
  · rintro (⟨h1, h2, _⟩ | ⟨_, h2, _⟩)
    · exact ⟨h1, h2⟩
    · exact absurd hf.1 h2
  · rintro ⟨h1, h2⟩
    exact Or.inl ⟨h1, h2, hf.2 h1⟩

theorem tickReports_add (st : Nat) (d : ChatMessageDisplayer) (a b : Nat) (cm : Bool)
    (h : ConfigInv st true d) :
    tickReports d (a + b) = tickReports d a + tickReports (d.idle a cm) b := by
  unfold tickReports expiryReports
  apply countP_split
  intro k _
  have hk := h.2.2 k
  have hk2 : SlotFadeOk true ((d.idle a cm).mMessages k) :=
    (configInv_idle st true d a cm h).2.2 k
  rw [slot_nofade_report _ _ hk, slot_nofade_report _ _ hk, slot_nofade_report _ _ hk2,
    idle_mMessages, slot_idle_timer]
  omega

/-- C39: for every reachable state of a top-anchored (fade-disabled) buffer and all `a`,
`b`, a tick by `a` followed by a tick by `b` yields the same head, tail, full flag and
per-slot expiry and fade timers as the single tick by `a + b`, whatever the composing
flags of the three ticks. -/
theorem C39_tick_additivity (expireTime scrollTime : Nat) (msgCount : Int)
    (d : ChatMessageDisplayer) (a b : Nat) (cm1 cm2 cm3 : Bool)
    (hR : Reachable expireTime scrollTime msgCount true d) :
    ((d.idle a cm1).idle b cm2).mFirst = (d.idle (a + b) cm3).mFirst ∧
    ((d.idle a cm1).idle b cm2).mLast = (d.idle (a + b) cm3).mLast ∧
    ((d.idle a cm1).idle b cm2).mFull = (d.idle (a + b) cm3).mFull ∧
    ∀ k, (((d.idle a cm1).idle b cm2).mMessages k).timer.getCurrent =
        ((d.idle (a + b) cm3).mMessages k).timer.getCurrent ∧
      (((d.idle a cm1).idle b cm2).mMessages k).fadeTimer.getCurrent =
        ((d.idle (a + b) cm3).mMessages k).fadeTimer.getCurrent := by
  have hC := configInv_of_reachable expireTime scrollTime msgCount true d hR
  refine ⟨by simp only [idle_mFirst], ?_, by simp only [idle_mFull], fun k => ?_⟩
  · rw [idle_mLast, idle_mLast, idle_mLast, tickReports_add scrollTime d a b cm1 hC]
    generalize tickReports d a = r1
    generalize tickReports (d.idle a cm1) b = r2
    simp only [U32_MOD]
    split_ifs <;> omega
  · have h2 := slot_nofade_facts _ ((configInv_idle scrollTime true _ b cm2
      (configInv_idle scrollTime true d a cm1 hC)).2.2 k)
    have h1 := slot_nofade_facts _ ((configInv_idle scrollTime true d (a + b) cm3 hC).2.2 k)
    unfold Timer.getCurrent
    refine ⟨?_, by rw [h2.1, h1.1]⟩
    simp only [idle_mMessages, slot_idle_timer]
    omega

/-- C39, witness: the single line of `oneFresh` expires in the second of two ticks by
3 s and 4 s, as it does in one tick by 7 s. -/
theorem C39_tick_additivity_witness :
    Reachable 7000 100 5 true oneFresh ∧
    ((oneFresh.idle 3000 false).idle 4000 false).mLast = 1 ∧
    (((oneFresh.idle 3000 false).idle 4000 false).mFirst =
      (oneFresh.idle (3000 + 4000) false).mFirst ∧
    ((oneFresh.idle 3000 false).idle 4000 false).mLast =
      (oneFresh.idle (3000 + 4000) false).mLast ∧
    ((oneFresh.idle 3000 false).idle 4000 false).mFull =
      (oneFresh.idle (3000 + 4000) false).mFull ∧
    ∀ k, (((oneFresh.idle 3000 false).idle 4000 false).mMessages k).timer.getCurrent =
        ((oneFresh.idle (3000 + 4000) false).mMessages k).timer.getCurrent ∧
      (((oneFresh.idle 3000 false).idle 4000 false).mMessages k).fadeTimer.getCurrent =
        ((oneFresh.idle (3000 + 4000) false).mMessages k).fadeTimer.getCurrent) :=
  ⟨.insert _ _ _ _ .init, by decide,
    C39_tick_additivity 7000 100 5 oneFresh 3000 4000 false false false
      (.insert _ _ _ _ .init)⟩

/-! ## The walk while the scroll timer runs -/

theorem countLoop_scrolling (d : ChatMessageDisplayer) (h : ℚ) (off : Nat)
    (hh : h ≤ 0) (hmode : d.mDisplayMode = .ShortTimeout)
    (i m sc : Nat) (hsc : sc ≤ off) :
    countLoop d h false true off i m sc =
      m + min (max 1 (d.getNumberOfMessagesToShow false - m)) (allowanceRun d i (off - sc)) := by
  have hnot : (!(false || decide (h > 0) || decide (d.mDisplayMode ≠ .ShortTimeout))) = true := by
    have : ¬ (h > 0) := not_lt.mpr hh
    simp [hmode, this]
  induction i generalizing m sc with
  | zero => simp only [countLoop, allowanceRun]; omega
  | succ i ih =>
    simp only [countLoop, allowanceRun, hnot, Bool.and_true, Bool.not_true, Bool.and_false]
    cases hx : (d.slotAt (i + 1)).messageHasExpired
    · simp only [Bool.false_eq_true, if_false, Bool.false_and]
      split_ifs with h1
      · omega
      · rw [ih _ _ hsc]
        omega
    · simp only [if_true, Bool.true_and, decide_eq_true_eq, Bool.false_eq_true, if_false]
      by_cases h0 : sc + 1 > off
      · rw [if_pos h0]
        have : off - sc = 0 := by omega
        rw [this]
        simp
      · rw [if_neg h0]
        obtain ⟨a, ha⟩ : ∃ a, off - sc = a + 1 := ⟨off - sc - 1, by omega⟩
        rw [ha]
        simp only
        split_ifs with h1
        · omega
        · rw [ih _ _ (by omega), show off - (sc + 1) = a by omega]
          omega

theorem expiredAmong_le (d : ChatMessageDisplayer) (i k allow : Nat)
    (h : k ≤ allowanceRun d i allow) : expiredAmong d i k ≤ allow := by
  induction i generalizing k allow with
  | zero => simp [expiredAmong]
  | succ i ih =>
    cases k with
    | zero => simp [expiredAmong]
    | succ k =>
      simp only [allowanceRun] at h
      simp only [expiredAmong]
      cases hx : (d.slotAt (i + 1)).messageHasExpired
      · rw [hx] at h
        simp only [Bool.false_eq_true, if_false] at h ⊢
        have := ih k allow (by omega)
        omega
      · rw [hx] at h
        simp only [if_true] at h ⊢
        cases allow with
        | zero => simp at h
        | succ a =>
          simp only at h
          have := ih k a (by omega)
          omega

theorem countLoop_no_allowance (d : ChatMessageDisplayer) (h : ℚ) (cm : Bool)
    (off i m sc sc2 : Nat) :
    countLoop d h cm true 0 i m sc = countLoop d h cm false off i m sc2 := by
  induction i generalizing m sc sc2 with
  | zero => rfl
  | succ i ih =>
    simp only [countLoop]
    cases hx : ((d.slotAt (i + 1)).messageHasExpired &&
      !(cm || decide (h > 0) || decide (d.mDisplayMode ≠ .ShortTimeout)))
    · simp only [Bool.false_and, Bool.false_eq_true, if_false]
      split_ifs
      · rfl
      · exact ih _ _ _
    · simp

theorem countLoop_congr (d d2 : ChatMessageDisplayer) (h : ℚ) (cm scr : Bool)
    (off i m sc : Nat) (hs : d2.mMessages = d.mMessages)
    (hm : d2.mDisplayMode = d.mDisplayMode)
    (hn : d2.mMessagesToShowInShortMode = d.mMessagesToShowInShortMode) :
    countLoop d2 h cm scr off i m sc = countLoop d h cm scr off i m sc := by
  have hn2 : d2.getNumberOfMessagesToShow cm = d.getNumberOfMessagesToShow cm := by
    unfold getNumberOfMessagesToShow; rw [hm, hn]
  have hs2 : ∀ j, d2.slotAt j = d.slotAt j := fun j => by unfold slotAt; rw [hs]
  induction i generalizing m sc with
  | zero => rfl
  | succ i ih =>
    simp only [countLoop, hs2, hm, hn2, ih]

theorem visible_stopScroll (d : ChatMessageDisplayer) (h : ℚ) (cm : Bool) :
    (stopScroll d).getCountOfMessagesToDisplay h cm =
      if d.mFirst = 0 then 0
      else if h > 0 then min MAX_MESSAGES d.mFirst
      else countLoop d h cm false 0 d.mFirst 0 0 := by
  unfold getCountOfMessagesToDisplay
  have h1 : (stopScroll d).isScrolling = false := by
    simp [stopScroll, isScrolling, Timer.clear, Timer.getCurrent]
  have h2 : (stopScroll d).messagesBeingScrolledOff = 0 := by
    unfold messagesBeingScrolledOff; rw [h1]; rfl
  rw [h1, h2, countLoop_congr d (stopScroll d) h cm false 0 _ 0 0 rfl rfl rfl]
  rfl

theorem visible_scrolling (d : ChatMessageDisplayer) (helperFadeIn : ℚ)
    (hh : helperFadeIn ≤ 0) (hmode : d.mDisplayMode = .ShortTimeout)
    (hs : d.isScrolling = true) :
    d.getCountOfMessagesToDisplay helperFadeIn false =
      min (max 1 (d.getNumberOfMessagesToShow false))
        (allowanceRun d d.mFirst d.messagesBeingScrolledOff) := by
  unfold getCountOfMessagesToDisplay
  by_cases h0 : d.mFirst = 0
  · rw [if_pos h0, h0]
    simp [allowanceRun]
  · rw [if_neg h0, if_neg (not_lt.mpr hh), hs,
      countLoop_scrolling d helperFadeIn _ hh hmode _ 0 0 (Nat.zero_le _)]
    simp

/-- C32, as amended: in `ShortTimeout` mode with `composing = false` and
`helperFadeIn ≤ 0` while the scroll timer is running, `extraSlotsForScroll` is 1 if the
buffer is top-anchored or (bottom-anchored and full) and 0 otherwise; when
`numberToShow ≥ 1`, the walk from head downward stops at the
`(extraSlotsForScroll + 1)`-th fully expired slot it meets, or when the count reaches
`numberToShow`, or at logical position 0, whichever comes first; at most
`extraSlotsForScroll` fully expired slots are among the counted ones; and in a
bottom-anchored buffer whose full flag is false the result equals that of the same state
with the scroll timer at 0. -/
theorem C32_scroll_allowance (d : ChatMessageDisplayer) (helperFadeIn : ℚ)
    (hh : helperFadeIn ≤ 0) (hmode : d.mDisplayMode = .ShortTimeout)
    (hs : d.isScrolling = true) :
    d.messagesBeingScrolledOff =
      (if d.mTopDown = true ∨ (d.mTopDown = false ∧ d.mFull = true) then 1 else 0) ∧
    (1 ≤ d.getNumberOfMessagesToShow false →
      d.getCountOfMessagesToDisplay helperFadeIn false =
        min (d.getNumberOfMessagesToShow false)
          (allowanceRun d d.mFirst d.messagesBeingScrolledOff)) ∧
    expiredAmong d d.mFirst (d.getCountOfMessagesToDisplay helperFadeIn false) ≤
      d.messagesBeingScrolledOff ∧
    (d.mTopDown = false → d.mFull = false →
      d.getCountOfMessagesToDisplay helperFadeIn false =
        (stopScroll d).getCountOfMessagesToDisplay helperFadeIn false) := by
  have hv := visible_scrolling d helperFadeIn hh hmode hs
  refine ⟨?_, ?_, ?_, ?_⟩
  · unfold messagesBeingScrolledOff
    rw [if_pos hs]
    cases d.mTopDown <;> cases d.mFull <;> simp
  · intro hn
    rw [hv, Nat.max_eq_right hn]
  · apply expiredAmong_le
    rw [hv]
    exact Nat.min_le_right _ _
  · intro htd hf
    have hoff : d.messagesBeingScrolledOff = 0 := by
      unfold messagesBeingScrolledOff
      rw [if_pos hs, htd, hf]
      rfl
    rw [visible_stopScroll]
    unfold getCountOfMessagesToDisplay
    rw [hs, hoff, countLoop_no_allowance d helperFadeIn false 0 d.mFirst 0 0 0]

/-- C32, witness: a top-anchored buffer with short count 5 whose three oldest lines
expired together and whose two newest are fresh, while the scroll timer runs: the walk
counts the two fresh lines and one expired line. -/
theorem C32_scroll_allowance_witness :
    threeExpiredTwoFresh.getNumberOfMessagesToShow false = 5 ∧
    threeExpiredTwoFresh.getCountOfMessagesToDisplay 0 false = 3 ∧
    (stopScroll threeExpiredTwoFresh).getCountOfMessagesToDisplay 0 false = 2 ∧
    (threeExpiredTwoFresh.messagesBeingScrolledOff =
      (if threeExpiredTwoFresh.mTopDown = true ∨
        (threeExpiredTwoFresh.mTopDown = false ∧ threeExpiredTwoFresh.mFull = true)
       then 1 else 0) ∧
    (1 ≤ threeExpiredTwoFresh.getNumberOfMessagesToShow false →
      threeExpiredTwoFresh.getCountOfMessagesToDisplay 0 false =
        min (threeExpiredTwoFresh.getNumberOfMessagesToShow false)
          (allowanceRun threeExpiredTwoFresh threeExpiredTwoFresh.mFirst
            threeExpiredTwoFresh.messagesBeingScrolledOff)) ∧
    expiredAmong threeExpiredTwoFresh threeExpiredTwoFresh.mFirst
        (threeExpiredTwoFresh.getCountOfMessagesToDisplay 0 false) ≤
      threeExpiredTwoFresh.messagesBeingScrolledOff ∧
    (threeExpiredTwoFresh.mTopDown = false → threeExpiredTwoFresh.mFull = false →
      threeExpiredTwoFresh.getCountOfMessagesToDisplay 0 false =
        (stopScroll threeExpiredTwoFresh).getCountOfMessagesToDisplay 0 false)) :=
  ⟨by decide, by decide, by decide,
    C32_scroll_allowance threeExpiredTwoFresh 0 (le_refl 0) (by decide) (by decide)⟩

/-- C32, counterexample: a bottom-anchored displayer constructed with a short count of 0
that has just received one line, in `ShortTimeout` mode with the scroll timer running:
`numberToShow(false) = 0`, so the count has reached the limit before any slot is
counted, yet the walk counts the fresh line and returns 1. -/
theorem C32_counterexample :
    zeroShortScrolling.mDisplayMode = .ShortTimeout ∧
    zeroShortScrolling.isScrolling = true ∧
    zeroShortScrolling.getNumberOfMessagesToShow false = 0 ∧
    zeroShortScrolling.getCountOfMessagesToDisplay 0 false = 1 ∧
    zeroShortScrolling.getCountOfMessagesToDisplay 0 false ≠
      min (zeroShortScrolling.getNumberOfMessagesToShow false)
        (allowanceRun zeroShortScrolling zeroShortScrolling.mFirst
          zeroShortScrolling.messagesBeingScrolledOff) := by
  decide

theorem allowanceRun_zero (d : ChatMessageDisplayer) (i : Nat) :
    allowanceRun d i 0 = unexpiredRun d i := by
  induction i with
  | zero => rfl
  | succ i ih =>
    simp only [allowanceRun, unexpiredRun, ih]

theorem unexpiredRun_le (d : ChatMessageDisplayer) (i : Nat) : unexpiredRun d i ≤ i := by
  induction i with
  | zero => simp [unexpiredRun]
  | succ i ih =>
    simp only [unexpiredRun]
    split_ifs <;> omega

theorem unexpiredRun_stop (d : ChatMessageDisplayer) (i : Nat) (h : unexpiredRun d i < i) :
    (d.slotAt (i - unexpiredRun d i)).messageHasExpired = true := by
  induction i with
  | zero => exact absurd h (Nat.lt_irrefl _)
  | succ i ih =>
    simp only [unexpiredRun] at h ⊢
    by_cases hx : (d.slotAt (i + 1)).messageHasExpired = true
    · rw [if_pos hx]; exact hx
    · rw [if_neg hx] at h ⊢
      rw [show i + 1 - (unexpiredRun d i + 1) = i - unexpiredRun d i by omega]
      exact ih (by omega)

theorem allowanceRun_succ (d : ChatMessageDisplayer) (i a : Nat) :
    allowanceRun d i (a + 1) =
      unexpiredRun d i +
        (if unexpiredRun d i = i then 0
         else 1 + allowanceRun d (i - unexpiredRun d i - 1) a) := by
  induction i with
  | zero => rfl
  | succ i ih =>
    simp only [allowanceRun, unexpiredRun]
    by_cases hx : (d.slotAt (i + 1)).messageHasExpired = true
    · rw [if_pos hx, if_pos hx, if_neg (by omega)]
      simp only [Nat.sub_zero, Nat.add_sub_cancel]
      omega
    · rw [if_neg hx, if_neg hx, ih]
      have := unexpiredRun_le d i
      by_cases hu : unexpiredRun d i = i
      · rw [if_pos hu, if_pos (by omega)]
      · rw [if_neg hu, if_neg (by omega),
          show i + 1 - (unexpiredRun d i + 1) - 1 = i - unexpiredRun d i - 1 by omega]
        omega

theorem ageOrdered_expired (d : ChatMessageDisplayer) (h : AgeOrdered d) (i j : Nat)
    (h1 : 1 ≤ i) (h2 : i < j) (h3 : j ≤ d.mFirst) (h4 : d.mFirst < i + MSG_SLOTS)
    (hj : (d.slotAt j).messageHasExpired = true) : (d.slotAt i).messageHasExpired = true := by
  rw [slot_expired_iff] at hj ⊢
  have := h i j h1 h2 h3 h4
  have h5 := this.2 hj.1
  omega

theorem unexpiredRun_expired (d : ChatMessageDisplayer) (i : Nat) (h1 : 1 ≤ i)
    (hx : (d.slotAt i).messageHasExpired = true) : unexpiredRun d i = 0 := by
  obtain ⟨k, rfl⟩ : ∃ k, i = k + 1 := ⟨i - 1, by omega⟩
  simp [unexpiredRun, hx]

/-- While the age order holds and fewer than `MAX_MESSAGES` unexpired slots lead the
walk, an allowance of one adds at most the first fully expired slot. -/
theorem allowanceRun_one (d : ChatMessageDisplayer) (h : AgeOrdered d)
    (hu : unexpiredRun d d.mFirst < MAX_MESSAGES) :
    allowanceRun d d.mFirst 1 ≤ unexpiredRun d d.mFirst + 1 := by
  rw [allowanceRun_succ, allowanceRun_zero]
  have hle := unexpiredRun_le d d.mFirst
  split_ifs with h0
  · omega
  · have hstop := unexpiredRun_stop d d.mFirst (by omega)
    simp only [MAX_MESSAGES] at hu
    by_cases hq : d.mFirst - unexpiredRun d d.mFirst - 1 = 0
    · rw [hq]; simp [unexpiredRun]
    · have hx : (d.slotAt (d.mFirst - unexpiredRun d d.mFirst - 1)).messageHasExpired = true :=
        ageOrdered_expired d h _ (d.mFirst - unexpiredRun d d.mFirst) (by omega) (by omega)
          (by omega) (by simp only [MSG_SLOTS, MAX_MESSAGES]; omega) hstop
      have hz := unexpiredRun_expired d (d.mFirst - unexpiredRun d d.mFirst - 1) (by omega) hx
      omega

theorem unexpiredRun_le_allowanceRun (d : ChatMessageDisplayer) (i a : Nat) :
    unexpiredRun d i ≤ allowanceRun d i a := by
  cases a with
  | zero => rw [allowanceRun_zero]
  | succ a => rw [allowanceRun_succ]; omega

/-- C33: for every state reachable from reset by inserts and ticks, with
`1 ≤ shortCount ≤ MAX_MESSAGES`, `helperFadeIn ≤ 0` and either composing value,
`visibleCount` (in particular with the scroll timer running) is at least, and at most one
more than, the value it has in the otherwise identical state with the scroll timer at 0. -/
theorem C33_scrolling_adds_at_most_one (expireTime : Nat) (d0 d : ChatMessageDisplayer)
    (helperFadeIn : ℚ) (composing : Bool) (hR : ReachableIT expireTime d0 d)
    (h1 : 1 ≤ d.mMessagesToShowInShortMode)
    (h2 : d.mMessagesToShowInShortMode ≤ MAX_MESSAGES) (hh : helperFadeIn ≤ 0) :
    (stopScroll d).getCountOfMessagesToDisplay helperFadeIn composing ≤
      d.getCountOfMessagesToDisplay helperFadeIn composing ∧
    d.getCountOfMessagesToDisplay helperFadeIn composing ≤
      (stopScroll d).getCountOfMessagesToDisplay helperFadeIn composing + 1 := by
  have hage := (ageInv_of_reachable expireTime d0 d hR).2.2
  have hn : 1 ≤ d.getNumberOfMessagesToShow composing ∧
      d.getNumberOfMessagesToShow composing ≤ MAX_MESSAGES := by
    unfold getNumberOfMessagesToShow
    have := toU32_of_s32 d.mMessagesToShowInShortMode (by omega)
      (by simp only [MAX_MESSAGES] at h2; omega)
    simp only [MAX_MESSAGES] at h2 ⊢
    split_ifs <;> omega
  rw [visible_stopScroll]
  unfold getCountOfMessagesToDisplay
  by_cases h0 : d.mFirst = 0
  · simp [h0]
  rw [if_neg h0, if_neg h0, if_neg (not_lt.mpr hh), if_neg (not_lt.mpr hh)]
  by_cases hshow : composing = true ∨ d.mDisplayMode ≠ .ShortTimeout
  · rw [countLoop_showing d helperFadeIn composing _ _ hshow _ 0 0 (by omega),
      countLoop_showing d helperFadeIn composing _ _ hshow _ 0 0 (by omega)]
    omega
  · have hc : composing = false := by
      cases composing
      · rfl
      · exact absurd (Or.inl rfl) hshow
    have hmode : d.mDisplayMode = .ShortTimeout := by
      by_contra hne
      exact hshow (Or.inr hne)
    subst hc
    rw [countLoop_still d helperFadeIn 0 hh hmode _ 0 0 (by omega)]
    cases hs : d.isScrolling
    · rw [countLoop_still d helperFadeIn _ hh hmode _ 0 0 (by omega)]
      omega
    · rw [countLoop_scrolling d helperFadeIn _ hh hmode _ 0 0 (Nat.zero_le _)]
      have hlow := unexpiredRun_le_allowanceRun d d.mFirst (d.messagesBeingScrolledOff - 0)
      have hoff : d.messagesBeingScrolledOff - 0 = 0 ∨ d.messagesBeingScrolledOff - 0 = 1 := by
        unfold messagesBeingScrolledOff
        split_ifs <;> simp
      rcases hoff with ho | ho
      · rw [ho, allowanceRun_zero]
        omega
      · rw [ho] at hlow ⊢
        by_cases hu : unexpiredRun d d.mFirst < MAX_MESSAGES
        · have := allowanceRun_one d hage hu
          omega
        · omega

/-- C33, witness: one expired and two fresh lines in a top-anchored buffer with short
count 5: three lines are counted while the scroll timer runs, two once it has stopped. -/
theorem C33_scrolling_adds_at_most_one_witness :
    oneExpiredTwoFresh.isScrolling = true ∧
    oneExpiredTwoFresh.getCountOfMessagesToDisplay 0 false = 3 ∧
    (stopScroll oneExpiredTwoFresh).getCountOfMessagesToDisplay 0 false = 2 ∧
    ((stopScroll oneExpiredTwoFresh).getCountOfMessagesToDisplay 0 false ≤
      oneExpiredTwoFresh.getCountOfMessagesToDisplay 0 false ∧
    oneExpiredTwoFresh.getCountOfMessagesToDisplay 0 false ≤
      (stopScroll oneExpiredTwoFresh).getCountOfMessagesToDisplay 0 false + 1) :=
  ⟨by decide, by decide, by decide,
    C33_scrolling_adds_at_most_one 7000 freshTopDown oneExpiredTwoFresh 0 false
      (.insert _ _ _ _ (.insert _ _ _ _ (.tick _ _ _ (.insert _ _ _ _ .start))))
      (by decide) (by decide) (le_refl 0)⟩

/-! ## Which slots move the tail -/

theorem reachable_insertMany (e st : Nat) (mc : Int) (td : Bool)
    (ls : List (String × Color × Nat)) (d : ChatMessageDisplayer)
    (h : Reachable e st mc td d) : Reachable e st mc td (insertMany e ls d) := by
  induction ls generalizing d with
  | nil => exact h
  | cons x rest ih => exact ih _ (.insert d x.1 x.2.1 x.2.2 h)

/-- C34, failing input: in the reachable state `staggered` (`head = 25`, `tail = 1`, 24
live lines, the oldest of them at logical position 2 with its full 7000 ms to run) a tick
by 6990 ms advances tail by one, to 2, because the slot of the line evicted by the
overflow runs out; the oldest live slot was unexpired before the tick and still has 10 ms
left after it. -/
theorem C34_tail_advances_for_evicted_slot :
    Reachable 7000 100 5 true staggered ∧
    staggered.mFirst = 25 ∧ staggered.mLast = 1 ∧ staggered.getMessageCount = 24 ∧
    (staggered.slotAt 2).messageHasExpired = false ∧
    (staggered.idle 6990 false).mLast = 2 ∧
    ((staggered.idle 6990 false).slotAt 2).messageHasExpired = false ∧
    ((staggered.idle 6990 false).slotAt 2).timer.getCurrent = 10 :=
  ⟨reachable_insertMany 7000 100 5 true _ _ (.tick _ _ _ (.insert _ _ _ _ .init)),
    by decide, by decide, by decide, by decide, by decide, by decide, by decide⟩

/-! ## The live range without overflow -/

theorem reachableIT_of_reachableN (e : Nat) (d0 d : ChatMessageDisplayer) (n : Nat)
    (h : ReachableN e d0 n d) : ReachableIT e d0 d := by
  induction h with
  | start => exact .start
  | insert n d line c id _ ih => exact .insert d line c id ih
  | tick n d dt cm _ ih => exact .tick d dt cm ih

theorem reachableN_mFirst (e : Nat) (d0 d : ChatMessageDisplayer) (n : Nat)
    (h : ReachableN e d0 n d) (hn : n < U32_MOD) : d.mFirst = n := by
  induction h with
  | start => exact reset_mFirst d0
  | insert n d line c id _ ih =>
    rw [insertLine_mFirst, ih (by omega)]
    exact Nat.mod_eq_of_lt hn
  | tick n d dt cm _ ih => rw [idle_mFirst]; exact ih hn

/-- The physical slots selected by `P` are counted along the logical positions
`a + 1, ..., a + len` when each of them is the slot of one of these positions. -/
theorem countP_slots (P : Fin MSG_SLOTS → Bool) (a len : Nat) (hlen : len ≤ MSG_SLOTS)
    (hP : ∀ k, P k = true → ∃ i : Nat, a < i ∧ i ≤ a + len ∧ slotIndex i = k) :
    (List.finRange MSG_SLOTS).countP P =
      (List.range' (a + 1) len).countP (fun i => P (slotIndex i)) := by
  have hnd : ((List.range' (a + 1) len).map slotIndex).Nodup := by
    apply List.Nodup.map_on _ (List.nodup_range' _ _)
    intro x hx y hy hxy
    rw [List.mem_range'_1] at hx hy
    by_contra hne
    rcases Nat.lt_or_gt_of_ne hne with hlt | hgt
    · exact slotIndex_ne hlt (by omega) hxy
    · exact slotIndex_ne hgt (by omega) hxy.symm
  have hmap : (List.range' (a + 1) len).countP (fun i => P (slotIndex i)) =
      ((List.range' (a + 1) len).map slotIndex).countP P := by
    rw [List.countP_map]; rfl
  rw [hmap, List.countP_eq_length_filter, List.countP_eq_length_filter]
  apply List.Perm.length_eq
  rw [List.perm_ext_iff_of_nodup ((List.nodup_finRange _).filter _) (hnd.filter _)]
  intro k
  simp only [List.mem_filter, List.mem_finRange, true_and, List.mem_map, List.mem_range'_1]
  constructor
  · intro hk
    obtain ⟨i, h1, h2, h3⟩ := hP k hk
    exact ⟨⟨i, ⟨by omega, by omega⟩, h3⟩, hk⟩
  · exact fun hk => hk.2

/-- A predicate that is closed downwards on the positions `a + 1, ..., a + len` holds
exactly on the first `c` of them, `c` being the number of positions on which it holds. -/
theorem countP_downClosed (Q : Nat → Bool) (a len : Nat)
    (hQ : ∀ i j : Nat, a < i → i < j → j ≤ a + len → Q j = true → Q i = true) :
    (List.range' (a + 1) len).countP Q ≤ len ∧
    ∀ i : Nat, a < i → i ≤ a + len →
      (Q i = true ↔ i ≤ a + (List.range' (a + 1) len).countP Q) := by
  induction len with
  | zero =>
    refine ⟨by simp, fun i h1 h2 => ?_⟩
    omega
  | succ len ih =>
    obtain ⟨ih1, ih2⟩ := ih (fun i j h1 h2 h3 h4 => hQ i j h1 h2 (by omega) h4)
    rw [List.range'_1_concat, List.countP_append, List.countP_singleton]
    by_cases htop : Q (a + 1 + len) = true
    · have hall : ∀ i : Nat, a < i → i ≤ a + (len + 1) → Q i = true := by
        intro i h1 h2
        by_cases hi : i = a + 1 + len
        · rw [hi]; exact htop
        · exact hQ i (a + 1 + len) h1 (by omega) (by omega) htop
      have hcnt : (List.range' (a + 1) len).countP Q = len := by
        have h0 : (List.range' (a + 1) len).countP Q = (List.range' (a + 1) len).length := by
          rw [List.countP_eq_length]
          intro i hi
          rw [List.mem_range'_1] at hi
          exact hall i (by omega) (by omega)
        rw [h0, List.length_range']
      rw [if_pos htop, hcnt]
      refine ⟨le_refl _, fun i h1 h2 => ?_⟩
      constructor
      · intro _; omega
      · intro _; exact hall i h1 h2
    · rw [if_neg htop]
      refine ⟨by omega, fun i h1 h2 => ?_⟩
      by_cases hi : i = a + 1 + len
      · rw [hi]
        constructor
        · intro hq; exact absurd hq htop
        · intro hle; omega
      · rw [ih2 i h1 (by omega)]
        omega

theorem slot_report_iff_expires (m : ColorTimerString) (dt : Nat)
    (hf : m.timer.mCurrentCounter ≠ 0 → m.fadeTimer.mCurrentCounter = 0) :
    (m.idle dt).2 = true ↔
      (m.messageHasExpired = false ∧ (m.idle dt).1.messageHasExpired = true) := by
  constructor
  · intro hr
    refine ⟨?_, slot_report_expires m dt hf hr⟩
    rcases (slot_idle_report_iff m dt hf).mp hr with ⟨h1, _, _⟩ | ⟨_, h2, _⟩
    · cases hx : m.messageHasExpired
      · rfl
      · exact absurd ((slot_expired_iff m).mp hx).1 h1
    · cases hx : m.messageHasExpired
      · rfl
      · exact absurd ((slot_expired_iff m).mp hx).2 h2
  · rintro ⟨hb, ha⟩
    rw [slot_expired_iff, slot_idle_timer, slot_idle_fade] at ha
    rw [slot_idle_report_iff m dt hf]
    by_cases ht : m.timer.mCurrentCounter = 0
    · right
      have hfne : m.fadeTimer.mCurrentCounter ≠ 0 := by
        intro hf0
        have := (slot_expired_iff m).mpr ⟨ht, hf0⟩
        rw [this] at hb
        exact Bool.noConfusion hb
      have h2 := ha.2
      rw [if_neg (by omega)] at h2
      exact ⟨ht, hfne, by omega⟩
    · left
      have h2 := ha.2
      have h1 : m.timer.mCurrentCounter ≤ dt := by omega
      rw [if_pos ⟨ht, h1⟩] at h2
      refine ⟨ht, h1, ?_⟩
      cases hu : m.usingFadeTimer
      · rfl
      · rw [hu] at h2
        simp [FADE_TIME] at h2

theorem liveInv_reset (d0 : ChatMessageDisplayer) : LiveInv d0.reset := by
  refine ⟨by rw [reset_mFirst, reset_mLast], by rw [reset_mFirst]; omega, ?_, ?_⟩
  · intro i h1 h2 _
    rw [reset_mFirst] at h2
    omega
  · intro k hk
    rw [reset_mMessages, clearSlot_expired] at hk
    exact Bool.noConfusion hk

theorem set_not_expired (m : ColorTimerString) (s : String) (u : Bool) (c : Color)
    (e id : Nat) (he : 0 < e) : (m.set s u c e id).messageHasExpired = false := by
  cases hx : (m.set s u c e id).messageHasExpired
  · rfl
  · have := ((slot_expired_iff _).mp hx).1
    simp only [ColorTimerString.set, Timer.resetTo] at this
    omega

theorem liveInv_insertLine (e : Nat) (line : String) (c : Color) (id : Nat)
    (d : ChatMessageDisplayer) (he : 0 < e) (hL : LiveInv d) (hn : d.mFirst + 1 < U32_MOD)
    (hfull : (insertLine e line c id d).mFull = false) :
    LiveInv (insertLine e line c id d) := by
  obtain ⟨h1, h2, h3, h4⟩ := hL
  have hmod : (d.mFirst + 1) % U32_MOD = d.mFirst + 1 := Nat.mod_eq_of_lt hn
  have hc : ¬ d.mLast % MSG_SLOTS = (d.mFirst + 1) % MSG_SLOTS := by
    intro hc
    rw [insertLine_mFull, advanceFirst_mFull, hmod, if_pos hc] at hfull
    exact Bool.noConfusion hfull
  have hF : (insertLine e line c id d).mFirst = d.mFirst + 1 := by
    rw [insertLine_mFirst, hmod]
  have hT : (insertLine e line c id d).mLast = d.mLast := by
    rw [insertLine_mLast, advanceFirst_mLast, hmod, if_neg hc]
  have hM := insertLine_mMessages e line c id d
  rw [hmod] at hM
  simp only [MSG_SLOTS, MAX_MESSAGES] at hc h2
  refine ⟨by rw [hF, hT]; omega, ?_, ?_, ?_⟩
  · rw [hF, hT]
    simp only [MAX_MESSAGES]
    omega
  · intro i hi1 hi2 hi3
    rw [hF] at hi2 hi3
    rw [hT]
    unfold slotAt
    rw [hM]
    by_cases hi : i = d.mFirst + 1
    · subst hi
      rw [Function.update_same, set_not_expired _ _ _ _ _ _ he]
      constructor
      · intro hx; exact Bool.noConfusion hx
      · intro hle; omega
    · rw [Function.update_noteq (slotIndex_ne (by omega) hi3)]
      exact h3 i hi1 (by omega) (by omega)
  · intro k hk
    rw [hF, hT]
    by_cases hkk : k = slotIndex (d.mFirst + 1)
    · exact ⟨d.mFirst + 1, by omega, le_refl _, hkk.symm⟩
    · rw [hM, Function.update_noteq hkk] at hk
      obtain ⟨i, hi1, hi2, hi3⟩ := h4 k hk
      exact ⟨i, hi1, by omega, hi3⟩

/-- While the live range is the set of unexpired slots, a tick moves the tail past
exactly the live positions whose slots run out. -/
theorem liveInv_idle (e : Nat) (d : ChatMessageDisplayer) (dt : Nat) (cm : Bool)
    (hL : LiveInv d) (hA : AgeInv e d) : LiveInv (d.idle dt cm) := by
  obtain ⟨h1, h2, h3, h4⟩ := hL
  have hU := hA.1
  have hA2 := ageInv_idle e d dt cm hA
  have hfade : ∀ k, (d.mMessages k).timer.mCurrentCounter ≠ 0 →
      (d.mMessages k).fadeTimer.mCurrentCounter = 0 := fun k hk => ((hA.2.1 k).2.2.1 hk).2
  have hrep : ∀ k, ((d.mMessages k).idle dt).2 = true ↔
      ((d.mMessages k).messageHasExpired = false ∧
        ((d.mMessages k).idle dt).1.messageHasExpired = true) :=
    fun k => slot_report_iff_expires _ dt (hfade k)
  have hlive : ∀ i : Nat, d.mLast < i → i ≤ d.mFirst →
      (d.mMessages (slotIndex i)).messageHasExpired = false := by
    intro i hi1 hi2
    cases hx : (d.mMessages (slotIndex i)).messageHasExpired
    · rfl
    · have := (h3 i (by omega) hi2 (by simp only [MSG_SLOTS, MAX_MESSAGES] at h2 ⊢; omega)).mp hx
      omega
  have hslot : ∀ i : Nat, (d.idle dt cm).slotAt i = ((d.mMessages (slotIndex i)).idle dt).1 :=
    fun i => by unfold slotAt; rw [idle_mMessages]
  have hlen : d.mFirst - d.mLast ≤ MSG_SLOTS := by
    simp only [MSG_SLOTS, MAX_MESSAGES] at h2 ⊢; omega
  have hcount : tickReports d dt =
      (List.range' (d.mLast + 1) (d.mFirst - d.mLast)).countP
        (fun i => ((d.mMessages (slotIndex i)).idle dt).2) := by
    unfold tickReports expiryReports
    apply countP_slots (fun k => ((d.mMessages k).idle dt).2) d.mLast _ hlen
    intro k hk
    obtain ⟨i, hi1, hi2, hi3⟩ := h4 k ((hrep k).mp hk).1
    exact ⟨i, hi1, by omega, hi3⟩
  have hdown := countP_downClosed (fun i => ((d.mMessages (slotIndex i)).idle dt).2)
    d.mLast (d.mFirst - d.mLast) (by
      intro i j hi hij hj hq
      have hj2 : j ≤ d.mFirst := by omega
      simp only at hq ⊢
      rw [hrep] at hq ⊢
      refine ⟨hlive i hi (by omega), ?_⟩
      rw [← hslot]
      apply ageOrdered_expired _ hA2.2.2 i j (by omega) hij
      · rw [idle_mFirst]; exact hj2
      · rw [idle_mFirst]; simp only [MSG_SLOTS, MAX_MESSAGES] at h2 ⊢; omega
      · rw [hslot]; exact hq.2)
  rw [← hcount] at hdown
  obtain ⟨hd1, hd2⟩ := hdown
  have hT : (d.idle dt cm).mLast = d.mLast + tickReports d dt := by
    rw [idle_mLast]
    split_ifs with h0
    · omega
    · apply Nat.mod_eq_of_lt
      omega
  refine ⟨by rw [hT, idle_mFirst]; omega, by rw [hT, idle_mFirst]; omega, ?_, ?_⟩
  · intro i hi1 hi2 hi3
    rw [idle_mFirst] at hi2 hi3
    rw [hT, hslot]
    by_cases hi : i ≤ d.mLast
    · have hx := (h3 i hi1 hi2 hi3).mpr hi
      unfold slotAt at hx
      rw [slot_idle_quiet _ dt hx]
      constructor
      · intro _; omega
      · intro _; exact hx
    · have hq := hd2 i (by omega) (by omega)
      simp only at hq
      rw [hrep] at hq
      rw [← hq]
      constructor
      · intro hx; exact ⟨hlive i (by omega) hi2, hx⟩
      · intro hx; exact hx.2
  · intro k hk
    rw [idle_mMessages] at hk
    have hb : (d.mMessages k).messageHasExpired = false := by
      cases hx : (d.mMessages k).messageHasExpired
      · rfl
      · rw [slot_idle_quiet _ dt hx, hx] at hk
        exact Bool.noConfusion hk
    obtain ⟨i, hi1, hi2, hi3⟩ := h4 k hb
    rw [hT, idle_mFirst]
    refine ⟨i, ?_, hi2, hi3⟩
    by_contra hle
    have hq := (hd2 i hi1 (by omega)).mpr (by omega)
    simp only at hq
    rw [hrep, hi3, hk] at hq
    exact Bool.noConfusion hq.2

theorem liveInv_of_reachableN (e : Nat) (d0 d : ChatMessageDisplayer) (n : Nat)
    (he : 0 < e) (h : ReachableN e d0 n d) :
    n < U32_MOD → d.mFull = false → LiveInv d := by
  induction h with
  | start => exact fun _ _ => liveInv_reset d0
  | insert n d line c id hd ih =>
    intro hn hf
    have hf0 : d.mFull = false := by
      rw [insertLine_mFull, advanceFirst_mFull] at hf
      split_ifs at hf
      exact hf
    have hF := reachableN_mFirst e d0 d n hd (by omega)
    exact liveInv_insertLine e line c id d he (ih (by omega) hf0) (by rw [hF]; exact hn) hf
  | tick n d dt cm hd ih =>
    intro hn hf
    rw [idle_mFull] at hf
    exact liveInv_idle e d dt cm (ih hn hf)
      (ageInv_of_reachable e d0 d (reachableIT_of_reachableN e d0 d n hd))

theorem liveInv_count (d : ChatMessageDisplayer) (hL : LiveInv d) (hU : d.mFirst < U32_MOD) :
    d.getMessageCount = unexpiredSlots d := by
  obtain ⟨h1, h2, h3, h4⟩ := hL
  rw [getMessageCount_of_le d h1 hU]
  unfold unexpiredSlots
  rw [countP_slots (fun k => !(d.mMessages k).messageHasExpired) d.mLast
    (d.mFirst - d.mLast) (by simp only [MSG_SLOTS, MAX_MESSAGES] at h2 ⊢; omega) (by
      intro k hk
      obtain ⟨i, hi1, hi2, hi3⟩ := h4 k (by simpa using hk)
      exact ⟨i, hi1, by omega, hi3⟩)]
  have hall : (List.range' (d.mLast + 1) (d.mFirst - d.mLast)).countP
      (fun i => !(d.mMessages (slotIndex i)).messageHasExpired) =
      (List.range' (d.mLast + 1) (d.mFirst - d.mLast)).length := by
    rw [List.countP_eq_length]
    intro i hi
    rw [List.mem_range'_1] at hi
    cases hx : (d.mMessages (slotIndex i)).messageHasExpired
    · rfl
    · have := (h3 i (by omega) (by omega)
        (by simp only [MSG_SLOTS, MAX_MESSAGES] at h2 ⊢; omega)).mp hx
      omega
  rw [hall, List.length_range']

/-- C36, amended: in every state reached from reset by fewer than `2^32` inserts (with a
positive expiry duration) and any ticks, in which `insertLine`'s overflow branch was
never taken (`full = false`): `tail ≤ head ≤ tail + MAX_MESSAGES`; a retained logical
position `i`, `max(1, head - C + 1) ≤ i ≤ head`, is fully expired if and only if
`i ≤ tail`; and `messageCount()` equals the number of physical slots that are not fully
expired. -/
theorem C36_live_range (expireTime : Nat) (d0 d : ChatMessageDisplayer) (n : Nat)
    (he : 0 < expireTime) (hR : ReachableN expireTime d0 n d) (hn : n < U32_MOD)
    (hfull : d.mFull = false) :
    d.mLast ≤ d.mFirst ∧ d.mFirst ≤ d.mLast + MAX_MESSAGES ∧
    (∀ i : Nat, max 1 (d.mFirst + 1 - MSG_SLOTS) ≤ i → i ≤ d.mFirst →
      ((d.slotAt i).messageHasExpired = true ↔ i ≤ d.mLast)) ∧
    d.getMessageCount = unexpiredSlots d := by
  have hL := liveInv_of_reachableN expireTime d0 d n he hR hn hfull
  have hF := reachableN_mFirst expireTime d0 d n hR hn
  refine ⟨hL.1, hL.2.1, fun i hi1 hi2 => ?_, liveInv_count d hL (by rw [hF]; exact hn)⟩
  have hi3 : 1 ≤ i := le_trans (le_max_left _ _) hi1
  have hi4 : d.mFirst + 1 - MSG_SLOTS ≤ i := le_trans (le_max_right _ _) hi1
  exact hL.2.2.1 i hi3 hi2 (by simp only [MSG_SLOTS, MAX_MESSAGES] at hi4 ⊢; omega)

/-- C36, witness: one expired and two fresh lines; `tail = 1`, `head = 3`, two of the 25
physical slots are not fully expired. -/
theorem C36_live_range_witness :
    oneExpiredTwoFresh.mLast = 1 ∧ oneExpiredTwoFresh.mFirst = 3 ∧
    unexpiredSlots oneExpiredTwoFresh = 2 ∧
    (oneExpiredTwoFresh.mLast ≤ oneExpiredTwoFresh.mFirst ∧
    oneExpiredTwoFresh.mFirst ≤ oneExpiredTwoFresh.mLast + MAX_MESSAGES ∧
    (∀ i : Nat, max 1 (oneExpiredTwoFresh.mFirst + 1 - MSG_SLOTS) ≤ i →
      i ≤ oneExpiredTwoFresh.mFirst →
      ((oneExpiredTwoFresh.slotAt i).messageHasExpired = true ↔
        i ≤ oneExpiredTwoFresh.mLast)) ∧
    oneExpiredTwoFresh.getMessageCount = unexpiredSlots oneExpiredTwoFresh) :=
  ⟨by decide, by decide, by decide,
    C36_live_range 7000 freshTopDown oneExpiredTwoFresh 3 (by decide)
      (.insert _ _ _ _ _ (.insert _ _ _ _ _ (.tick _ _ _ _ (.insert _ _ _ _ _ .start))))
      (by decide) (by decide)⟩

theorem reachableN_cycles (e : Nat) (d0 d : ChatMessageDisplayer) (n k : Nat)
    (h : ReachableN e d0 n d) : ReachableN e d0 (n + k) (cycles e k d) := by
  induction k with
  | zero => exact h
  | succ k ih =>
    show ReachableN e d0 (n + k + 1)
      ((insertLine e "a" ⟨255, 255, 255⟩ 0 (cycles e k d)).idle e false)
    exact .tick _ _ _ _ (.insert _ _ _ _ _ ih)

theorem reachableN_insertMany (e : Nat) (d0 : ChatMessageDisplayer)
    (ls : List (String × Color × Nat)) (d : ChatMessageDisplayer) (n : Nat)
    (h : ReachableN e d0 n d) : ReachableN e d0 (n + ls.length) (insertMany e ls d) := by
  induction ls generalizing d n with
  | nil => exact h
  | cons x rest ih =>
    have := ih _ (n + 1) (.insert n d x.1 x.2.1 x.2.2 h)
    rw [List.length_cons, show n + (rest.length + 1) = n + 1 + rest.length by omega]
    exact this

/-- One line of a top-anchored buffer that expires before the next one arrives, received
with both counters at `k`: both counters stand at `k + 1` and there was no overflow. -/
theorem cycle_spec (e : Nat) (d0 S : ChatMessageDisplayer) (he : 0 < e) (k : Nat)
    (hk : k + 1 < U32_MOD) (hR : ReachableN e d0 k S) (ih1 : S.mFull = false)
    (ih2 : S.mFirst = k) (ih3 : S.mLast = k) (ih4 : S.mTopDown = true) :
    (cycle e S).mFull = false ∧ (cycle e S).mFirst = k + 1 ∧
    (cycle e S).mLast = k + 1 ∧ (cycle e S).mTopDown = true := by
  have hR2 : ReachableN e d0 (k + 1) (cycle e S) := .tick _ _ _ _ (.insert _ _ _ _ _ hR)
  unfold cycle at hR2 ⊢
  have hmod : (S.mFirst + 1) % U32_MOD = S.mFirst + 1 := by
    rw [ih2]; exact Nat.mod_eq_of_lt hk
  have hc : ¬ S.mLast % MSG_SLOTS = (S.mFirst + 1) % MSG_SLOTS := by
    rw [ih2, ih3]; simp only [MSG_SLOTS, MAX_MESSAGES]; omega
  have hfull : ((insertLine e "a" ⟨255, 255, 255⟩ 0 S).idle e false).mFull = false := by
    rw [idle_mFull, insertLine_mFull, advanceFirst_mFull, hmod, if_neg hc]
    exact ih1
  have hfirst : ((insertLine e "a" ⟨255, 255, 255⟩ 0 S).idle e false).mFirst = k + 1 := by
    rw [idle_mFirst, insertLine_mFirst, hmod, ih2]
  obtain ⟨l1, _, l3, _⟩ := liveInv_of_reachableN e d0 _ (k + 1) he hR2 hk hfull
  rw [hfirst] at l1 l3
  have hexp : (((insertLine e "a" ⟨255, 255, 255⟩ 0 S).idle e false).slotAt
      (k + 1)).messageHasExpired = true := by
    unfold slotAt
    rw [idle_mMessages, insertLine_mMessages, hmod, ih2, Function.update_same,
      slot_expired_iff, slot_idle_timer, slot_idle_fade, ih4]
    simp [ColorTimerString.set, Timer.resetTo, Timer.clear]
  have hge := (l3 (k + 1) (by omega) (le_refl _)
    (by simp only [MSG_SLOTS, MAX_MESSAGES]; omega)).mp hexp
  refine ⟨hfull, hfirst, le_antisymm l1 hge, ?_⟩
  rw [idle_mTopDown, insertLine_mTopDown]
  exact ih4

/-- Lines of a top-anchored buffer that each expire before the next one arrives: after
`k < 2^32` of them both counters stand at `k` and the buffer never overflowed. -/
theorem cycles_spec (e : Nat) (d0 : ChatMessageDisplayer) (he : 0 < e)
    (htd : d0.mTopDown = true) (k : Nat) (hk : k < U32_MOD) :
    (cycles e k d0.reset).mFull = false ∧ (cycles e k d0.reset).mFirst = k ∧
    (cycles e k d0.reset).mLast = k ∧ (cycles e k d0.reset).mTopDown = true := by
  induction k with
  | zero =>
    exact ⟨reset_mFull d0, reset_mFirst d0, reset_mLast d0,
      by rw [← htd]; exact reset_mTopDown d0⟩
  | succ k ih =>
    obtain ⟨ih1, ih2, ih3, ih4⟩ := ih (by omega)
    have hR := reachableN_cycles e d0 _ 0 k .start
    rw [Nat.zero_add] at hR
    show (cycle e (cycles e k d0.reset)).mFull = false ∧
      (cycle e (cycles e k d0.reset)).mFirst = k + 1 ∧
      (cycle e (cycles e k d0.reset)).mLast = k + 1 ∧
      (cycle e (cycles e k d0.reset)).mTopDown = true
    exact cycle_spec e d0 _ he k hk hR ih1 ih2 ih3 ih4

/-- C36, counterexample: (1) after 24 lines that expired together and two fresh lines
(`head = 26`, `tail = 24`, `full = false`), logical position 1 is at or below the tail
but its physical slot, reused by the newest line, is not fully expired; (2) after
`2^32 - 1` lines that each expired before the next arrived and one more line, the head
counter has wrapped to 0 while the tail stands at `2^32 - 1`, so `tail ≤ head` fails
with `full = false`. -/
theorem C36_counterexample :
    (ReachableN 7000 freshTopDown 26 slotReused ∧ slotReused.mFull = false ∧
      slotReused.mFirst = 26 ∧ slotReused.mLast = 24 ∧
      (slotReused.slotAt 1).messageHasExpired = false) ∧
    (ReachableN 7000 freshTopDown 4294967296 wrappedNotFull ∧
      wrappedNotFull.mFull = false ∧ wrappedNotFull.mFirst = 0 ∧
      wrappedNotFull.mLast = 4294967295 ∧ ¬ wrappedNotFull.mLast ≤ wrappedNotFull.mFirst) := by
  refine ⟨⟨?_, by decide, by decide, by decide, by decide⟩, ?_⟩
  · exact reachableN_insertMany 7000 freshTopDown (List.replicate 2 sampleLine) _ 24
      (.tick _ _ _ _
        (reachableN_insertMany 7000 freshTopDown (List.replicate 24 sampleLine) _ 0 .start))
  · have hr : ReachableN 7000 freshTopDown 4294967296 wrappedNotFull :=
      .insert 4294967295 _ _ _ _
        (reachableN_cycles 7000 freshTopDown freshTopDown.reset 0 4294967295 .start)
    obtain ⟨c1, c2, c3, _⟩ :=
      cycles_spec 7000 freshTopDown (by decide) (by decide) 4294967295 (by decide)
    have hc : ¬ (4294967295 % MSG_SLOTS = ((4294967295 + 1) % U32_MOD) % MSG_SLOTS) := by
      decide
    have hF : wrappedNotFull.mFirst = 0 := by
      unfold wrappedNotFull
      rw [insertLine_mFirst, c2]
      decide
    have hT : wrappedNotFull.mLast = 4294967295 := by
      unfold wrappedNotFull
      rw [insertLine_mLast, advanceFirst_mLast, c2, c3, if_neg hc]
    have hfl : wrappedNotFull.mFull = false := by
      unfold wrappedNotFull
      rw [insertLine_mFull, advanceFirst_mFull, c2, c3, if_neg hc]
      exact c1
    refine ⟨hr, hfl, hF, hT, ?_⟩
    rw [hF, hT]
    decide

end Zap
